import Mathlib

/-!
Verification of the QuizForge compiler core against its specification.

This file gives a shallow embedding, in Lean 4, of the parts of the
QuizForge code base that the specification's testable claims are about:

* the question/quiz data model (`engine/core/questions.py`, `quiz.py`,
  `answers.py`),
* the numeric tolerance engine
  (`engine/parsing/text_parser.py::_resolve_numerical_bounds` and friends),
* the point allocator (`engine/validation/point_calculator.py`),
* the fairness rules (`engine/validation/rules/fairness_rules.py`),
* the structural validator (`engine/validation/rules/structure_rules.py`
  and `engine/validation/validator.py`),
* text sanitisation (`engine/utils/text_utils.py`,
  `engine/validation/fixers/text_cleaner.py`),
* the block parser (`engine/parsing/text_parser.py::_parse_block`),
* the render-mode gated HTML formatter
  (`engine/rendering/canvas/html_formatter.py`),
* Canvas numeric literal formatting
  (`engine/rendering/canvas/numerical_renderer.py::_format_decimal`), and
* the QTI builder / round-trip verifier
  (`engine/rendering/canvas/qti_builder.py`, `qti_roundtrip.py`).

Modelling conventions:

* Python `Decimal` values and `float` values are both modelled as exact
  rationals (`ℚ`).  Decimal context rounding (28 significant digits) and
  binary floating point rounding are not modelled; none of the verified
  claims depends on those rounding effects.
* Python `math.floor(math.log10(abs(x)))` is modelled by `Int.log 10 |x|`,
  its exact mathematical value.
* Functions that `raise ValueError` are modelled in the `Except String`
  monad; the error payload carries the message text.
* In-place mutation of question objects is modelled by returning updated
  copies.
-/

namespace QuizForge

/-! ## Python-style numeric helpers -/

/-- Python `int(x)` on a float/rational: truncation toward zero. -/
def pyTrunc (q : ℚ) : Int := if 0 ≤ q then ⌊q⌋ else -⌊-q⌋

/-- Python `round(x)` (and `"%.0f"` formatting) on a rational:
round half to even. -/
def roundHalfEven (q : ℚ) : Int :=
  let f := ⌊q⌋
  let r := q - f
  if r < 1/2 then f else if 1/2 < r then f + 1 else if f % 2 = 0 then f else f + 1

/-! ## Python-style string helpers

All string manipulation is implemented structurally over `List Char` (and
wrapped back into `String`), so that concrete runs of the embedded code reduce
inside the kernel. -/

/-- Characters stripped by Python `str.strip()`. -/
def isPySpace (c : Char) : Bool :=
  c = ' ' || c = '\t' || c = '\n' || c = '\r' || c = '\x0b' || c = '\x0c'

/-- `str.strip()` on a character list. -/
def pyStripL (l : List Char) : List Char :=
  ((l.dropWhile isPySpace).reverse.dropWhile isPySpace).reverse

/-- Python `s.strip()`. -/
def pyStrip (s : String) : String := ⟨pyStripL s.data⟩

/-- Python `s.lower()` (ASCII case folding, which is all the sources use). -/
def pyLower (s : String) : String := ⟨s.data.map Char.toLower⟩

/-- Python `s.startswith(pre)`. -/
def pyStartsWith (s pre : String) : Bool := pre.data.isPrefixOf s.data

/-! ## Question model (`engine/core/questions.py`, `engine/core/answers.py`) -/

/-- `MCChoice`: a single choice option in an MC/MA question. -/
structure MCChoice where
  text : String
  correct : Bool := false
deriving Repr, DecidableEq

/-- `MatchingPair`: a prompt/answer pair in a matching question. -/
structure MatchingPair where
  prompt : String
  answer : String
deriving Repr, DecidableEq

/-- `OrderingItem`: one item of an ordering question. -/
structure OrderingItem where
  text : String
  ident : String
deriving Repr, DecidableEq

/-- `CategoryMapping`: maps an item to its category. -/
structure CategoryMapping where
  itemText : String
  itemIdent : String
  categoryName : String
deriving Repr, DecidableEq

/-- `NumericalAnswer`: scoring specification for numerical questions.
`Decimal` fields are modelled as `ℚ`. -/
structure NumericalAnswer where
  answer : Option ℚ := none
  toleranceMode : String := "exact"
  marginValue : Option ℚ := none
  rangeMin : Option ℚ := none
  rangeMax : Option ℚ := none
  precisionValue : Option Int := none
  lowerBound : Option ℚ := none
  upperBound : Option ℚ := none
  strictLower : Bool := false
deriving Repr, DecidableEq

/-- Variant payload of a question.  Each constructor corresponds to one
`Question` subclass of `engine/core/questions.py`; `isinstance` checks in the
source become matches on this payload. -/
inductive QPayload where
  | mc (choices : List MCChoice)
  | tf (answerTrue : Bool)
  | ma (choices : List MCChoice)
  | numerical (answer : NumericalAnswer)
  | essay
  | fileUpload
  | matching (pairs : List MatchingPair)
  | fitb (variants : List String) (blankToken : Option String)
  | ordering (items : List OrderingItem) (header : Option String)
  | categorization (categories : List String) (categoryIdents : List (String × String))
      (items : List CategoryMapping) (distractors : List String)
      (distractorIdents : List (String × String))
  | stimulus
  | stimulusEnd
deriving Repr, DecidableEq

/-- `Question`: common fields of all question dataclasses plus the variant
payload. -/
structure Question where
  qtype : String
  prompt : String
  points : ℚ := 10
  pointsSet : Bool := false
  parentStimulusIdent : Option String := none
  forcedIdent : Option String := none
  payload : QPayload
deriving Repr, DecidableEq

/-- `Quiz`: title plus ordered question list (`engine/core/quiz.py`). -/
structure Quiz where
  title : String
  questions : List Question := []
  rationales : List String := []
deriving Repr, DecidableEq

namespace Question

/-- `isinstance(q, StimulusItem)` -/
def isStimulusItem (q : Question) : Bool :=
  match q.payload with | .stimulus => true | _ => false

/-- `isinstance(q, StimulusEnd)` -/
def isStimulusEnd (q : Question) : Bool :=
  match q.payload with | .stimulusEnd => true | _ => false

/-- `isinstance(q, (StimulusItem, StimulusEnd))`: excluded from scoring. -/
def isStructural (q : Question) : Bool := q.isStimulusItem || q.isStimulusEnd

/-- `isinstance(q, MCQuestion)` -/
def isMC (q : Question) : Bool :=
  match q.payload with | .mc _ => true | _ => false

end Question

/-! ## Tolerance engine
(`engine/parsing/text_parser.py::TextOutlineParser._resolve_numerical_bounds`,
`_compute_significant_digit_bounds`, `_compute_decimal_place_bounds`). -/

/-- `_compute_significant_digit_bounds(answer, sig_digits)`.
`math.floor(math.log10(abs(float(answer))))` is modelled by
`Int.log 10 |answer|`. -/
def computeSignificantDigitBounds (answer : ℚ) (sigDigits : Int) :
    Except String (ℚ × ℚ) :=
  if sigDigits < 0 then .error "Significant digits must be non-negative."
  else
    let offset : ℚ :=
      if answer = 0 then 1/2
      else
        let exponent : Int := Int.log 10 |answer|
        let offsetExponent : Int := exponent - sigDigits + 1
        (1/2) * (10 : ℚ) ^ offsetExponent
    .ok (answer - offset, answer + offset)

/-- `_compute_decimal_place_bounds(answer, decimal_places)`. -/
def computeDecimalPlaceBounds (answer : ℚ) (decimalPlaces : Int) :
    Except String (ℚ × ℚ) :=
  if decimalPlaces < 0 then .error "Decimal places must be non-negative."
  else
    let offset : ℚ := (1/2) * (10 : ℚ) ^ (-decimalPlaces)
    .ok (answer - offset, answer + offset)

/-- Branch of `_resolve_numerical_bounds` for mode `"exact"`. -/
def resolveExact (answer : Option ℚ) : Except String (ℚ × ℚ × Bool) :=
  match answer with
  | none => .error "Numerical question requires an Answer value."
  | some a => .ok (a, a, false)

/-- Branch of `_resolve_numerical_bounds` for mode `"percent_margin"`:
`offset = answer.copy_abs() * (abs(margin) / 100)`. -/
def resolvePercentMargin (answer margin : Option ℚ) : Except String (ℚ × ℚ × Bool) :=
  match answer, margin with
  | none, _ => .error "Percent margin mode requires an Answer value."
  | some _, none => .error "Percent margin mode requires a Tolerance value."
  | some a, some m =>
      let offset := |a| * (|m| / 100)
      .ok (a - offset, a + offset, false)

/-- Branch of `_resolve_numerical_bounds` for mode `"absolute_margin"`:
`offset = abs(margin)`. -/
def resolveAbsoluteMargin (answer margin : Option ℚ) : Except String (ℚ × ℚ × Bool) :=
  match answer, margin with
  | none, _ => .error "Absolute margin mode requires an Answer value."
  | some _, none => .error "Absolute margin mode requires a Tolerance value."
  | some a, some m =>
      let offset := |m|
      .ok (a - offset, a + offset, false)

/-- Branch of `_resolve_numerical_bounds` for mode `"range"`. -/
def resolveRange (rangeMin rangeMax : Option ℚ) : Except String (ℚ × ℚ × Bool) :=
  match rangeMin, rangeMax with
  | some lo, some hi => .ok (lo, hi, false)
  | _, _ => .error "Range mode requires both minimum and maximum values."

/-- Branch of `_resolve_numerical_bounds` for mode `"significant_digits"`. -/
def resolveSigDigits (answer : Option ℚ) (precision : Option Int) :
    Except String (ℚ × ℚ × Bool) :=
  match answer, precision with
  | some a, some p =>
      (match computeSignificantDigitBounds a p with
       | .error e => .error e
       | .ok (lower, upper) => .ok (lower, upper, true))
  | _, _ => .error "Significant digits mode requires Answer and Precision values."

/-- Branch of `_resolve_numerical_bounds` for mode `"decimal_places"`. -/
def resolveDecimalPlaces (answer : Option ℚ) (precision : Option Int) :
    Except String (ℚ × ℚ × Bool) :=
  match answer, precision with
  | some a, some p =>
      (match computeDecimalPlaceBounds a p with
       | .error e => .error e
       | .ok (lower, upper) => .ok (lower, upper, true))
  | _, _ => .error "Decimal places mode requires Answer and Precision values."

/-- `TextOutlineParser._resolve_numerical_bounds`.  Returns
`(lower_bound, upper_bound, strict_lower_bound_flag)`. -/
def resolveNumericalBounds (answer : Option ℚ) (mode : String) (margin : Option ℚ)
    (rangeMin rangeMax : Option ℚ) (precision : Option Int) :
    Except String (ℚ × ℚ × Bool) :=
  if mode = "exact" then resolveExact answer
  else if mode = "percent_margin" then resolvePercentMargin answer margin
  else if mode = "absolute_margin" then resolveAbsoluteMargin answer margin
  else if mode = "range" then resolveRange rangeMin rangeMax
  else if mode = "significant_digits" then resolveSigDigits answer precision
  else if mode = "decimal_places" then resolveDecimalPlaces answer precision
  else .error ("Unsupported tolerance mode '" ++ mode ++ "'.")

/-! ## `NumericalAnswer.validate` (`engine/core/answers.py`) -/

namespace NumericalAnswer

/-- `NumericalAnswer.validate`: internal-consistency errors, in source order. -/
def validate (spec : NumericalAnswer) : List String :=
  let mode := spec.toleranceMode
  let answerErrors :=
    if mode ≠ "range" ∧ spec.answer = none then ["Numerical question requires answer"]
    else []
  let modeErrors :=
    if mode = "percent_margin" then
      match spec.marginValue with
      | none => ["Percent margin requires tolerance value"]
      | some m => if m < 0 then ["Percent margin must be non-negative"] else []
    else if mode = "absolute_margin" then
      match spec.marginValue with
      | none => ["Absolute margin requires tolerance value"]
      | some m => if m < 0 then ["Absolute margin must be non-negative"] else []
    else if mode = "significant_digits" then
      match spec.precisionValue with
      | none => ["Significant digits mode requires precision value"]
      | some p => if p < 0 then ["Precision must be non-negative"] else []
    else if mode = "decimal_places" then
      match spec.precisionValue with
      | none => ["Decimal places mode requires precision value"]
      | some p => if p < 0 then ["Precision must be non-negative"] else []
    else if mode = "range" then
      match spec.rangeMin, spec.rangeMax with
      | some lo, some hi =>
          if lo ≥ hi then ["Range minimum must be less than maximum"] else []
      | _, _ => ["Range mode requires both minimum and maximum values"]
    else []
  let boundsErrors :=
    match spec.lowerBound, spec.upperBound with
    | some lo, some hi =>
        if lo > hi then ["Lower bound cannot exceed upper bound"] else []
    | _, _ => ["Computed bounds missing for numerical question"]
  answerErrors ++ modeErrors ++ boundsErrors

end NumericalAnswer

/-! ## Point allocator (`engine/validation/point_calculator.py`) -/

/-- `SHARE_WEIGHTS.get(qtype, 1)`. -/
def shareWeight (qtype : String) : ℚ :=
  if qtype = "TF" then 1
  else if qtype = "MC" then 1
  else if qtype = "MA" then 1
  else if qtype = "FITB" then 1
  else if qtype = "NUMERICAL" then 1
  else if qtype = "CATEGORIZATION" then 1
  else if qtype = "MATCHING" then 2
  else if qtype = "ORDERING" then 2
  else if qtype = "ESSAY" then 4
  else if qtype = "FILEUPLOAD" then 4
  else 1

/-- Stable insertion (descending by the rational key component): models one
step of Python's stable `list.sort(key=..., reverse=True)`. -/
def insertByRemDesc (x : Nat × Int × ℚ) :
    List (Nat × Int × ℚ) → List (Nat × Int × ℚ)
  | [] => [x]
  | y :: ys => if y.2.2 ≤ x.2.2 then x :: y :: ys else y :: insertByRemDesc x ys

/-- Stable sort, descending by remainder: models
`provisional.sort(key=lambda tup: tup[2], reverse=True)`. -/
def sortByRemDesc (l : List (Nat × Int × ℚ)) : List (Nat × Int × ℚ) :=
  l.foldr insertByRemDesc []

/-- The remainder-distribution loop of `calculate_points`: walks the sorted
provisional list handing out `bonus = 1 if remainder_points > 0 else 0` and
decrementing the counter. -/
def assignBonus : Int → List (Nat × Int × ℚ) → List (Nat × Int)
  | _, [] => []
  | rp, (i, f, _) :: rest =>
      let b : Int := if 0 < rp then 1 else 0
      (i, f + b) :: assignBonus (rp - b) rest

/-- `provisional[-1][0].points = int(provisional[-1][0].points) + drift`:
adds the drift to the last entry. -/
def addToLast (d : Int) : List (Nat × Int) → List (Nat × Int)
  | [] => []
  | [x] => [(x.1, x.2 + d)]
  | x :: rest => x :: addToLast d rest

/-- Look up the point value assigned to position `i`. -/
def lookupPts (pts : List (Nat × Int)) (i : Nat) : Option Int :=
  match pts.find? (fun p => p.1 == i) with
  | some p => some p.2
  | none => none

/-- Write the computed point values back onto the question list (the pure
counterpart of the in-place `q.points = ...; q.points_set = True`
mutations). -/
def applyPoints (questions : List Question) (pts : List (Nat × Int)) :
    List Question :=
  questions.enum.map (fun p =>
    match lookupPts pts p.1 with
    | some v => { p.2 with points := (v : ℚ), pointsSet := true }
    | none => p.2)

/-- `scorable = [q for q in questions if not isinstance(q, (StimulusItem,
StimulusEnd))]`, with each question paired with its position (positions stand
in for the Python object identities that the source mutates). -/
def cpScorable (questions : List Question) : List (Nat × Question) :=
  questions.enum.filter (fun p => ¬ p.2.isStructural)

/-- `shares = [(q, SHARE_WEIGHTS.get(q.qtype, 1)) for q in to_assign]`. -/
def cpShares (questions : List Question) : List (Nat × Question × ℚ) :=
  (cpScorable questions).map (fun p => (p.1, p.2, shareWeight p.2.qtype))

/-- `total_shares = sum(weight for _, weight in shares)`. -/
def cpTotalShares (questions : List Question) : ℚ :=
  ((cpShares questions).map (fun s => s.2.2)).sum

/-- `provisional`: `(question, floor_points, remainder)` triples, with
`raw = weight * value_per_share`, `floor_points = int(raw)`. -/
def cpProvisional (questions : List Question) (totalPoints : Int) :
    List (Nat × Int × ℚ) :=
  (cpShares questions).map (fun s =>
    let raw := s.2.2 * ((totalPoints : ℚ) / cpTotalShares questions)
    let floorPoints := pyTrunc raw
    (s.1, floorPoints, raw - (floorPoints : ℚ)))

/-- The bonus-and-drift phase of `calculate_points`: sort by remainder
(descending, stable), hand out the remainder points, then adjust the last
entry by any residual drift so the total matches exactly. -/
def cpAdjusted (questions : List Question) (totalPoints : Int) :
    List (Nat × Int) :=
  let provisional := cpProvisional questions totalPoints
  let assignedTotal : Int := (provisional.map (fun t => t.2.1)).sum
  let remainderPoints :=
    roundHalfEven ((totalPoints : ℚ) - (assignedTotal : ℚ))
  let sorted := sortByRemDesc provisional
  let withBonus := assignBonus remainderPoints sorted
  let finalTotal : Int := (withBonus.map (fun t => t.2)).sum
  let drift := totalPoints - finalTotal
  if drift ≠ 0 then addToLast drift withBonus else withBonus

/-- `calculate_points(questions, total_points)`
(`engine/validation/point_calculator.py`): share-weighted floor division,
largest-remainder distribution of the leftover, and a final drift adjustment
on the last (sorted) scorable question. -/
def calculatePoints (questions : List Question) (totalPoints : Int) :
    List Question :=
  if cpScorable questions = [] then questions
  else if cpTotalShares questions = 0 then questions
  else applyPoints questions (cpAdjusted questions totalPoints)

/-- Sum of points over scorable questions (`Quiz.total_points` restricted to
scorable questions, as the claim states it). -/
def scorablePoints (qs : List Question) : ℚ :=
  ((qs.filter (fun q => ¬ q.isStructural)).map (fun q => q.points)).sum

/-! ## Fairness rules (`engine/validation/rules/fairness_rules.py`) -/

/-- `META_ANSWERS`: the fixed closed set of standardized meta-answer
phrasings (matched exactly against the stripped choice text). -/
def metaAnswers : List String :=
  ["No change is needed", "All of the above", "None of the above",
   "Both A and B", "Both A and C", "Both A and D", "Both B and C",
   "Both B and D", "Both C and D", "Neither is correct"]

/-- `META_ANSWER_SUGGESTIONS`: lowercase non-standard variants mapped to the
standardized phrasing. -/
def metaAnswerSuggestions : List (String × String) :=
  [("no changes are needed", "No change is needed"),
   ("no change needed", "No change is needed"),
   ("no correction required", "No change is needed"),
   ("no correction is needed", "No change is needed"),
   ("no changes needed", "No change is needed"),
   ("no changes are needed in this sentence", "No change is needed"),
   ("no change needed for this one", "No change is needed"),
   ("no correction required here", "No change is needed"),
   ("all three sentences", "All of the above"),
   ("all are correct", "All of the above"),
   ("all of these", "All of the above"),
   ("all choices", "All of the above"),
   ("all three choices", "All of the above"),
   ("all sentences equally support", "All of the above"),
   ("none are correct", "None of the above"),
   ("none of the choices", "None of the above"),
   ("neither a nor b", "Neither is correct"),
   ("both are correct", "Both A and B"),
   ("both a and c are correct", "Both A and C"),
   ("both a and d are correct", "Both A and D"),
   ("both b and c are correct", "Both B and C"),
   ("both b and d are correct", "Both B and D"),
   ("both c and d are correct", "Both C and D")]

/-- `_suggest_meta_answer(choice_text)`. -/
def suggestMetaAnswer (choiceText : String) : Option String :=
  if choiceText = "" then none
  else
    match metaAnswerSuggestions.find? (fun p => p.1 == pyLower (pyStrip choiceText)) with
    | some p => some p.2
    | none => none

/-- `_is_meta_answer(text)`. -/
def isMetaAnswer (text : String) : Bool :=
  if text = "" then false else metaAnswers.contains (pyStrip text)

/-- `check_fairness(quiz)`: the fairness entry point invoked by the validation
pipeline.  It returns no messages ("length bias is treated as an error
elsewhere", per its docstring). -/
def checkFairness (_quiz : Quiz) : List String := []

/-- Choice list of an MC/MA question (`question.choices`). -/
def questionChoices (q : Question) : List MCChoice :=
  match q.payload with
  | .mc cs => cs
  | .ma cs => cs
  | _ => []

/-- Python `max(choices, key=lambda c: len(c.text))`: first maximal element. -/
def maxByTextLen (head : MCChoice) (rest : List MCChoice) : MCChoice :=
  rest.foldl (fun acc c => if acc.text.length < c.text.length then c else acc) head

/-- Python `min(choices, key=lambda c: len(c.text))`: first minimal element. -/
def minByTextLen (head : MCChoice) (rest : List MCChoice) : MCChoice :=
  rest.foldl (fun acc c => if c.text.length < acc.text.length then c else acc) head

/-- Counters accumulated by the `check_length_bias` loop. -/
structure LengthBiasCounts where
  longestCorrect : Nat
  shortestCorrect : Nat
  total : Nat
deriving Repr, DecidableEq

/-- One iteration of the `check_length_bias` loop over an MC question:
skip when there are no choices, drop meta-answers, skip when fewer than two
substantive choices remain, otherwise count whether the longest/shortest
substantive choice is correct. -/
def lengthBiasStep (acc : LengthBiasCounts) (q : Question) : LengthBiasCounts :=
  let cs := questionChoices q
  if cs = [] then acc
  else
    match cs.filter (fun c => ¬ isMetaAnswer c.text) with
    | c0 :: c1 :: restSubs =>
        let longest := maxByTextLen c0 (c1 :: restSubs)
        let shortest := minByTextLen c0 (c1 :: restSubs)
        { longestCorrect := acc.longestCorrect + (if longest.correct then 1 else 0),
          shortestCorrect := acc.shortestCorrect + (if shortest.correct then 1 else 0),
          total := acc.total + 1 }
    | _ => acc

/-- The full counting loop of `check_length_bias`. -/
def lengthBiasCounts (mcqs : List Question) : LengthBiasCounts :=
  mcqs.foldl lengthBiasStep ⟨0, 0, 0⟩

/-- The suggestion-collection loop shared by both bias messages: for each MC
question, the first correct choice's text is looked up among the known
non-standard variants, and new suggestions are appended in order. -/
def collectSuggestions (mcqs : List Question) : List String :=
  mcqs.foldl (fun found q =>
    let cs := questionChoices q
    if cs = [] then found
    else
      match cs.find? (fun c => c.correct) with
      | some c =>
          match suggestMetaAnswer c.text with
          | some s => if found.contains s then found else found ++ [s]
          | none => found
      | none => found) []

/-- Python `f"{x:.0f}"`. -/
def pctString (q : ℚ) : String := toString (roundHalfEven q)

/-- The `💡 Tip` suffix appended when non-standard meta-answer variants are
among the correct choices. -/
def tipSuffix (suggestions : List String) : String :=
  "\n  💡 Tip: Consider using standardized meta-answer(s): " ++
    String.intercalate ", " (suggestions.map (fun s => "'" ++ s ++ "'"))

/-- Percentage of evaluated questions whose longest substantive choice is
correct. -/
def longestPctOf (mcqs : List Question) : ℚ :=
  ((lengthBiasCounts mcqs).longestCorrect : ℚ) / ((lengthBiasCounts mcqs).total : ℚ) * 100

/-- Percentage of evaluated questions whose shortest substantive choice is
correct. -/
def shortestPctOf (mcqs : List Question) : ℚ :=
  ((lengthBiasCounts mcqs).shortestCorrect : ℚ) / ((lengthBiasCounts mcqs).total : ℚ) * 100

/-- `check_length_bias(quiz)` (`engine/validation/rules/fairness_rules.py`). -/
def checkLengthBias (quiz : Quiz) : List String :=
  let mcqs := quiz.questions.filter (fun q => q.isMC)
  if mcqs.length < 3 then []
  else
    let counts := lengthBiasCounts mcqs
    if counts.total = 0 then []
    else
      let suggestions := collectSuggestions mcqs
      let longestMsgs :=
        if 60 ≤ longestPctOf mcqs then
          [("Longest answer is correct in " ++ pctString (longestPctOf mcqs) ++
              "% of MC questions (" ++ toString counts.longestCorrect ++ "/" ++
              toString counts.total ++
              "). Balance answer lengths by shortening correct answers or lengthening distractors so the right answer is not obviously the longest.") ++
            (if suggestions ≠ [] then tipSuffix suggestions else "")]
        else []
      let shortestMsgs :=
        if 60 ≤ shortestPctOf mcqs then
          [("Shortest answer is correct in " ++ pctString (shortestPctOf mcqs) ++
              "% of MC questions (" ++ toString counts.shortestCorrect ++ "/" ++
              toString counts.total ++
              "). Balance answer lengths by padding distractors or tightening the correct answer so it is not obviously the shortest.") ++
            (if suggestions ≠ [] then tipSuffix suggestions else "")]
        else []
      longestMsgs ++ shortestMsgs

/-! ## Structural validation (`engine/validation/rules/structure_rules.py`)
and the orchestrator (`engine/validation/validator.py`). -/

/-- `validate_render_mode(quiz)`
(`engine/validation/rules/render_mode_rules.py`): deprecated, always returns
no errors. -/
def validateRenderMode (_quiz : Quiz) : List String := []

/-- `getattr(question, "header", None)`: only ordering questions carry a
header. -/
def headerOf (q : Question) : Option String :=
  match q.payload with
  | .ordering _ h => h
  | _ => none

/-- Python truthiness of an optional string. -/
def pyTruthyStr : Option String → Bool
  | none => false
  | some s => s ≠ ""

/-- `not s or not s.strip()`: empty or whitespace-only. -/
def isBlank (s : String) : Bool := s = "" || pyStrip s = ""

/-- The prompt after the validator's header-reuse auto-fix:
`if (not prompt or not prompt.strip()) and getattr(question, "header", None):
question.prompt = header`. -/
def promptAfterHeaderFix (q : Question) : String :=
  if isBlank q.prompt && pyTruthyStr (headerOf q) then
    (headerOf q).getD q.prompt
  else q.prompt

/-- `correct_count = sum(1 for c in question.choices if c.correct)`. -/
def correctCountOf (choices : List MCChoice) : Nat :=
  (choices.filter (fun c => c.correct)).length

/-- `_validate_mc`. -/
def validateMC (choices : List MCChoice) (pfx : String) : List String :=
  if choices = [] then
    [pfx ++ ": MC question missing Choices field; add a 'choices' array with 2-7 options and mark exactly one as correct:true."]
  else
    (if choices.length < 2 then
      [pfx ++ ": MC question must have at least 2 choices; add another option so students have a real choice."]
     else []) ++
    (if 7 < choices.length then
      [pfx ++ ": MC question can have at most 7 choices; trim extras to keep the item readable."]
     else []) ++
    (if correctCountOf choices = 0 then
       [pfx ++ ": MC question must have exactly 1 correct choice (found 0); set one option to correct:true."]
     else if 1 < correctCountOf choices then
       [pfx ++ ": MC question must have exactly 1 correct choice (found " ++
          toString (correctCountOf choices) ++ "); only one option should be marked correct:true."]
     else [])

/-- `_validate_ma`. -/
def validateMA (choices : List MCChoice) (pfx : String) : List String :=
  if choices = [] then
    [pfx ++ ": MA question missing Choices field; add a 'choices' array with 2-7 options and mark every correct option true."]
  else
    (if choices.length < 2 then
      [pfx ++ ": MA question must have at least 2 choices; add more options so students can select multiple answers."]
     else []) ++
    (if correctCountOf choices = 0 then
      [pfx ++ ": MA question must have at least 1 correct choice; mark at least one option with correct:true."]
     else [])

/-- `_validate_matching`. -/
def validateMatching (pairs : List MatchingPair) (pfx : String) : List String :=
  if pairs = [] then
    [pfx ++ ": Matching question missing Pairs field; add at least two left/right pairs to match."]
  else if pairs.length < 2 then
    [pfx ++ ": Matching question must have at least 2 pairs; provide another pair so students can match items."]
  else []

/-- `_validate_fitb`.  The `FITBQuestion` dataclass carries only `variants`
and `blank_token`, so `getattr(question, "answer_mode", "open_entry")`
always yields `"open_entry"` and `variants_per_blank`/`options` are always
absent: only the open-entry accept-list check is reachable. -/
def validateFITB (variants : List String) (pfx : String) : List String :=
  if variants = [] then
    [pfx ++ ": FITB question missing Accept/Answers field; add an accept list with the correct response(s)."]
  else []

/-- `_validate_ordering`. -/
def validateOrdering (items : List OrderingItem) (pfx : String) : List String :=
  if items = [] then
    [pfx ++ ": Ordering question missing Items field; add the steps/items students must order."]
  else if items.length < 2 then
    [pfx ++ ": Ordering question must have at least 2 items; include another step so there is something to order."]
  else []

/-- `_validate_categorization`. -/
def validateCategorization (categories : List String) (items : List CategoryMapping)
    (pfx : String) : List String :=
  (if categories = [] then
    [pfx ++ ": Categorization question missing Categories field; add at least two category labels students can sort into."]
   else if categories.length < 2 then
    [pfx ++ ": Categorization question must have at least 2 categories; add another category so sorting makes sense."]
   else []) ++
  (if items = [] then
    [pfx ++ ": Categorization question missing Items field; add the items students need to categorize."]
   else [])

/-- `prefix = f"Question #{index}"`. -/
def qPrefix (index : Nat) : String := "Question #" ++ toString index

/-- The empty-prompt check of `_validate_question` (with the header-reuse
auto-fix applied first). -/
def validatePromptPart (q : Question) (pfx : String) : List String :=
  if ¬ q.isStructural then
    (if isBlank (promptAfterHeaderFix q) then
      [pfx ++ ": Prompt cannot be empty; add a clear question stem for students."]
     else [])
  else []

/-- The type-specific dispatch of `_validate_question`. -/
def validateTypePart (q : Question) (pfx : String) : List String :=
  match q.payload with
  | .mc cs => validateMC cs pfx
  | .ma cs => validateMA cs pfx
  | .tf _ => []
  | .numerical spec => spec.validate.map (fun e => pfx ++ ": " ++ e)
  | .matching ps => validateMatching ps pfx
  | .fitb vs _ => validateFITB vs pfx
  | .ordering its _ => validateOrdering its pfx
  | .categorization cats _ items _ _ => validateCategorization cats items pfx
  | _ => []

/-- `_validate_question(question, index)`. -/
def validateQuestion (q : Question) (index : Nat) : List String :=
  validatePromptPart q (qPrefix index) ++ validateTypePart q (qPrefix index)

/-- The zero-question hard-fail message. -/
def emptyQuizError : String :=
  "Quiz must contain at least one question; add at least one item before submitting for validation."

/-- `validate_structure(quiz)` (`engine/validation/rules/structure_rules.py`):
the zero-question check, the (deprecated, empty) render-mode check, then every
question checked in order with all errors accumulated. -/
def validateStructure (quiz : Quiz) : List String :=
  if quiz.questions = [] then [emptyQuizError]
  else
    validateRenderMode quiz ++
    (quiz.questions.enum.map (fun p => validateQuestion p.2 (p.1 + 1))).flatten

/-- `ValidationStatus`. -/
inductive ValidationStatus where
  | pass
  | weakPass
  | fail
deriving Repr, DecidableEq

/-- `ValidationResult`. -/
structure ValidationResult where
  status : ValidationStatus
  quiz : Quiz
  fixLog : List String
  errors : List String
  warnings : List String
deriving Repr, DecidableEq

/-- `QuizValidator.validate(quiz)` (`engine/validation/validator.py`),
parameterised by the auto-fix pass (`AutoFixer.fix_all`, whose shuffle step is
randomised and is not needed by any claim): structure errors short-circuit to
FAIL with an empty fix log; otherwise fixes run, then the fairness check, and
the status is WEAK_PASS exactly when warnings exist. -/
def validateWith (fixAll : Quiz → Quiz × List String) (quiz : Quiz) :
    ValidationResult :=
  let structureErrors := validateStructure quiz
  if structureErrors ≠ [] then
    { status := .fail, quiz := quiz, fixLog := [], errors := structureErrors,
      warnings := [] }
  else
    let fixed := fixAll quiz
    let warnings := checkFairness fixed.1
    if warnings ≠ [] then
      { status := .weakPass, quiz := fixed.1, fixLog := fixed.2, errors := [],
        warnings := warnings }
    else
      { status := .pass, quiz := fixed.1, fixLog := fixed.2, errors := [],
        warnings := warnings }

/-! ## Render-mode gated HTML formatter
(`engine/rendering/canvas/html_formatter.py`).

All regex-based transformations are implemented as explicit scanners over
`List Char`.  The deep executable-mode formatting bodies that no claim
exercises (`syntax_highlight_python`, the paragraph/excerpt rendering of
`htmlize_prompt`, `transform_code_blocks`) are taken as function parameters:
every theorem below is stated for arbitrary instantiations of those bodies,
and only code paths that do not reach them are evaluated concretely. -/

/-- Python `a or b` on strings (empty string is falsy). -/
def pyOrStr (a b : String) : String := if a = "" then b else a

/-- `(render_mode or "verbatim").lower() if isinstance(render_mode, str) else
"verbatim"`; `none` stands for a non-string (`None`) render mode. -/
def pyModeOf : Option String → String
  | none => "verbatim"
  | some s => pyLower (pyOrStr s "verbatim")

/-- `xml.sax.saxutils.escape` on one character. -/
def xmlEscapeChar (c : Char) : List Char :=
  if c = '&' then "&amp;".data
  else if c = '<' then "&lt;".data
  else if c = '>' then "&gt;".data
  else [c]

/-- `xml.sax.saxutils.escape`. -/
def xmlEscapeL (l : List Char) : List Char := l.flatMap xmlEscapeChar

/-- Index of the first occurrence of `pat` in `l` (`str.find` /
`re` literal search). -/
def findSub (pat : List Char) : List Char → Option Nat
  | [] => if pat.isPrefixOf ([] : List Char) then some 0 else none
  | c :: rest =>
      if pat.isPrefixOf (c :: rest) then some 0
      else (findSub pat rest).map (fun n => n + 1)

/-- Case-insensitive `findSub` (for `re.IGNORECASE`); `pat` is given in
lowercase. -/
def findSubCI (pat : List Char) (l : List Char) : Option Nat :=
  findSub pat (l.map Char.toLower)

/-- `pat in s` (substring containment). -/
def containsSub (s pat : String) : Bool := (findSub pat.data s.data).isSome

/-- Python `str.replace(pat, rep)` (all occurrences, left to right), with a
fuel argument that keeps the recursion structural; `l.length` fuel always
suffices because every step consumes at least one input character. -/
def replaceAllFuel (pat rep : List Char) : Nat → List Char → List Char
  | 0, l => l
  | _ + 1, [] => []
  | fuel + 1, c :: rest =>
      if pat ≠ [] ∧ pat.isPrefixOf (c :: rest) then
        rep ++ replaceAllFuel pat rep fuel ((c :: rest).drop pat.length)
      else c :: replaceAllFuel pat rep fuel rest

/-- Python `str.replace(pat, rep)`. -/
def replaceAll (pat rep l : List Char) : List Char :=
  replaceAllFuel pat rep l.length l

/-- The placeholder `f"{placeholder_prefix}{idx}__"` =
`"__PROTECTED_CODE_" + str(idx) + "__"`. -/
def placeholderL (idx : Nat) : List Char :=
  "__PROTECTED_CODE_".data ++ (Nat.repr idx).data ++ "__".data

/-- First match of the fenced-block protection regex `` ```[\s\S]*?``` ``:
position and length. -/
def fencedFind (l : List Char) : Option (Nat × Nat) :=
  match findSub "```".data l with
  | none => none
  | some i =>
      match findSub "```".data (l.drop (i + 3)) with
      | none => none
      | some j => some (i, j + 6)

/-- First match of the inline-backtick regex `` `[^`]+` ``. -/
def inlineTickFind : List Char → Option (Nat × Nat)
  | [] => none
  | c :: rest =>
      if c = '`' then
        let span := rest.takeWhile (fun d => d ≠ '`')
        if 1 ≤ span.length ∧ span.length < rest.length then some (0, span.length + 2)
        else (inlineTickFind rest).map (fun p => (p.1 + 1, p.2))
      else (inlineTickFind rest).map (fun p => (p.1 + 1, p.2))

/-- Case-insensitive prefix test (for `re.IGNORECASE` tag patterns; `pat` is
lowercase). -/
def ciPrefix (pat : String) (l : List Char) : Bool :=
  pat.data.isPrefixOf (l.map Char.toLower)

/-- First match of `<code[^>]*>[\s\S]*?</code>` (case-insensitive). -/
def codeTagFind : List Char → Option (Nat × Nat)
  | [] => none
  | c :: rest =>
      (if ciPrefix "<code" (c :: rest) then
        let afterOpen := (c :: rest).drop 5
        let attrs := afterOpen.takeWhile (fun d => d ≠ '>')
        if attrs.length < afterOpen.length then
          let openLen := 5 + attrs.length + 1
          match findSubCI "</code>".data ((c :: rest).drop openLen) with
          | some j => some (0, openLen + j + 7)
          | none => (codeTagFind rest).map (fun p => (p.1 + 1, p.2))
        else (codeTagFind rest).map (fun p => (p.1 + 1, p.2))
      else (codeTagFind rest).map (fun p => (p.1 + 1, p.2)))

/-- First match of `<pre[^>]*>[\s\S]*?</pre>` (case-insensitive). -/
def preTagFind : List Char → Option (Nat × Nat)
  | [] => none
  | c :: rest =>
      (if ciPrefix "<pre" (c :: rest) then
        let afterOpen := (c :: rest).drop 4
        let attrs := afterOpen.takeWhile (fun d => d ≠ '>')
        if attrs.length < afterOpen.length then
          let openLen := 4 + attrs.length + 1
          match findSubCI "</pre>".data ((c :: rest).drop openLen) with
          | some j => some (0, openLen + j + 6)
          | none => (preTagFind rest).map (fun p => (p.1 + 1, p.2))
        else (preTagFind rest).map (fun p => (p.1 + 1, p.2))
      else (preTagFind rest).map (fun p => (p.1 + 1, p.2)))

/-- One protection pass of `_clean_text_executable`: global `re.sub` of the
matcher with fresh placeholders, appending each matched region. -/
def protectSub (find : List Char → Option (Nat × Nat)) :
    Nat → List Char → List (List Char) → List Char × List (List Char)
  | 0, l, regions => (l, regions)
  | fuel + 1, l, regions =>
      match find l with
      | none => (l, regions)
      | some (i, len) =>
          if len = 0 then (l, regions)
          else
            let matched := (l.drop i).take len
            let ph := placeholderL regions.length
            let next := protectSub find fuel (l.drop (i + len)) (regions ++ [matched])
            (l.take i ++ ph ++ next.1, next.2)

/-- `for idx in reversed(range(len(protected_regions))): text =
text.replace(placeholder, protected_regions[idx])`. -/
def restoreRegions (regions : List (List Char)) (l : List Char) : List Char :=
  (List.range regions.length).reverse.foldl
    (fun acc idx => replaceAll (placeholderL idx) (regions.getD idx []) acc) l

/-- `_clean_text_executable(text)`: protect code contexts (fenced blocks,
inline backticks, `<code>`/`<pre>` tags), interpret the escape sequences
`\\n`, `\n`, `\t`, then restore the protected regions. -/
def cleanTextExecutable (text : String) : String :=
  if text = "" then text
  else
    let l0 := text.data
    let s1 := protectSub fencedFind l0.length l0 []
    let s2 := protectSub inlineTickFind s1.1.length s1.1 s1.2
    let s3 := protectSub codeTagFind s2.1.length s2.1 s2.2
    let s4 := protectSub preTagFind s3.1.length s3.1 s3.2
    let l5 := replaceAll "\\\\n".data "\n".data s4.1
    let l6 := replaceAll "\\n".data "\n".data l5
    let l7 := replaceAll "\\t".data "\t".data l6
    ⟨restoreRegions s4.2 l7⟩

/-- `_clean_text(text, render_mode)`: the render-mode gate.  In any
non-executable mode the text is returned unchanged (the hard identity
assertion can never fire). -/
def cleanText (text : String) (renderMode : Option String) : String :=
  if pyModeOf renderMode ≠ "executable" then text
  else cleanTextExecutable text

/-- `\w` (ASCII range, which is all the sources use). -/
def isWordChar (c : Char) : Bool := c.isAlphanum || c = '_'

/-- `re.search(r"<\w+[^>]*>", text)` as a Boolean: a `<` immediately followed
by a word character with some later `>`. -/
def htmlTagSearch : List Char → Bool
  | [] => false
  | c :: rest =>
      (if c = '<' then
        match rest with
        | d :: rest2 => (isWordChar d && rest2.contains '>') || htmlTagSearch rest
        | [] => false
      else htmlTagSearch rest)

/-- Whether `re.search` of
`<pre[^>]*>\s*<code[^>]*>(.*?)</code>\s*</pre>` (DOTALL) matches. -/
def hasPreCodeBlock : List Char → Bool
  | [] => false
  | c :: rest =>
      (if "<pre".data.isPrefixOf (c :: rest) then
        (let afterOpen := (c :: rest).drop 4
         let attrs := afterOpen.takeWhile (fun d => d ≠ '>')
         if attrs.length < afterOpen.length then
           let afterGt := afterOpen.drop (attrs.length + 1)
           let afterWs := afterGt.dropWhile isPySpace
           if "<code".data.isPrefixOf afterWs then
             let afterCode := afterWs.drop 5
             let cattrs := afterCode.takeWhile (fun d => d ≠ '>')
             if cattrs.length < afterCode.length then
               let body := afterCode.drop (cattrs.length + 1)
               match findSub "</code>".data body with
               | some j =>
                   let tail := (body.drop (j + 7)).dropWhile isPySpace
                   "</pre>".data.isPrefixOf tail || hasPreCodeBlock rest
               | none => hasPreCodeBlock rest
             else hasPreCodeBlock rest
           else hasPreCodeBlock rest
         else hasPreCodeBlock rest)
      else hasPreCodeBlock rest)

/-- `apply_syntax_highlighting_to_html(html)`: when the `<pre><code>` pattern
matches, the highlighted rewrite (`syntax_highlight_python` plus tag
reassembly) runs — it is taken as the parameter `highlightSub`; when nothing
matches, `re.sub` returns the input unchanged. -/
def applySyntaxHighlightingToHtml (highlightSub : String → String)
    (html : String) : String :=
  if hasPreCodeBlock html.data then highlightSub html else html

/-- `_clean_code_content(code)`: undo HTML entities, then strip. -/
def cleanCodeContent (code : List Char) : List Char :=
  pyStripL
    (replaceAll "&#39;".data "'".data
      (replaceAll "&quot;".data "\"".data
        (replaceAll "&amp;".data "&".data
          (replaceAll "&gt;".data ">".data
            (replaceAll "&lt;".data "<".data code)))))

/-- Global substitution of `` `([^`]+)` `` by
`<code>{xml_escape(_clean_code_content(group))}</code>`
(the `replace_inline` closure of `htmlize_choice`/`htmlize_item_text`). -/
def inlineCodeSubGo : Nat → List Char → List Char
  | 0, l => l
  | fuel + 1, l =>
      match inlineTickFind l with
      | none => l
      | some (i, len) =>
          if len < 2 then l
          else
            let inner := (l.drop (i + 1)).take (len - 2)
            let rep := "<code>".data ++ xmlEscapeL (cleanCodeContent inner) ++ "</code>".data
            l.take i ++ rep ++ inlineCodeSubGo fuel (l.drop (i + len))

/-- Global inline-backtick substitution. -/
def inlineCodeSub (l : List Char) : List Char := inlineCodeSubGo l.length l

/-- First `<code>...</code>` span that contains no newline (the groups kept by
`re.split(r'(<code>.*?</code>)', ...)`; `.` does not match newlines there). -/
def codeSpanFind : List Char → Option (Nat × Nat)
  | [] => none
  | c :: rest =>
      (if "<code>".data.isPrefixOf (c :: rest) then
        (match findSub "</code>".data ((c :: rest).drop 6) with
         | some j =>
             if ((c :: rest).drop 6).take j |>.contains '\n' then
               (codeSpanFind rest).map (fun p => (p.1 + 1, p.2))
             else some (0, 6 + j + 7)
         | none => (codeSpanFind rest).map (fun p => (p.1 + 1, p.2)))
      else (codeSpanFind rest).map (fun p => (p.1 + 1, p.2)))

/-- The escape loop over `re.split(r'(<code>.*?</code>)', processed)`: parts
that are `<code>` groups pass through, everything else is XML-escaped. -/
def escapeOutsideCodeGo : Nat → List Char → List Char
  | 0, l => xmlEscapeL l
  | fuel + 1, l =>
      match codeSpanFind l with
      | none => xmlEscapeL l
      | some (i, len) =>
          xmlEscapeL (l.take i) ++ (l.drop i).take len ++
            escapeOutsideCodeGo fuel (l.drop (i + len))

/-- `htmlize_choice(text, render_mode)`.  `transformCode` stands for
`transform_code_blocks` in executable mode (reached only when the cleaned
text still contains a code fence). -/
def htmlizeChoice (transformCode : String → String) (text : String)
    (renderMode : Option String) : String :=
  if pyModeOf renderMode ≠ "executable" then pyOrStr text ""
  else if text = "" then "<p></p>"
  else
    let t := cleanTextExecutable text
    if containsSub t "```" then transformCode t
    else
      let processed := inlineCodeSub t.data
      ⟨"<p>".data ++ escapeOutsideCodeGo processed.length processed ++ "</p>".data⟩

/-- `htmlize_item_text(text, render_mode)`. -/
def htmlizeItemText (transformCode : String → String) (text : String)
    (renderMode : Option String) : String :=
  if pyModeOf renderMode ≠ "executable" then pyOrStr text ""
  else if text = "" then ""
  else
    let t := cleanTextExecutable text
    if containsSub t "```" then transformCode t
    else
      let processed := inlineCodeSub t.data
      ⟨escapeOutsideCodeGo processed.length processed⟩

/-- `htmlize_prompt(text, excerpt_numbering, render_mode)`.  `promptBody`
stands for the paragraph/fence/excerpt rendering that runs when the cleaned
text contains no HTML tag (its body mixes passage analysis over floats with
the monokai markup and is not needed by any claim); `highlightSub` is as in
`applySyntaxHighlightingToHtml`. -/
def htmlizePrompt (promptBody : String → Bool → String)
    (highlightSub : String → String) (text : String) (excerptNumbering : Bool)
    (renderMode : Option String) : String :=
  if pyModeOf renderMode ≠ "executable" then text
  else
    let t := cleanTextExecutable text
    if htmlTagSearch t.data then applySyntaxHighlightingToHtml highlightSub t
    else promptBody t excerptNumbering

/-! ## QTI element trees, builder and round-trip verifier
(`engine/rendering/canvas/qti_builder.py`,
`engine/rendering/canvas/qti_roundtrip.py`).

`xml.etree.ElementTree` elements are modelled as `Elem` trees; `text=None`
and `text=""` are both represented by `""` (the verifier reads only
`elem.text or ""`).  `build_assessment_xml` serializes the element tree,
rewrites the root open tag with the QTI default namespace, and
`verify_qti_round_trip` immediately reparses the string: XML serialization
and parsing are mutually inverse on these trees, and the default namespace
prefixes every tag uniformly so that the `qti:`-prefixed queries resolve
exactly as their plain-tag counterparts; the document handed to the verifier
is therefore modelled as the built tree itself.  Random identifier suffixes
(`rand8()`) are passed in as parameters. -/

inductive Elem where
  | mk : String → List (String × String) → String → List Elem → Elem

/-- Element tag. -/
def Elem.tag : Elem → String
  | .mk t _ _ _ => t

/-- Element attribute list. -/
def Elem.attrs : Elem → List (String × String)
  | .mk _ a _ _ => a

/-- `elem.text or ""`. -/
def Elem.textOf : Elem → String
  | .mk _ _ s _ => s

/-- Child elements in document order. -/
def Elem.children : Elem → List Elem
  | .mk _ _ _ cs => cs

/-- `elem.attrib.get(k, "")`. -/
def Elem.attr (e : Elem) (k : String) : String :=
  (((e.attrs).find? (fun p => p.1 == k)).map (fun p => p.2)).getD ""

mutual
/-- All proper descendants of an element in document order — the node set an
ElementPath `.//` step ranges over. -/
def descendantsE : Elem → List Elem
  | .mk _ _ _ cs => descendantsL cs
/-- Descendants-with-self of a forest, in document order. -/
def descendantsL : List Elem → List Elem
  | [] => []
  | c :: cs => c :: (descendantsE c ++ descendantsL cs)
end

/-- One `/tag` step of an ElementPath: matching children of each node, in
document order. -/
def childStep (t : String) (es : List Elem) : List Elem :=
  es.flatMap (fun e => (e.children).filter (fun c => c.tag == t))

/-- `e.findall("./t1/t2/...")` — a relative child path. -/
def relQuery (e : Elem) (ts : List String) : List Elem :=
  ts.foldl (fun acc s => childStep s acc) [e]

/-- `e.findall(".//t1/t2/...")` — a descendant-rooted path: all descendants
with the head tag, then child steps, in document order. -/
def descQuery (e : Elem) : List String → List Elem
  | [] => []
  | t :: rest =>
      ((descendantsE e).filter (fun d => d.tag == t)).flatMap
        (fun d => relQuery d rest)

/-- One step of `html.unescape` restricted to the XML standard entities —
the only entities the XML serializer emits and the only ones occurring in
this pipeline's strings; like `html.unescape`, each entity is replaced in a
single left-to-right pass. -/
def htmlUnescapeGo : Nat → List Char → List Char
  | 0, l => l
  | _ + 1, [] => []
  | fuel + 1, c :: rest =>
      if "&amp;".data.isPrefixOf (c :: rest) then
        '&' :: htmlUnescapeGo fuel ((c :: rest).drop 5)
      else if "&lt;".data.isPrefixOf (c :: rest) then
        '<' :: htmlUnescapeGo fuel ((c :: rest).drop 4)
      else if "&gt;".data.isPrefixOf (c :: rest) then
        '>' :: htmlUnescapeGo fuel ((c :: rest).drop 4)
      else if "&quot;".data.isPrefixOf (c :: rest) then
        '"' :: htmlUnescapeGo fuel ((c :: rest).drop 6)
      else if "&#39;".data.isPrefixOf (c :: rest) then
        '\'' :: htmlUnescapeGo fuel ((c :: rest).drop 5)
      else c :: htmlUnescapeGo fuel rest

/-- `_TAG_RE.sub("", ...)` with `_TAG_RE = re.compile(r"<[^>]+>")`: delete
every maximal `<...>` span with nonempty tag body. -/
def stripTagsGo : Nat → List Char → List Char
  | 0, l => l
  | _ + 1, [] => []
  | fuel + 1, c :: rest =>
      if c = '<' then
        let inner := rest.takeWhile (fun d => d ≠ '>')
        if 1 ≤ inner.length ∧ inner.length < rest.length then
          stripTagsGo fuel (rest.drop (inner.length + 1))
        else c :: stripTagsGo fuel rest
      else c :: stripTagsGo fuel rest

/-- `_html_to_visible_text(value)`: unescape entities, then remove HTML
tags (no whitespace normalization). -/
def htmlToVisibleText (s : String) : String :=
  let unescaped := htmlUnescapeGo s.data.length s.data
  ⟨stripTagsGo unescaped.length unescaped⟩

/-- `_mattext_value(elem)`. -/
def mattextValue (e : Elem) : String :=
  if e.attr "texttype" = "text/html" then htmlToVisibleText e.textOf
  else e.textOf

/-- The executable-mode formatting bodies that `htmlize_prompt` /
`htmlize_choice` / `htmlize_item_text` take as parameters in this
development (see those definitions). -/
structure ExecBodies where
  promptBody : String → Bool → String
  highlightSub : String → String
  transformCode : String → String

/-- `getattr(question, "render_mode", "executable")` in
`_expected_for_question`: none of the `Question` dataclasses in
`engine/core/questions.py` defines a `render_mode` attribute, so the lookup
always returns the default `"executable"`. -/
def questionRenderMode (_ : Question) : String := "executable"

/-- `getattr(question, "answer_mode", "open_entry") or "open_entry"` on a
`FITBQuestion`: the dataclass defines no `answer_mode` attribute, so the
lookup always returns the default `"open_entry"`. -/
def questionFitbMode (_ : Question) : String := "open_entry"

/-- `f"choice[{idx}]"`-style keys. -/
def keyIdx (pre post : String) (idx : Nat) : String :=
  pre ++ Nat.repr idx ++ post

/-- The insertion-ordered deduplicated answer list of a matching question
(`answers_in_order` in `_expected_for_question`). -/
def matchingAnswersInOrder (pairs : List MatchingPair) : List String :=
  pairs.foldl
    (fun acc p => if acc.contains p.answer then acc else acc ++ [p.answer]) []

/-- `_expected_for_question(question)`: the `(key, value)` pairs the verifier
expects to re-extract.  The prompt — and for MC/MA every choice — is passed
through the executable-mode formatter (since `questionRenderMode` is always
`"executable"`) and then reduced to visible text. -/
def expectedForQuestion (fb : ExecBodies) (q : Question) :
    List (String × String) :=
  let promptOut :=
    if questionRenderMode q = "executable" then
      htmlToVisibleText
        (htmlizePrompt fb.promptBody fb.highlightSub q.prompt
          q.isStimulusItem (some (questionRenderMode q)))
    else q.prompt
  let choicesOut := fun (choices : List MCChoice) =>
    (choices.enum).map (fun p =>
      (keyIdx "choice[" "]" (p.1 + 1),
        if questionRenderMode q = "executable" then
          htmlToVisibleText
            (htmlizeChoice fb.transformCode p.2.text
              (some (questionRenderMode q)))
        else p.2.text))
  ("prompt", promptOut) ::
    match q.payload with
    | .mc choices => choicesOut choices
    | .ma choices => choicesOut choices
    | .matching pairs =>
        let answersInOrder := matchingAnswersInOrder pairs
        (pairs.enum).flatMap (fun p =>
          (keyIdx "pair[" "].left" (p.1 + 1), p.2.prompt) ::
            (answersInOrder.enum).map (fun a =>
              (keyIdx (keyIdx "pair[" "].option[" (p.1 + 1)) "]" (a.1 + 1),
                a.2)))
    | .ordering items header =>
        (match header with
         | some h => if h ≠ "" then [("header", h)] else []
         | none => []) ++
          (items.enum).map (fun p =>
            (keyIdx "item[" "]" (p.1 + 1), p.2.text))
    | .categorization categories _ items distractors _ =>
        let itemsInOrder := items.map (fun e => e.itemText) ++ distractors
        (categories.enum).flatMap (fun c =>
          (keyIdx "category[" "]" (c.1 + 1), c.2) ::
            (itemsInOrder.enum).map (fun it =>
              (keyIdx (keyIdx "category[" "].pool[" (c.1 + 1)) "]" (it.1 + 1),
                it.2)))
    | .fitb _ _ =>
        if pyLower (pyOrStr (questionFitbMode q) "open_entry") = "dropdown" ∨
            pyLower (pyOrStr (questionFitbMode q) "open_entry") = "wordbank"
        then []
        else []
    | _ => []

/-- `_extract_for_item(item_elem, ns, question)`: the student-visible strings
re-extracted from one generated `<item>` element. -/
def extractForItem (item : Elem) (q : Question) : List String :=
  let promptMt := (descQuery item ["presentation", "material", "mattext"]).head?
  let first := match promptMt with
    | some mt => mattextValue mt
    | none => ""
  first ::
    match q.payload with
    | .mc _ =>
        (descQuery item ["response_label", "material", "mattext"]).map
          mattextValue
    | .ma _ =>
        (descQuery item ["response_label", "material", "mattext"]).map
          mattextValue
    | .matching _ =>
        (descQuery item ["presentation", "response_lid"]).flatMap (fun lid =>
          (match (relQuery lid ["material", "mattext"]).head? with
           | some mt => mattextValue mt
           | none => "") ::
            (descQuery lid ["response_label", "material", "mattext"]).map
              mattextValue)
    | .ordering _ header =>
        let headerMt :=
          (((descendantsE item).filter
              (fun d => d.tag == "render_extension")).flatMap (fun d =>
            childStep "mattext"
              (((d.children).filter (fun m => m.tag == "material")).filter
                (fun m => m.attr "position" == "top")))).head?
        (match header with
         | some h =>
             if h ≠ "" then
               [match headerMt with
                | some mt => mattextValue mt
                | none => ""]
             else []
         | none => []) ++
          (descQuery item
              ["flow_label", "response_label", "material", "mattext"]).map
            mattextValue
    | .categorization _ _ _ _ _ =>
        (descQuery item ["presentation", "response_lid"]).flatMap (fun lid =>
          (match (relQuery lid ["material", "mattext"]).head? with
           | some mt => mattextValue mt
           | none => "") ::
            (descQuery lid ["response_label", "material", "mattext"]).map
              mattextValue)
    | .fitb _ _ =>
        if pyLower (pyOrStr (questionFitbMode q) "open_entry") = "dropdown" ∨
            pyLower (pyOrStr (questionFitbMode q) "open_entry") = "wordbank"
        then
          (descQuery item ["response_label", "material", "mattext"]).map
            mattextValue
        else []
    | _ => []

/-- The per-field comparison loop of `verify_qti_round_trip` (run after the
field-count guard, so the two lists have equal length). -/
def checkPairs (qIdx : Nat) :
    List (String × String) → List String → Except String Unit
  | [], _ => .ok ()
  | _ :: _, [] => .ok ()
  | (key, original) :: rest, mutated :: more =>
      if original ≠ mutated ∨ original.length ≠ mutated.length then
        .error ("QTI round-trip mutation detected (q#" ++ Nat.repr qIdx ++
          " " ++ key ++ ")")
      else checkPairs qIdx rest more

/-- The per-item loop of `verify_qti_round_trip` (1-based `q_index`;
`zip` never runs past the count-checked lists). -/
def verifyItems (fb : ExecBodies) :
    Nat → List Question → List Elem → Except String Unit
  | _, [], _ => .ok ()
  | _, _ :: _, [] => .ok ()
  | qIdx, q :: qs, item :: more =>
      let expectedPairs := expectedForQuestion fb q
      let extracted := extractForItem item q
      if expectedPairs.length ≠ extracted.length then
        .error ("QTI round-trip mismatch: extracted field count differs (q#"
          ++ Nat.repr qIdx ++ " expected " ++ Nat.repr expectedPairs.length ++
          " got " ++ Nat.repr extracted.length ++ ")")
      else
        match checkPairs qIdx expectedPairs extracted with
        | .ok () => verifyItems fb (qIdx + 1) qs more
        | .error e => .error e

/-- `verify_qti_round_trip(quiz, assessment_xml)`, with the parsed document
given as its element tree; `raise ValueError` becomes `.error`. -/
def verifyQtiRoundTrip (fb : ExecBodies) (quiz : Quiz) (root : Elem) :
    Except String Unit :=
  let items := (descendantsE root).filter (fun d => d.tag == "item")
  if items.length ≠ quiz.questions.length then
    .error ("QTI round-trip mismatch: item count " ++ Nat.repr items.length ++
      " != question count " ++ Nat.repr quiz.questions.length)
  else verifyItems fb 1 quiz.questions items

/-- `html_mattext(text)`: a `mattext` element with `texttype="text/html"`. -/
def htmlMattext (text : String) : Elem :=
  .mk "mattext" [("texttype", "text/html")] text []

/-- `f"{n:02d}"`. -/
def fmt2 (n : Nat) : String :=
  if n < 10 then "0" ++ Nat.repr n else Nat.repr n

/-- `f"{x:.1f}"` on the exactly representable point values the pipeline
produces (one digit after the point, round half to even). -/
def pyFmt1 (x : ℚ) : String :=
  let n := (roundHalfEven (10 * |x|)).toNat
  (if x < 0 ∧ n ≠ 0 then "-" else "") ++
    Nat.repr (n / 10) ++ "." ++ Nat.repr (n % 10)

/-- The `meta_field(label, entry)` helper of `_build_item`. -/
def metaFieldElem (label entry : String) : Elem :=
  .mk "qtimetadatafield" [] ""
    [.mk "fieldlabel" [] label [], .mk "fieldentry" [] entry []]

/-- `question.choices` of an `MCQuestion` (the `mc` payload; other payloads
have no `choices` attribute and never reach the MC builder). -/
def mcChoicesOf (q : Question) : List MCChoice :=
  match q.payload with
  | .mc cs => cs
  | _ => []

/-- `chr(ord("a") + i)` identifiers for a choice list. -/
def choiceIdentifiers (n : Nat) : List String :=
  (List.range n).map (fun i => ⟨[Char.ofNat (97 + i)]⟩)

/-- `_build_item(question, index)` on an `MCQuestion` — the variant the
round-trip analysis below exercises, translated clause by clause from the
source: item metadata, presentation with the verbatim-rendered prompt
(`htmlize_prompt` is called without `render_mode`, whose default is
`"verbatim"`), the `response_lid` with one verbatim-rendered
`response_label` per choice (`_build_response`), and the all-or-nothing
scoring block (`_build_scoring`).  `identSuffix` stands for `rand8()`; the
correct-identifier lookup indexes the first correct choice, which exists for
every MC question the pipeline lets reach the builder. -/
def buildItemMC (fb : ExecBodies) (identSuffix : String) (q : Question)
    (index : Nat) : Elem :=
  let choices := mcChoicesOf q
  let itemIdent :=
    (q.forcedIdent).getD ("item_q" ++ fmt2 index ++ "_" ++ identSuffix)
  let itemTitle := "Q" ++ fmt2 index
  let metaFields :=
    [metaFieldElem "question_type" "multiple_choice_question",
     metaFieldElem "calculator_type" "none",
     metaFieldElem "points_possible" (pyFmt1 q.points)] ++
      (match q.parentStimulusIdent with
       | some p => [metaFieldElem "parent_stimulus_item_ident" p]
       | none => [])
  let itemmetadata :=
    Elem.mk "itemmetadata" [] "" [.mk "qtimetadata" [] "" metaFields]
  let promptMattext :=
    htmlMattext
      (htmlizePrompt fb.promptBody fb.highlightSub q.prompt q.isStimulusItem
        (some "verbatim"))
  let identifiers := choiceIdentifiers choices.length
  let labels := (identifiers.zip choices).map (fun p =>
    Elem.mk "response_label" [("ident", p.1)] ""
      [.mk "material" [] ""
        [htmlMattext (htmlizeChoice fb.transformCode p.2.text
          (some "verbatim"))]])
  let responseLid :=
    Elem.mk "response_lid" [("ident", "response1"), ("rcardinality", "Single")]
      "" [.mk "render_choice" [] "" labels]
  let presentation :=
    Elem.mk "presentation" [] ""
      [.mk "material" [] "" [promptMattext], responseLid]
  let correctIdent :=
    ((((identifiers.zip choices).filter (fun p => p.2.correct)).map
      (fun p => p.1)).head?).getD ""
  let resprocessing :=
    Elem.mk "resprocessing" [] ""
      [.mk "outcomes" [] ""
        [.mk "decvar"
          [("maxvalue", "100"), ("minvalue", "0"), ("varname", "SCORE"),
           ("vartype", "Decimal")] "" []],
       .mk "respcondition" [("continue", "No")] ""
        [.mk "conditionvar" [] ""
          [.mk "varequal" [("respident", "response1")] correctIdent []],
         .mk "setvar" [("action", "Set"), ("varname", "SCORE")] "100" []]]
  Elem.mk "item" [("ident", itemIdent), ("title", itemTitle)] ""
    [itemmetadata, presentation, resprocessing]

/-- `build_assessment_xml(quiz)` for a quiz of MC questions, as the element
tree the verifier reparses: `questestinterop` root, assessment metadata, and
one built item per question (1-based indices).  `assessSuffix` stands for
the `rand8()` in the assessment identifier. -/
def buildAssessmentMC (fb : ExecBodies) (assessSuffix identSuffix : String)
    (quiz : Quiz) : Elem :=
  Elem.mk "questestinterop" [] ""
    [.mk "assessment"
      [("ident", "assessment_" ++ assessSuffix), ("title", quiz.title)] ""
      [.mk "qtimetadata" [] ""
        [.mk "qtimetadatafield" [] ""
          [.mk "fieldlabel" [] "cc_maxattempts" [],
           .mk "fieldentry" [] "1" []]],
       .mk "section" [("ident", "root_section")] ""
        ((quiz.questions.enum).map (fun p =>
          buildItemMC fb identSuffix p.2 (p.1 + 1)))]]

/-! ## Text-outline parser (`engine/parsing/text_parser.py`) and
`sanitize_text` (`engine/utils/text_utils.py`).

Python `Decimal`/`float` literal values are modelled as `ℚ`, and the numeric
literal syntax as the finite decimal forms (optional sign, digits, fraction,
exponent) — the special values (`Infinity`, `NaN`) and underscore separators
accepted by Python never reach this pipeline.  The regex scanners are
deterministic maximal-munch translations; for each pattern this coincides
with the regex because every backtracking opportunity would place a
non-digit requirement on a digit position (noted per definition). -/

/-- `str.upper()` (ASCII, which is all the sources use). -/
def pyUpper (s : String) : String := ⟨s.data.map Char.toUpper⟩

/-- `line.split(":", 1)[1]`: everything after the first colon (all call
sites have matched a prefix containing a colon). -/
def afterColon (line : String) : String :=
  ⟨(line.data.dropWhile (fun c => c ≠ ':')).drop 1⟩

/-- `sanitize_text(value)`: replace curly quotes, dashes, ellipsis and
non-breaking space with ASCII equivalents (insertion order of the mapping
dict). -/
def sanitizeText (value : String) : String :=
  if value = "" then value
  else
    ⟨replaceAll " ".data " ".data
      (replaceAll "…".data "...".data
        (replaceAll "–".data "-".data
          (replaceAll "—".data "-".data
            (replaceAll "’".data "'".data
              (replaceAll "‘".data "'".data
                (replaceAll "”".data "\"".data
                  (replaceAll "“".data "\"".data value.data)))))))⟩

/-- Numeric value of a digit run. -/
def digitsVal (ds : List Char) : Nat :=
  ds.foldl (fun a c => 10 * a + (c.toNat - 48)) 0

/-- `[+-]?` — an optional sign. -/
def scanSign (l : List Char) : List Char × List Char :=
  match l with
  | '+' :: r => (['+'], r)
  | '-' :: r => (['-'], r)
  | _ => ([], l)

/-- `(?:\.\d+)?` — an optional fraction (consumed only when at least one
digit follows the dot, as in the regex). -/
def scanFrac (l : List Char) : List Char × List Char :=
  match l with
  | '.' :: r =>
      let ds := r.takeWhile Char.isDigit
      if ds = [] then ([], l) else ('.' :: ds, r.drop ds.length)
  | _ => ([], l)

/-- `[+-]?\d+` after an exponent marker. -/
def scanExpTail (l : List Char) : Option (List Char × List Char) :=
  let p := scanSign l
  let ds := p.2.takeWhile Char.isDigit
  if ds = [] then none else some (p.1 ++ ds, p.2.drop ds.length)

/-- `(?:e[+-]?\d+)?` — an optional exponent (`E` accepted where the pattern
is case-insensitive; elsewhere the input has been lowercased first). -/
def scanExp (l : List Char) : List Char × List Char :=
  match l with
  | c :: r =>
      if c = 'e' ∨ c = 'E' then
        match scanExpTail r with
        | some (t, rest) => (c :: t, rest)
        | none => ([], l)
      else ([], l)
  | [] => ([], l)

/-- One match of `[+-]?\d+(?:\.\d+)?(?:e[+-]?\d+)?` at the head of the
input: the matched characters and the rest.  Maximal munch equals the
greedy regex: a shortened digit run would end at a digit, where the
following `.`/`e`/separator/`%` requirement cannot hold. -/
def scanNumTok (l : List Char) : Option (List Char × List Char) :=
  let p := scanSign l
  let ds := p.2.takeWhile Char.isDigit
  if ds = [] then none
  else
    let l2 := p.2.drop ds.length
    let f := scanFrac l2
    let e := scanExp f.2
    some (p.1 ++ ds ++ f.1 ++ e.1, e.2)

/-- A finite `Decimal`/`float` literal: `[+-]?` digits with optional `.`
(either side may be empty, not both), optional exponent; the whole string
must be consumed. -/
def parseDecLit (l : List Char) : Option ℚ :=
  let p := scanSign l
  let sgn : ℚ := if p.1 = ['-'] then -1 else 1
  let intDs := p.2.takeWhile Char.isDigit
  let l2 := p.2.drop intDs.length
  let fp : List Char × List Char :=
    match l2 with
    | '.' :: r => (r.takeWhile Char.isDigit, r.drop (r.takeWhile Char.isDigit).length)
    | _ => ([], l2)
  if intDs = [] ∧ fp.1 = [] then none
  else
    let mant : ℚ := sgn * (digitsVal (intDs ++ fp.1) : ℚ) / (10 : ℚ) ^ fp.1.length
    match fp.2 with
    | [] => some mant
    | c :: r =>
        if c = 'e' ∨ c = 'E' then
          let es := scanSign r
          let eds := es.2.takeWhile Char.isDigit
          if eds = [] ∨ es.2.drop eds.length ≠ [] then none
          else
            some (mant * (10 : ℚ) ^
              (((if es.1 = ['-'] then -1 else 1) * (digitsVal eds : Int)) : Int))
        else none

/-- `TextOutlineParser._parse_decimal_value(raw)`: strip, reject empty,
drop thousands separators, parse as `Decimal`. -/
def parseDecimalValue (raw : String) : Except String ℚ :=
  let cleaned := pyStrip raw
  if cleaned = "" then .error "Numerical field requires a value."
  else
    match parseDecLit (replaceAll ",".data "".data cleaned.data) with
    | some v => .ok v
    | none => .error ("Unable to parse numeric value '" ++ raw ++ "'.")

/-- `re.search(r"([+-]?\d+(?:\.\d+)?(?:e[+-]?\d+)?)\s*%", ...)`: earliest
start position whose number token is followed by optional whitespace and a
percent sign; returns the captured number. -/
def percentSearch : List Char → Option (List Char)
  | [] => none
  | c :: rest =>
      match scanNumTok (c :: rest) with
      | some (tok, after) =>
          if "%".data.isPrefixOf (after.dropWhile isPySpace) then some tok
          else percentSearch rest
      | none => percentSearch rest

/-- `TextOutlineParser._parse_numerical_tolerance(raw)` (the source's local
variables `normalized`, `lowered`, `cleaned` are inlined). -/
def parseNumericalTolerance (raw : String) : Except String (String × ℚ) :=
  if pyStrip raw = "" then .error "Tolerance value cannot be empty."
  else
    match percentSearch
        (replaceAll "percent".data "%".data
          (replaceAll "percentage".data "%".data
            (pyLower (pyStrip raw)).data)) with
    | some tok =>
        match parseDecimalValue ⟨tok⟩ with
        | .ok v => .ok ("percent_margin", |v|)
        | .error e => .error e
    | none =>
        match parseDecimalValue (pyStrip
            ⟨replaceAll "−".data "-".data
              (replaceAll "+/-".data "".data
                (replaceAll "±".data "".data (pyStrip raw).data))⟩) with
        | .ok v => .ok ("absolute_margin", |v|)
        | .error e => .error e

/-- `TextOutlineParser._parse_numerical_range(raw)`: anchored
`^\s*(num)\s*(?:to|-)\s*(num)\s*$` (case-insensitive), then a strict
`min < max` check. -/
def parseNumericalRange (raw : String) : Except String (ℚ × ℚ) :=
  let normalized := pyStrip raw
  if normalized = "" then .error "Range value cannot be empty."
  else
    let n2 := replaceAll "—".data "-".data
      (replaceAll "–".data "-".data normalized.data)
    let rangeErr : Except String (ℚ × ℚ) :=
      .error "Range must use 'min to max' format (e.g., '5 to 10')."
    match scanNumTok (n2.dropWhile isPySpace) with
    | none => rangeErr
    | some (tok1, r1) =>
        let r2 := r1.dropWhile isPySpace
        let sep : Option (List Char) :=
          if "to".data.isPrefixOf (r2.map Char.toLower) then some (r2.drop 2)
          else match r2 with
            | '-' :: t => some t
            | _ => none
        match sep with
        | none => rangeErr
        | some r3 =>
            match scanNumTok (r3.dropWhile isPySpace) with
            | none => rangeErr
            | some (tok2, r4) =>
                if r4.dropWhile isPySpace ≠ [] then rangeErr
                else
                  match parseDecimalValue ⟨tok1⟩, parseDecimalValue ⟨tok2⟩ with
                  | .ok lo, .ok hi =>
                      if lo ≥ hi then
                        .error "Range minimum must be less than maximum."
                      else .ok (lo, hi)
                  | .error e, _ => .error e
                  | _, .error e => .error e

/-- `re.search(r"(-?\d+)", ...)`: earliest optionally-negative integer. -/
def intSearch : List Char → Option (List Char)
  | [] => none
  | c :: rest =>
      if c = '-' then
        match rest.takeWhile Char.isDigit with
        | [] => intSearch rest
        | ds => some ('-' :: ds)
      else if c.isDigit then some ((c :: rest).takeWhile Char.isDigit)
      else intSearch rest

/-- The integer value of a `(-?\d+)` match. -/
def intTokVal (ds : List Char) : Int :=
  match ds with
  | '-' :: t => -(digitsVal t : Int)
  | t => (digitsVal t : Int)

/-- The normalization applied to a `Precision:` payload (the source's
reassigned local `normalized`). -/
def precisionNormalized (raw : String) : String :=
  ⟨replaceAll "dp".data " decimal places".data
    (replaceAll "sig.".data "significant".data
      (replaceAll "sig fig".data "significant digit".data
        (replaceAll "sig figs".data "significant digits".data
          (pyLower (pyStrip raw)).data)))⟩

/-- `TextOutlineParser._parse_numerical_precision(raw)`. -/
def parseNumericalPrecision (raw : String) : Except String (String × Int) :=
  if pyLower (pyStrip raw) = "" then .error "Precision value cannot be empty."
  else
    match intSearch (precisionNormalized raw).data with
    | none => .error "Precision must include a numeric value."
    | some ds =>
        if intTokVal ds < 0 then .error "Precision value must be non-negative."
        else if containsSub (precisionNormalized raw) "significant"
            ∨ containsSub (precisionNormalized raw) "sig" then
          .ok ("significant_digits", intTokVal ds)
        else if containsSub (precisionNormalized raw) "decimal"
            ∨ containsSub (precisionNormalized raw) "place" then
          .ok ("decimal_places", intTokVal ds)
        else .error "Precision must specify significant digits or decimal places."

/-- `re.match(r"^-\s*\[(x|X|\s)\]\s*(.+)$", line)` with both result groups
as the callers use them (`group(1).strip().lower() == "x"` and
`group(2).strip()`; the stripped group(2) equals the stripped tail). -/
def parseChoiceLine (l : List Char) : Option (Bool × String) :=
  match l with
  | '-' :: r1 =>
      (match r1.dropWhile isPySpace with
       | '[' :: c :: ']' :: r3 =>
           if c = 'x' ∨ c = 'X' ∨ isPySpace c then
             if r3 ≠ [] then some (c = 'x' ∨ c = 'X', pyStrip ⟨r3⟩)
             else none
           else none
       | _ => none)
  | _ => none

/-- `re.match(r"^-\s*(.+?)\s*=>\s*(.+)$", line)` reduced to what the calling
sites observe: both groups are stripped, so the lazy match amounts to
splitting at the first `=>` that has at least one character on each side;
the scanner below finds that split. -/
def arrowSplitGo (pre : List Char) : List Char → Option (String × String)
  | [] => none
  | c :: rest =>
      if pre ≠ [] ∧ "=>".data.isPrefixOf (c :: rest) ∧ rest.drop 1 ≠ [] then
        some (pyStrip ⟨pre⟩, pyStrip ⟨rest.drop 1⟩)
      else arrowSplitGo (pre ++ [c]) rest

/-- `- Term => Answer` lines (pairs and categorization items). -/
def parseArrowLine (l : List Char) : Option (String × String) :=
  match l with
  | '-' :: r1 => arrowSplitGo [] r1
  | _ => none

/-- `re.match(r"^-\s*(.+)$", line)`, group stripped by every caller. -/
def parseDashLine (l : List Char) : Option String :=
  match l with
  | '-' :: r1 => if r1 ≠ [] then some (pyStrip ⟨r1⟩) else none
  | _ => none

/-- `re.match(r"^\d+\.\s*(.+)$", line)`, group stripped by the caller. -/
def parseNumberedLine (l : List Char) : Option String :=
  let ds := l.takeWhile Char.isDigit
  if ds = [] then none
  else
    match l.drop ds.length with
    | '.' :: r => if r ≠ [] then some (pyStrip ⟨r⟩) else none
    | _ => none

/-- `float(...)` on the `Points:` payload, modelled on finite literals. -/
def pyFloatOpt (s : String) : Option ℚ := parseDecLit (pyStrip s).data

/-- The local state of the `_parse_block` line loop (one field per local
variable, with the source's initial values as defaults). -/
structure PBState where
  qtype : Option String := none
  points : Option ℚ := none
  pointsExplicit : Bool := false
  promptLines : List String := []
  choices : List MCChoice := []
  tfAnswer : Option Bool := none
  pairs : List MatchingPair := []
  variants : List String := []
  orderingItems : List String := []
  orderingHeader : Option String := none
  categories : List String := []
  categoryItems : List (String × String) := []
  distractors : List String := []
  numericalAnswerValue : Option ℚ := none
  numericalMode : String := "exact"
  numericalMarginValue : Option ℚ := none
  numericalRangeMin : Option ℚ := none
  numericalRangeMax : Option ℚ := none
  numericalPrecisionValue : Option Int := none
  inPrompt : Bool := false
  inChoices : Bool := false
  inPairs : Bool := false
  inAccept : Bool := false
  inOrderingItems : Bool := false
  inCategories : Bool := false
  inCategoryItems : Bool := false
  inDistractors : Bool := false
deriving Repr

/-- `f"{qtype}"` on the optional question type. -/
def qtypeRepr (o : Option String) : String := o.getD "None"

/-- One iteration of the `for raw in lines` loop of `_parse_block`,
branch for branch in source order; `raise ValueError` becomes `.error`. -/
def pbStep (s : PBState) (raw : String) : Except String PBState :=
  if (pyStrip raw) = "" then
    .ok (if s.inPrompt then { s with promptLines := s.promptLines ++ [""] } else s)
  else
  if pyStartsWith (pyLower (pyStrip raw)) "type:" then
    .ok { s with qtype := some (pyUpper (pyStrip (afterColon (pyStrip raw)))),
                 inPrompt := false, inChoices := false, inPairs := false,
                 inAccept := false, inOrderingItems := false,
                 inCategories := false, inCategoryItems := false,
                 inDistractors := false }
  else if pyStartsWith (pyLower (pyStrip raw)) "points:" then
    .ok { s with points := some ((pyFloatOpt (pyStrip (afterColon (pyStrip raw)))).getD 10),
                 pointsExplicit := true }
  else if pyStartsWith (pyLower (pyStrip raw)) "prompt:" then
    .ok { s with inPrompt := true, inChoices := false, inPairs := false,
                 inAccept := false, inOrderingItems := false,
                 inCategories := false, inCategoryItems := false,
                 inDistractors := false,
                 promptLines :=
                   if (pyStrip (afterColon (pyStrip raw))) ≠ "" then s.promptLines ++ [(pyStrip (afterColon (pyStrip raw)))]
                   else s.promptLines }
  else if pyStartsWith (pyLower (pyStrip raw)) "header:" then
    .ok { s with orderingHeader := some (pyStrip (afterColon (pyStrip raw))) }
  else if pyStartsWith (pyLower (pyStrip raw)) "items:" then
    if s.qtype = some "ORDERING" then
      .ok { s with inOrderingItems := true, inPrompt := false,
                   inChoices := false, inPairs := false, inAccept := false,
                   inCategories := false, inDistractors := false }
    else if s.qtype = some "CATEGORIZATION" then
      .ok { s with inCategoryItems := true, inPrompt := false,
                   inChoices := false, inPairs := false, inAccept := false,
                   inOrderingItems := false, inCategories := false,
                   inDistractors := false }
    else .ok s
  else if pyStartsWith (pyLower (pyStrip raw)) "categories:" then
    .ok { s with inCategories := true, inPrompt := false, inChoices := false,
                 inPairs := false, inAccept := false,
                 inOrderingItems := false, inCategoryItems := false,
                 inDistractors := false }
  else if pyStartsWith (pyLower (pyStrip raw)) "distractors:" then
    .ok { s with inDistractors := true, inPrompt := false, inChoices := false,
                 inPairs := false, inAccept := false,
                 inOrderingItems := false, inCategories := false,
                 inCategoryItems := false }
  else if pyStartsWith (pyLower (pyStrip raw)) "choices:" then
    .ok { s with inChoices := true, inPrompt := false, inPairs := false,
                 inAccept := false, inOrderingItems := false,
                 inCategories := false, inCategoryItems := false,
                 inDistractors := false }
  else if pyStartsWith (pyLower (pyStrip raw)) "pairs:" then
    .ok { s with inPairs := true, inPrompt := false, inChoices := false,
                 inAccept := false, inOrderingItems := false,
                 inCategories := false, inCategoryItems := false,
                 inDistractors := false }
  else if pyStartsWith (pyLower (pyStrip raw)) "accept:" ∨ pyStartsWith (pyLower (pyStrip raw)) "answers:" then
    .ok { s with inAccept := true, inPrompt := false, inChoices := false,
                 inPairs := false, inOrderingItems := false,
                 inCategories := false, inCategoryItems := false,
                 inDistractors := false }
  else if pyStartsWith (pyLower (pyStrip raw)) "answer:" then
    if s.qtype = some "TF" then
      if (pyLower (pyStrip (afterColon (pyStrip raw)))) = "true" ∨ (pyLower (pyStrip (afterColon (pyStrip raw)))) = "t" ∨ (pyLower (pyStrip (afterColon (pyStrip raw)))) = "1" ∨ (pyLower (pyStrip (afterColon (pyStrip raw)))) = "yes" then
        .ok { s with tfAnswer := some true }
      else if (pyLower (pyStrip (afterColon (pyStrip raw)))) = "false" ∨ (pyLower (pyStrip (afterColon (pyStrip raw)))) = "f" ∨ (pyLower (pyStrip (afterColon (pyStrip raw)))) = "0" ∨ (pyLower (pyStrip (afterColon (pyStrip raw)))) = "no" then
        .ok { s with tfAnswer := some false }
      else .error ("Invalid TF Answer (pyLower (pyStrip (afterColon (pyStrip raw)))): " ++ (pyLower (pyStrip (afterColon (pyStrip raw)))))
    else if s.qtype = some "NUMERICAL" then
      match parseDecimalValue (pyStrip (afterColon (pyStrip raw))) with
      | .ok v => .ok { s with numericalAnswerValue := some v }
      | .error e => .error e
    else .error ("Unexpected Answer field for type " ++ qtypeRepr s.qtype ++ ".")
  else if pyStartsWith (pyLower (pyStrip raw)) "tolerance:" then
    if s.qtype ≠ some "NUMERICAL" then
      .error "Tolerance field is only valid for NUMERICAL questions."
    else if s.numericalMode = "range" ∨ s.numericalMode = "significant_digits"
        ∨ s.numericalMode = "decimal_places" then
      .error "Numerical question cannot mix tolerance with range or precision settings."
    else
      match parseNumericalTolerance (pyStrip (afterColon (pyStrip raw))) with
      | .ok mv =>
          .ok { s with numericalMode := mv.1, numericalMarginValue := some mv.2,
                       numericalPrecisionValue := none,
                       numericalRangeMin := none, numericalRangeMax := none,
                       inPrompt := false }
      | .error e => .error e
  else if pyStartsWith (pyLower (pyStrip raw)) "precision:" then
    if s.qtype ≠ some "NUMERICAL" then
      .error "Precision field is only valid for NUMERICAL questions."
    else if s.numericalMode = "percent_margin"
        ∨ s.numericalMode = "absolute_margin" ∨ s.numericalMode = "range" then
      .error "Numerical question cannot mix precision with tolerance or range settings."
    else
      match parseNumericalPrecision (pyStrip (afterColon (pyStrip raw))) with
      | .ok pv =>
          .ok { s with numericalMode := pv.1,
                       numericalPrecisionValue := some pv.2,
                       numericalMarginValue := none,
                       numericalRangeMin := none, numericalRangeMax := none,
                       inPrompt := false }
      | .error e => .error e
  else if pyStartsWith (pyLower (pyStrip raw)) "range:" then
    if s.qtype ≠ some "NUMERICAL" then
      .error "Range field is only valid for NUMERICAL questions."
    else if s.numericalMode ≠ "exact" then
      .error "Numerical question cannot combine range with other tolerance settings."
    else
      match parseNumericalRange (pyStrip (afterColon (pyStrip raw))) with
      | .ok mm =>
          .ok { s with numericalMode := "range",
                       numericalRangeMin := some mm.1,
                       numericalRangeMax := some mm.2,
                       numericalMarginValue := none,
                       numericalPrecisionValue := none,
                       inPrompt := false }
      | .error e => .error e
  else if s.inPrompt then
    .ok { s with promptLines := s.promptLines ++ [raw] }
  else if s.inChoices then
    match parseChoiceLine (pyStrip raw).data with
    | none => .error "Invalid choice line. Use '- [x] text' or '- [ ] text'."
    | some ct =>
        .ok { s with choices := s.choices ++ [{ text := ct.2, correct := ct.1 }] }
  else if s.inPairs then
    match parseArrowLine (pyStrip raw).data with
    | none => .error "Invalid pair line. Use '- Term => Answer'."
    | some ta =>
        .ok { s with pairs := s.pairs ++
          [{ prompt := sanitizeText ta.1, answer := sanitizeText ta.2 }] }
  else if s.inAccept then
    match parseDashLine (pyStrip raw).data with
    | none => .error "Invalid Accept line. Use '- variant'."
    | some v => .ok { s with variants := s.variants ++ [sanitizeText v] }
  else if s.inOrderingItems then
    match parseNumberedLine (pyStrip raw).data with
    | none => .error "Invalid ordering item line. Use '1. Item text'."
    | some v => .ok { s with orderingItems := s.orderingItems ++ [sanitizeText v] }
  else if s.inCategories then
    match parseDashLine (pyStrip raw).data with
    | none => .error "Invalid category line. Use '- Category Name'."
    | some v => .ok { s with categories := s.categories ++ [sanitizeText v] }
  else if s.inCategoryItems then
    match parseArrowLine (pyStrip raw).data with
    | none => .error "Invalid categorization item line. Use '- Item => Category'."
    | some ic =>
        .ok { s with categoryItems := s.categoryItems ++
          [(sanitizeText ic.1, sanitizeText ic.2)] }
  else if s.inDistractors then
    match parseDashLine (pyStrip raw).data with
    | none => .error "Invalid distractor line. Use '- Distractor text'."
    | some v => .ok { s with distractors := s.distractors ++ [sanitizeText v] }
  else .ok s

/-- `sep.join(parts)`. -/
def joinWith (sep : String) : List String → String
  | [] => ""
  | [x] => x
  | x :: xs => x ++ sep ++ joinWith sep xs

/-- `"\n".join(lines)`. -/
def joinNL : List String → String
  | [] => ""
  | [x] => x
  | x :: xs => x ++ "\n" ++ joinNL xs

/-- First-occurrence deduplication.  Python materializes `set`/`dict` keys
whose iteration order is implementation-defined; the development fixes
first-occurrence order, and no theorem below depends on the order. -/
def dedupFirst (l : List String) : List String :=
  l.foldl (fun acc x => if acc.contains x then acc else acc ++ [x]) []

/-- The post-loop construction of `_parse_block`: prompt assembly, the
`qtype` dispatch with its per-type validity guards, and the `Question`
construction (`if not qtype: return None` is falsy for both a missing and an
empty type).  `g` supplies the fresh identifiers the source draws from
`uuid.uuid4()`/`rand8()`. -/
def pbFinalize (g : Nat → String) (s : PBState) :
    Except String (Option Question) :=
  let prompt := sanitizeText (pyStrip (joinNL s.promptLines))
  let pointsValue := s.points.getD 10
  match s.qtype with
  | none => .ok none
  | some qt =>
    if qt = "" then .ok none
    else if qt = "ENDSTIMULUS" ∨ qt = "END_STIMULUS" ∨ qt = "STIMULUS_END"
        ∨ qt = "UNLINK" ∨ qt = "DETACH" then
      .ok (some
        { qtype := "STIMULUS_END", prompt := "", points := 0,
                    payload := .stimulusEnd })
    else if qt = "MC" then
      if s.choices.length < 2 ∨ s.choices.length > 7 then
        .error "MC questions must have 2-7 choices."
      else if (s.choices.filter (fun c => c.correct)).length ≠ 1 then
        .error "MC questions require exactly one correct choice."
      else
        .ok (some
          { qtype := "MC", prompt := prompt, points := pointsValue,
            pointsSet := s.pointsExplicit,
            payload := .mc (s.choices.map
              (fun c => { c with text := sanitizeText c.text })) })
    else if qt = "TF" then
      match s.tfAnswer with
      | none => .error "TF question missing 'Answer: true|false'."
      | some b =>
          .ok (some
            { qtype := "TF", prompt := prompt, points := pointsValue,
              pointsSet := s.pointsExplicit, payload := .tf b })
    else if qt = "MA" then
      if s.choices.length < 2 then
        .error "MA questions require at least two choices."
      else if (s.choices.filter (fun c => c.correct)).length < 1 then
        .error "MA questions require at least one correct choice."
      else
        .ok (some
          { qtype := "MA", prompt := prompt, points := pointsValue,
            pointsSet := s.pointsExplicit,
            payload := .ma (s.choices.map
              (fun c => { c with text := sanitizeText c.text })) })
    else if qt = "NUMERICAL" then
      match resolveNumericalBounds s.numericalAnswerValue s.numericalMode
          s.numericalMarginValue s.numericalRangeMin s.numericalRangeMax
          s.numericalPrecisionValue with
      | .error e => .error e
      | .ok bds =>
          let answerSpec : NumericalAnswer :=
            { answer := s.numericalAnswerValue,
              toleranceMode := s.numericalMode,
              marginValue := s.numericalMarginValue,
              rangeMin := s.numericalRangeMin,
              rangeMax := s.numericalRangeMax,
              precisionValue := s.numericalPrecisionValue,
              lowerBound := some bds.1, upperBound := some bds.2.1,
              strictLower := bds.2.2 }
          match NumericalAnswer.validate answerSpec with
          | [] =>
              .ok (some
                { qtype := "NUMERICAL", prompt := prompt,
                  points := pointsValue, pointsSet := s.pointsExplicit,
                  payload := .numerical answerSpec })
          | e :: es =>
              .error ("Numerical question invalid: " ++
                joinWith "; " (e :: es))
    else if qt = "MATCHING" then
      if s.pairs.length < 2 then
        .error "Matching questions require at least two pairs."
      else
        .ok (some
          { qtype := "MATCHING", prompt := prompt,
            points := pointsValue, pointsSet := s.pointsExplicit,
            payload := .matching s.pairs })
    else if qt = "FITB" then
      if s.variants = [] then
        .error "FITB questions require an Accept: list."
      else
        let token := g 0
        let displayToken := "[" ++ token ++ "]"
        let replaced0 : String :=
          ⟨replaceAll "[blank]".data displayToken.data prompt.data⟩
        let replaced :=
          if replaced0 = prompt then prompt ++ " [ " ++ displayToken ++ " ]"
          else replaced0
        .ok (some
          { qtype := "FITB", prompt := replaced, points := pointsValue,
            pointsSet := s.pointsExplicit,
            payload := .fitb s.variants (some token) })
    else if qt = "ESSAY" then
      .ok (some
        { qtype := "ESSAY", prompt := prompt, points := pointsValue,
          pointsSet := s.pointsExplicit, payload := .essay })
    else if qt = "FILEUPLOAD" then
      .ok (some
        { qtype := "FILEUPLOAD", prompt := prompt,
          points := pointsValue, pointsSet := s.pointsExplicit,
          payload := .fileUpload })
    else if qt = "STIMULUS" then
      .ok (some
        { qtype := "STIMULUS", prompt := prompt, points := 0,
          pointsSet := false, forcedIdent := some ("stim_" ++ g 0),
          payload := .stimulus })
    else if qt = "ORDERING" then
      if s.orderingItems.length < 2 then
        .error "ORDERING questions require at least 2 items."
      else
        .ok (some
          { qtype := "ORDERING", prompt := prompt,
            points := pointsValue, pointsSet := s.pointsExplicit,
            payload := .ordering
              ((s.orderingItems.enum).map
                (fun p => { text := p.2, ident := g p.1 }))
              s.orderingHeader })
    else if qt = "CATEGORIZATION" then
      if s.categories.length < 2 then
        .error "CATEGORIZATION questions require at least 2 categories."
      else if s.categoryItems.length < 1 then
        .error "CATEGORIZATION questions require at least 1 item."
      else
        let catKeys := dedupFirst s.categories
        let itemKeys := dedupFirst (s.categoryItems.map Prod.fst)
        let distKeys := dedupFirst s.distractors
        let itemIdents := (itemKeys.enum).map
          (fun p => (p.2, g (catKeys.length + p.1)))
        .ok (some
          { qtype := "CATEGORIZATION", prompt := prompt,
            points := pointsValue, pointsSet := s.pointsExplicit,
            payload := .categorization s.categories
              ((catKeys.enum).map (fun p => (p.2, g p.1)))
              (s.categoryItems.map (fun ic =>
                { itemText := ic.1,
                  itemIdent := (((itemIdents.find?
                      (fun p => p.1 == ic.1)).map (fun p => p.2)).getD ""),
                  categoryName := ic.2 }))
              distKeys
              ((distKeys.enum).map (fun p =>
                (p.2, g (catKeys.length + itemKeys.length + p.1)))) })
    else if qt = "STIMULUS_END" then
      .ok (some
        { qtype := "STIMULUS_END", prompt := "", points := 0,
          pointsSet := false, payload := .stimulusEnd })
    else .error ("Unsupported Type: " ++ qt ++ ".")

/-- The `for raw in lines` loop with `ValueError` short-circuit. -/
def pbLoop : PBState → List String → Except String PBState
  | s, [] => .ok s
  | s, l :: rest =>
      match pbStep s l with
      | .ok s2 => pbLoop s2 rest
      | .error e => .error e

/-- `TextOutlineParser._parse_block(lines)`. -/
def parseBlock (g : Nat → String) (lines : List String) :
    Except String (Option Question) :=
  match pbLoop {} lines with
  | .ok s => pbFinalize g s
  | .error e => .error e

/-- The three mutually exclusive numeric directives of a NUMERICAL block. -/
inductive NumDirective where
  | tol
  | prec
  | rng
deriving Repr, DecidableEq

/-- The `numerical_mode` values a directive of each kind can leave behind. -/
def directiveModes : NumDirective → List String
  | .tol => ["percent_margin", "absolute_margin"]
  | .prec => ["significant_digits", "decimal_places"]
  | .rng => ["range"]

/-- Which numeric directive (if any) a raw block line is, by the same
stripped-lowercased prefix tests `_parse_block` dispatches on. -/
def directiveKind (raw : String) : Option NumDirective :=
  let lowered := pyLower (pyStrip raw)
  if pyStartsWith lowered "tolerance:" then some .tol
  else if pyStartsWith lowered "precision:" then some .prec
  else if pyStartsWith lowered "range:" then some .rng
  else none

/-! ## QTI numeric literal formatting
(`engine/rendering/canvas/numerical_renderer.py`, `_format_decimal`).

A finite `Decimal` is its sign/coefficient/exponent triple; `str()` is the
CPython `Decimal.__str__` algorithm (non-engineering, capital `E`), and
`normalize()` strips trailing coefficient zeros (a zero collapses to
exponent 0).  The context-precision rounding inside `normalize` never fires
for this pipeline's values, which stay far below the default 28 digits. -/

structure PyDec where
  neg : Bool
  digits : List Nat
  exp : Int
deriving Repr, DecidableEq

/-- `Decimal.normalize()`. -/
def PyDec.normalize (d : PyDec) : PyDec :=
  if d.digits.all (fun k => k = 0) then { neg := d.neg, digits := [0], exp := 0 }
  else
    { neg := d.neg,
      digits := (d.digits.reverse.dropWhile (fun k => k = 0)).reverse,
      exp := d.exp +
        (d.digits.length -
          (d.digits.reverse.dropWhile (fun k => k = 0)).reverse.length : ℕ) }

/-- Coefficient digits as characters. -/
def decDigitsChars (ds : List Nat) : List Char :=
  ds.map (fun k => Char.ofNat (48 + k))

/-- `"%+d" % x`. -/
def fmtExpInt (x : Int) : List Char :=
  if x < 0 then '-' :: (Nat.repr (-x).toNat).data
  else '+' :: (Nat.repr x.toNat).data

/-- `dotplace` of `Decimal.__str__`: `leftdigits` when
`exp <= 0 and leftdigits > -6`, else 1 (non-engineering). -/
def decDotplace (d : PyDec) : Int :=
  if d.exp ≤ 0 ∧ -6 < d.exp + (d.digits.length : Int) then
    d.exp + (d.digits.length : Int)
  else 1

/-- `intpart` of `Decimal.__str__`. -/
def decIntPart (d : PyDec) : List Char :=
  if decDotplace d ≤ 0 then ['0']
  else if (d.digits.length : Int) ≤ decDotplace d then
    decDigitsChars d.digits ++
      List.replicate ((decDotplace d) - d.digits.length).toNat '0'
  else (decDigitsChars d.digits).take (decDotplace d).toNat

/-- `fracpart` of `Decimal.__str__`. -/
def decFracPart (d : PyDec) : List Char :=
  if decDotplace d ≤ 0 then
    '.' :: (List.replicate (-(decDotplace d)).toNat '0' ++ decDigitsChars d.digits)
  else if (d.digits.length : Int) ≤ decDotplace d then []
  else '.' :: (decDigitsChars d.digits).drop (decDotplace d).toNat

/-- The exponent part of `Decimal.__str__` (capital `E`, `%+d` exponent). -/
def decExpPart (d : PyDec) : List Char :=
  if d.exp + (d.digits.length : Int) = decDotplace d then []
  else 'E' :: fmtExpInt (d.exp + (d.digits.length : Int) - decDotplace d)

/-- `str(decimal)`. -/
def pyDecStr (d : PyDec) : String :=
  ⟨(if d.neg then ['-'] else []) ++ decIntPart d ++ decFracPart d ++ decExpPart d⟩

/-- `text.rstrip("0")`. -/
def rstrip0 (l : List Char) : List Char :=
  (l.reverse.dropWhile (fun c => c = '0')).reverse

/-- The mantissa fix of the scientific branch: add `".0"` when the mantissa
has no decimal point. -/
def formatMantissaFix (m : List Char) : List Char :=
  if m.contains '.' then m else m ++ ['.', '0']

/-- The scientific branch of `_format_decimal`:
`mantissa, exponent = text.split("E")` (exactly one `E` occurs in a
`Decimal` string), fix the mantissa, reassemble. -/
def formatSci (td : List Char) : List Char :=
  formatMantissaFix (td.takeWhile (fun c => c ≠ 'E')) ++
    'E' :: td.drop ((td.takeWhile (fun c => c ≠ 'E')).length + 1)

/-- The plain branch of `_format_decimal`: strip trailing zeros keeping at
least one decimal digit, or append `".0"` to an integer. -/
def formatPlain (td : List Char) : List Char :=
  if td.contains '.' then
    (if (rstrip0 td).getLast? = some '.' then rstrip0 td ++ ['0']
     else rstrip0 td)
  else td ++ ['.', '0']

/-- `_format_decimal(value)` (`"E" in text` is single-character
containment; a `Decimal` string never contains a lowercase `e`). -/
def formatDecimal (d : PyDec) : String :=
  if (pyDecStr (PyDec.normalize d)).data.contains 'E'
      ∨ (pyDecStr (PyDec.normalize d)).data.contains 'e' then
    ⟨formatSci (pyDecStr (PyDec.normalize d)).data⟩
  else if formatPlain (pyDecStr (PyDec.normalize d)).data = []
      ∨ formatPlain (pyDecStr (PyDec.normalize d)).data = ['.', '0'] then
    "0.0"
  else ⟨formatPlain (pyDecStr (PyDec.normalize d)).data⟩

/-! ### Concrete inputs used by witnesses -/

/-- A multiple-choice question with two choices, the first correct. -/
def demoMC (t : String) : Question :=
  { qtype := "MC", prompt := t,
    payload := .mc [{ text := "alpha", correct := true }, { text := "beta" }] }

/-- An essay question. -/
def demoEssay : Question :=
  { qtype := "ESSAY", prompt := "Discuss.", payload := .essay }

/-- The spec's point-allocation example: 3 MC questions plus 1 Essay. -/
def demoQs : List Question := [demoMC "q1", demoMC "q2", demoMC "q3", demoEssay]

/-- A valid exact-mode numerical answer spec with computed bounds. -/
def demoNumSpec : NumericalAnswer :=
  { answer := some 5, toleranceMode := "exact",
    lowerBound := some 5, upperBound := some 5 }

/-- A quiz with only two MC questions (below the length-bias sample-size
threshold). -/
def quiz2mc : Quiz :=
  { title := "Two MC", questions := [demoMC "q1", demoMC "q2"] }

/-- A structurally valid quiz of three MC questions in which the longest
substantive choice is always the correct one (100% ≥ 60% length bias). -/
def cexBiasQuiz : Quiz :=
  { title := "Bias demo",
    questions :=
      [{ qtype := "MC", prompt := "Q1",
         payload := .mc [{ text := "no" },
                         { text := "a much longer correct answer", correct := true }] },
       { qtype := "MC", prompt := "Q2",
         payload := .mc [{ text := "yes" },
                         { text := "another very long correct answer", correct := true }] },
       { qtype := "MC", prompt := "Q3",
         payload := .mc [{ text := "maybe" },
                         { text := "the clearly longest correct answer", correct := true }] }] }

/-- A NUMERICAL block with a single `Tolerance:` directive. -/
def numTolBlock : List String :=
  ["Type: NUMERICAL", "Prompt: Compute.", "Answer: 5", "Tolerance: 1%"]

/-- A NUMERICAL block with a single `Precision:` directive. -/
def numPrecBlock : List String :=
  ["Type: NUMERICAL", "Prompt: Compute.", "Answer: 5",
   "Precision: 2 decimal places"]

/-- A NUMERICAL block with a single `Range:` directive. -/
def numRangeBlock : List String :=
  ["Type: NUMERICAL", "Prompt: Compute.", "Range: 5 to 10"]

/-- An MC question whose prompt contains an HTML-looking tag, with a forced
item identifier (so the built item is independent of `rand8()`). -/
def cexMCQuestion : Question :=
  { qtype := "MC", prompt := "a <b> c", points := 10, pointsSet := true,
    forcedIdent := some "q1",
    payload := .mc [{ text := "yes", correct := true }, { text := "no" }] }

/-- A one-question quiz exercising the QTI round-trip verifier. -/
def cexRoundTripQuiz : Quiz :=
  { title := "RT", questions := [cexMCQuestion] }

-- ===================================================================
/-- `TextCleaner.clean(quiz)` (`engine/validation/fixers/text_cleaner.py`):
sanitize the quiz title and every question prompt, and log one message. -/
def textCleanerClean (quiz : Quiz) : Quiz × List String :=
  ({ quiz with
      title := sanitizeText quiz.title,
      questions := quiz.questions.map
        (fun q => { q with prompt := sanitizeText q.prompt }) },
   ["Cleaned text (normalized quotes, whitespace)"])

/-- The eight characters `sanitize_text` replaces: left/right curly double
and single quotes, em dash, en dash, horizontal ellipsis, non-breaking
space. -/
def sanitizeTargets : List Char :=
  ['“', '”', '‘', '’', '—', '–', '…',
   ' ']

/-- A string free of all characters `sanitize_text` replaces. -/
def cleanStr (s : String) : Prop := ∀ c ∈ s.data, c ∉ sanitizeTargets

/-- The student-visible strings of each payload named by the sanitization
claim: MC/MA choice texts, matching pair sides, accept variants, ordering
items, category names, distractors. -/
def payloadClean : QPayload → Prop
  | .mc choices => ∀ ch ∈ choices, cleanStr ch.text
  | .ma choices => ∀ ch ∈ choices, cleanStr ch.text
  | .matching pairs => ∀ p ∈ pairs, cleanStr p.prompt ∧ cleanStr p.answer
  | .fitb variants _ => ∀ v ∈ variants, cleanStr v
  | .ordering items _ => ∀ it ∈ items, cleanStr it.text
  | .categorization categories _ items distractors _ =>
      (∀ cat ∈ categories, cleanStr cat) ∧
      (∀ m ∈ items, cleanStr m.categoryName) ∧
      (∀ t ∈ distractors, cleanStr t)
  | _ => True

/-- Prompt plus payload cleanliness. -/
def questionClean (q : Question) : Prop :=
  cleanStr q.prompt ∧ payloadClean q.payload

/-- Loop invariant of `_parse_block`: the collected lists that reach a
`Question` without further sanitization are already sanitized. -/
def stateClean (s : PBState) : Prop :=
  (∀ p ∈ s.pairs, cleanStr p.prompt ∧ cleanStr p.answer) ∧
  (∀ v ∈ s.variants, cleanStr v) ∧
  (∀ v ∈ s.orderingItems, cleanStr v) ∧
  (∀ v ∈ s.categories, cleanStr v) ∧
  (∀ ic ∈ s.categoryItems, cleanStr ic.1 ∧ cleanStr ic.2) ∧
  (∀ v ∈ s.distractors, cleanStr v)

-- THEOREMS
-- ===================================================================

/-- C3: tolerance-engine bounds per mode.  For every answer `a` and valid mode
inputs, `_resolve_numerical_bounds` returns `(a, a, false)` for `exact`;
`(a - |a|·margin/100, a + |a|·margin/100, false)` for `percent_margin` (margin
is non-negative for valid inputs, as produced by the tolerance parser);
`(a - |margin|, a + |margin|, false)` for `absolute_margin`;
`(range_min, range_max, false)` for `range`; and for `significant_digits` /
`decimal_places` it returns `(a - offset, a + offset, true)` with
`offset = 0.5 × 10^(⌊log10 |a|⌋ - digits + 1)` for significant digits
(`0.5` when `a = 0`) and `offset = 0.5 × 10^(-precision)` for decimal
places. -/
theorem resolveNumericalBounds_modes (a m lo hi : ℚ) (p : Int) :
    (∀ margin rMin rMax prec,
      resolveNumericalBounds (some a) "exact" margin rMin rMax prec =
        .ok (a, a, false)) ∧
    (0 ≤ m → ∀ rMin rMax prec,
      resolveNumericalBounds (some a) "percent_margin" (some m) rMin rMax prec =
        .ok (a - |a| * m / 100, a + |a| * m / 100, false)) ∧
    (∀ rMin rMax prec,
      resolveNumericalBounds (some a) "absolute_margin" (some m) rMin rMax prec =
        .ok (a - |m|, a + |m|, false)) ∧
    (∀ answer margin prec,
      resolveNumericalBounds answer "range" margin (some lo) (some hi) prec =
        .ok (lo, hi, false)) ∧
    (0 ≤ p → a ≠ 0 →
      resolveNumericalBounds (some a) "significant_digits" none none none (some p) =
        .ok (a - (1/2) * (10 : ℚ) ^ (Int.log 10 |a| - p + 1),
             a + (1/2) * (10 : ℚ) ^ (Int.log 10 |a| - p + 1), true)) ∧
    (0 ≤ p →
      resolveNumericalBounds (some (0 : ℚ)) "significant_digits" none none none (some p) =
        .ok (-(1/2 : ℚ), (1/2 : ℚ), true)) ∧
    (0 ≤ p →
      resolveNumericalBounds (some a) "decimal_places" none none none (some p) =
        .ok (a - (1/2) * (10 : ℚ) ^ (-p), a + (1/2) * (10 : ℚ) ^ (-p), true)) := by
  refine ⟨?_, ?_, ?_, ?_, ?_, ?_, ?_⟩
  · intro margin rMin rMax prec
    simp [resolveNumericalBounds, resolveExact]
  · intro hm rMin rMax prec
    have hdisp : resolveNumericalBounds (some a) "percent_margin" (some m) rMin rMax prec =
        resolvePercentMargin (some a) (some m) := by
      simp [resolveNumericalBounds]
    rw [hdisp]
    simp [resolvePercentMargin, abs_of_nonneg hm, mul_div_assoc]
  · intro rMin rMax prec
    simp [resolveNumericalBounds, resolveAbsoluteMargin]
  · intro answer margin prec
    simp [resolveNumericalBounds, resolveRange]
  · intro hp ha
    simp [resolveNumericalBounds, resolveSigDigits, computeSignificantDigitBounds,
      not_lt.mpr hp, ha]
  · intro hp
    simp [resolveNumericalBounds, resolveSigDigits, computeSignificantDigitBounds,
      not_lt.mpr hp]
  · intro hp
    simp [resolveNumericalBounds, resolveDecimalPlaces, computeDecimalPlaceBounds,
      not_lt.mpr hp]

/-- Witness for C3: the spec's examples.  Answer 8.0 with 1 significant digit
yields bounds `(7.5, 8.5]` with `strict_lower = true`; answer 5.0 with
`Tolerance: 1%` yields `[4.95, 5.05]`. -/
theorem resolveNumericalBounds_modes_witness :
    resolveNumericalBounds (some 8) "significant_digits" none none none (some 1) =
      .ok ((15/2 : ℚ), (17/2 : ℚ), true) ∧
    resolveNumericalBounds (some 5) "percent_margin" (some 1) none none none =
      .ok ((99/20 : ℚ), (101/20 : ℚ), false) := by
  constructor
  · have h := (resolveNumericalBounds_modes 8 0 0 0 1).2.2.2.2.1
      (by norm_num) (by norm_num)
    rw [h]
    have hlog : Int.log 10 |(8 : ℚ)| = 0 := by norm_num [Int.log]
    rw [hlog]
    norm_num
  · have h := (resolveNumericalBounds_modes 5 1 0 0 0).2.1 (by norm_num)
    have h2 := h none none none
    rw [h2]
    norm_num

/-! ### Helper lemmas for the point allocator -/

theorem insertByRemDesc_perm (x : Nat × Int × ℚ) (l : List (Nat × Int × ℚ)) :
    List.Perm (insertByRemDesc x l) (x :: l) := by
  induction l with
  | nil => simp [insertByRemDesc]
  | cons y ys ih =>
      by_cases h : y.2.2 ≤ x.2.2
      · simp [insertByRemDesc, h]
      · simp only [insertByRemDesc, if_neg h]
        exact List.Perm.trans (List.Perm.cons y ih) (List.Perm.swap x y ys)

theorem sortByRemDesc_perm (l : List (Nat × Int × ℚ)) :
    List.Perm (sortByRemDesc l) l := by
  induction l with
  | nil => simp [sortByRemDesc]
  | cons x xs ih =>
      exact List.Perm.trans (insertByRemDesc_perm x (sortByRemDesc xs))
        (List.Perm.cons x ih)

theorem assignBonus_map_fst (rp : Int) (l : List (Nat × Int × ℚ)) :
    (assignBonus rp l).map Prod.fst = l.map Prod.fst := by
  induction l generalizing rp with
  | nil => simp [assignBonus]
  | cons x xs ih => simp [assignBonus, ih]

theorem assignBonus_length (rp : Int) (l : List (Nat × Int × ℚ)) :
    (assignBonus rp l).length = l.length := by
  induction l generalizing rp with
  | nil => simp [assignBonus]
  | cons x xs ih => simp [assignBonus, ih]

theorem addToLast_map_fst (d : Int) (l : List (Nat × Int)) :
    (addToLast d l).map Prod.fst = l.map Prod.fst := by
  induction l with
  | nil => simp [addToLast]
  | cons x xs ih =>
      cases xs with
      | nil => simp [addToLast]
      | cons y ys => simpa [addToLast] using ih

theorem addToLast_sum (d : Int) (l : List (Nat × Int)) (h : l ≠ []) :
    ((addToLast d l).map Prod.snd).sum = (l.map Prod.snd).sum + d := by
  induction l with
  | nil => exact absurd rfl h
  | cons x xs ih =>
      cases xs with
      | nil => simp [addToLast]
      | cons y ys =>
          have := ih (by simp)
          simp only [addToLast, List.map_cons, List.sum_cons] at this ⊢
          rw [this]; ring

theorem roundHalfEven_intCast (n : Int) : roundHalfEven (n : ℚ) = n := by
  simp [roundHalfEven]

theorem shareWeight_pos (t : String) : 0 < shareWeight t := by
  unfold shareWeight
  split_ifs <;> norm_num

theorem lookupPts_isSome_of_mem (pts : List (Nat × Int)) (i : Nat)
    (h : i ∈ pts.map Prod.fst) : ∃ v, lookupPts pts i = some v := by
  induction pts with
  | nil => simp at h
  | cons p rest ih =>
      by_cases hp : p.1 = i
      · exact ⟨p.2, by simp [lookupPts, List.find?, hp]⟩
      · have : i ∈ rest.map Prod.fst := by
          simp only [List.map_cons, List.mem_cons] at h
          exact h.resolve_left (fun he => hp he.symm)
        obtain ⟨v, hv⟩ := ih this
        refine ⟨v, ?_⟩
        have hb : ¬ ((fun q : Nat × Int => q.1 == i) p = true) := by simpa using hp
        simp only [lookupPts] at hv ⊢
        rw [List.find?_cons_of_neg rest hb]
        exact hv

theorem lookupPts_cons_self (i : Nat) (v : Int) (rest : List (Nat × Int)) :
    lookupPts ((i, v) :: rest) i = some v := by
  simp only [lookupPts]
  rw [List.find?_cons_of_pos rest (by simp)]

theorem lookupPts_cons_ne (i j : Nat) (v : Int) (rest : List (Nat × Int))
    (h : j ≠ i) : lookupPts ((i, v) :: rest) j = lookupPts rest j := by
  simp only [lookupPts]
  rw [List.find?_cons_of_neg rest (by simpa using fun he => h he.symm)]

/-- Summing looked-up values over a duplicate-free permutation of the key list
recovers the sum of the stored values. -/
theorem sum_lookupPts_eq (pts : List (Nat × Int)) : ∀ (keys : List Nat),
    List.Perm (pts.map Prod.fst) keys → keys.Nodup →
    (keys.map (fun i => (lookupPts pts i).getD 0)).sum = (pts.map Prod.snd).sum := by
  induction pts with
  | nil =>
      intro keys hperm _
      have : keys = [] := by
        have := hperm.symm
        simpa [List.perm_nil] using this
      simp [this, lookupPts]
  | cons p rest ih =>
      intro keys hperm hnd
      obtain ⟨i, v⟩ := p
      have hi : i ∈ keys := hperm.mem_iff.mp (by simp)
      have hkeys : List.Perm keys (i :: keys.erase i) := List.perm_cons_erase hi
      have hrest : List.Perm (rest.map Prod.fst) (keys.erase i) := by
        have : List.Perm (i :: rest.map Prod.fst) (i :: keys.erase i) := by
          simpa using hperm.trans hkeys
        exact this.cons_inv
      have hsum : (keys.map (fun j => (lookupPts ((i, v) :: rest) j).getD 0)).sum =
          ((i :: keys.erase i).map (fun j => (lookupPts ((i, v) :: rest) j).getD 0)).sum :=
        (hkeys.map _).sum_eq
      rw [hsum]
      simp only [List.map_cons, List.sum_cons, lookupPts_cons_self]
      have hcongr : (keys.erase i).map (fun j => (lookupPts ((i, v) :: rest) j).getD 0) =
          (keys.erase i).map (fun j => (lookupPts rest j).getD 0) := by
        apply List.map_congr_left
        intro j hj
        have hji : j ≠ i := (hnd.mem_erase_iff.mp hj).1
        rw [lookupPts_cons_ne i j v rest hji]
      rw [hcongr, ih (keys.erase i) hrest (hnd.erase i)]
      simp

/-- Structural status is unaffected by writing points back. -/
theorem applyPoints_mem_shape (qs : List Question) (pts : List (Nat × Int))
    (q : Question) (hq : q ∈ applyPoints qs pts) :
    ∃ p ∈ qs.enum, q = (match lookupPts pts p.1 with
      | some v => { p.2 with points := (v : ℚ), pointsSet := true }
      | none => p.2) := by
  simp only [applyPoints, List.mem_map] at hq
  obtain ⟨p, hp, hq⟩ := hq
  exact ⟨p, hp, hq.symm⟩

theorem applyPoints_scorable_sum (qs : List Question) (pts : List (Nat × Int))
    (hkeys : List.Perm (pts.map Prod.fst)
      ((qs.enum.filter (fun p => ¬ p.2.isStructural)).map Prod.fst)) :
    scorablePoints (applyPoints qs pts) = ((pts.map Prod.snd).sum : ℚ) := by
  classical
  set upd : (Nat × Question) → Question := fun p =>
    (match lookupPts pts p.1 with
     | some v => { p.2 with points := (v : ℚ), pointsSet := true }
     | none => p.2) with hupd
  have hshape : ∀ p : Nat × Question, (upd p).isStructural = p.2.isStructural := by
    intro p
    rw [hupd]
    rcases h : lookupPts pts p.1 with _ | v <;>
      simp [h, Question.isStructural, Question.isStimulusItem, Question.isStimulusEnd]
  have happ : applyPoints qs pts = qs.enum.map upd := rfl
  have hfilter : (qs.enum.map upd).filter (fun q => ¬ q.isStructural) =
      (qs.enum.filter (fun p => ¬ p.2.isStructural)).map upd := by
    rw [List.filter_map]
    congr 1
    apply List.filter_congr
    intro p _
    simp [Function.comp, hshape p]
  have hnodupkeys : ((qs.enum.filter (fun p => ¬ p.2.isStructural)).map Prod.fst).Nodup := by
    have hsub : ((qs.enum.filter (fun p => ¬ p.2.isStructural)).map Prod.fst).Sublist
        (qs.enum.map Prod.fst) :=
      List.Sublist.map Prod.fst (List.filter_sublist qs.enum)
    rw [List.enum_map_fst] at hsub
    exact hsub.nodup (List.nodup_range _)
  have hpoints : ∀ p ∈ qs.enum.filter (fun p => ¬ p.2.isStructural),
      (upd p).points = ((lookupPts pts p.1).getD 0 : ℚ) := by
    intro p hp
    have hmem : p.1 ∈ pts.map Prod.fst := by
      refine hkeys.mem_iff.mpr ?_
      exact List.mem_map.mpr ⟨p, hp, rfl⟩
    obtain ⟨v, hv⟩ := lookupPts_isSome_of_mem pts p.1 hmem
    rw [hupd]
    simp [hv]
  calc scorablePoints (applyPoints qs pts)
      = (((qs.enum.filter (fun p => ¬ p.2.isStructural)).map upd).map
          (fun q => q.points)).sum := by
        rw [scorablePoints, happ, hfilter]
    _ = ((qs.enum.filter (fun p => ¬ p.2.isStructural)).map
          (fun p => ((lookupPts pts p.1).getD 0 : ℚ))).sum := by
        rw [List.map_map]
        exact congrArg List.sum (List.map_congr_left (fun p hp => hpoints p hp))
    _ = ((((qs.enum.filter (fun p => ¬ p.2.isStructural)).map Prod.fst).map
          (fun i => (lookupPts pts i).getD 0)).map (fun n : ℤ => (n : ℚ))).sum := by
        simp only [List.map_map]
        rfl
    _ = ((pts.map Prod.snd).sum : ℚ) := by
        rw [← sum_lookupPts_eq pts _ hkeys hnodupkeys]
        push_cast
        rfl

theorem mapFst_afterDrift (withBonus : List (Nat × Int)) (drift : Int) :
    ((if drift ≠ 0 then addToLast drift withBonus else withBonus).map Prod.fst) =
      withBonus.map Prod.fst := by
  by_cases h : drift ≠ 0
  · rw [if_pos h, addToLast_map_fst]
  · rw [if_neg h]

theorem sum_afterDrift (wB : List (Nat × Int)) (total : Int) (hne : wB ≠ []) :
    ((if total - (wB.map (fun t => t.2)).sum ≠ 0
        then addToLast (total - (wB.map (fun t => t.2)).sum) wB
        else wB).map Prod.snd).sum = total := by
  have heq : (wB.map (fun t : Nat × Int => t.2)).sum = (wB.map Prod.snd).sum := rfl
  by_cases h : total - (wB.map (fun t => t.2)).sum ≠ 0
  · rw [if_pos h, addToLast_sum _ _ hne]
    omega
  · rw [if_neg h]
    push_neg at h
    omega

theorem cpAdjusted_map_fst (qs : List Question) (total : Int) :
    List.Perm ((cpAdjusted qs total).map Prod.fst) ((cpScorable qs).map Prod.fst) := by
  have hprovfst : (cpProvisional qs total).map Prod.fst = (cpScorable qs).map Prod.fst := by
    simp only [cpProvisional, cpShares, List.map_map]
    rfl
  unfold cpAdjusted
  simp only []
  rw [mapFst_afterDrift, assignBonus_map_fst, ← hprovfst]
  exact (sortByRemDesc_perm _).map Prod.fst

theorem cpAdjusted_sum (qs : List Question) (total : Int)
    (hne : cpScorable qs ≠ []) :
    ((cpAdjusted qs total).map Prod.snd).sum = total := by
  have hprovne : cpProvisional qs total ≠ [] := by
    simp only [cpProvisional, cpShares, ne_eq, List.map_eq_nil_iff]
    simpa using hne
  have hsortne : sortByRemDesc (cpProvisional qs total) ≠ [] := by
    intro h
    have hperm := sortByRemDesc_perm (cpProvisional qs total)
    rw [h] at hperm
    exact hprovne (List.perm_nil.mp hperm.symm)
  have hwBne : ∀ rp, assignBonus rp (sortByRemDesc (cpProvisional qs total)) ≠ [] := by
    intro rp h
    have hl := assignBonus_length rp (sortByRemDesc (cpProvisional qs total))
    rw [h] at hl
    exact hsortne (List.length_eq_zero.mp hl.symm)
  unfold cpAdjusted
  simp only []
  exact sum_afterDrift _ total (hwBne _)

theorem applyPoints_scorable_int (qs : List Question) (pts : List (Nat × Int))
    (hkeys : List.Perm (pts.map Prod.fst)
      ((qs.enum.filter (fun p => ¬ p.2.isStructural)).map Prod.fst)) :
    ∀ q ∈ applyPoints qs pts, q.isStructural = false →
      ∃ n : ℤ, q.points = (n : ℚ) := by
  intro q hq hstruct
  obtain ⟨p, hp, hqdef⟩ := applyPoints_mem_shape qs pts q hq
  rcases hlook : lookupPts pts p.1 with _ | v
  · -- no stored value: q is the untouched question, but a scorable question's
    -- position always has a stored value (the keys are a permutation of the
    -- scorable positions)
    exfalso
    rw [hqdef] at hstruct
    simp only [hlook] at hstruct
    have hmem : p ∈ qs.enum.filter (fun p => ¬ p.2.isStructural) :=
      List.mem_filter.mpr ⟨hp, by simp [hstruct]⟩
    have : p.1 ∈ pts.map Prod.fst :=
      hkeys.mem_iff.mpr (List.mem_map.mpr ⟨p, hmem, rfl⟩)
    obtain ⟨v, hv⟩ := lookupPts_isSome_of_mem pts p.1 this
    rw [hv] at hlook
    exact Option.noConfusion hlook
  · refine ⟨v, ?_⟩
    rw [hqdef]
    simp [hlook]

/-- C4: point allocation exactness.  For every question list with at least one
scorable (non-Stimulus/StimulusEnd) question and every integer target total,
after `calculate_points` (share-weighted floor division, largest-remainder
distribution of the leftover, and any residual adjusted on one question) the
sum of the per-question points over scorable questions equals the target total
exactly, and every scorable question carries an integer point value. -/
theorem calculatePoints_sum_exact (qs : List Question) (total : Int)
    (hne : ∃ q ∈ qs, q.isStructural = false) :
    scorablePoints (calculatePoints qs total) = (total : ℚ) ∧
    ∀ q ∈ calculatePoints qs total, q.isStructural = false →
      ∃ n : ℤ, q.points = (n : ℚ) := by
  have hscne : cpScorable qs ≠ [] := by
    obtain ⟨q, hq, hs⟩ := hne
    have hmm : q ∈ qs.enum.map Prod.snd := by rw [List.enum_map_snd]; exact hq
    obtain ⟨p, hp, hpq⟩ := List.mem_map.mp hmm
    have : p ∈ cpScorable qs := List.mem_filter.mpr ⟨hp, by simp [hpq, hs]⟩
    exact List.ne_nil_of_mem this
  have htS : cpTotalShares qs ≠ 0 := by
    have hpos : 0 < cpTotalShares qs := by
      apply List.sum_pos
      · intro x hx
        simp only [cpShares, List.map_map, List.mem_map] at hx
        obtain ⟨p, hp, hpx⟩ := hx
        rw [← hpx]
        exact shareWeight_pos _
      · simp only [cpShares, ne_eq, List.map_eq_nil_iff]
        exact hscne
    exact ne_of_gt hpos
  have hcalc : calculatePoints qs total = applyPoints qs (cpAdjusted qs total) := by
    unfold calculatePoints
    rw [if_neg hscne, if_neg htS]
  have hkeys := cpAdjusted_map_fst qs total
  unfold cpScorable at hkeys
  constructor
  · rw [hcalc, applyPoints_scorable_sum qs _ hkeys, cpAdjusted_sum qs total hscne]
  · rw [hcalc]
    exact applyPoints_scorable_int qs _ hkeys

/-- Witness for C4: the spec's example, 3 MC questions plus 1 Essay with
target total 100 receive integer points summing to exactly 100. -/
theorem calculatePoints_sum_exact_witness :
    (∃ q ∈ demoQs, q.isStructural = false) ∧
    scorablePoints (calculatePoints demoQs 100) = (100 : ℚ) := by
  have hex : ∃ q ∈ demoQs, q.isStructural = false :=
    ⟨demoMC "q1", by simp [demoQs], rfl⟩
  exact ⟨hex, (calculatePoints_sum_exact demoQs 100 hex).1⟩

/-- C9: bounds-ordering invariant.  Every `NumericalAnswer` spec accepted by
`validate` (no errors) has both bounds present with
`lower_bound ≤ upper_bound`; exact-mode bound resolution always returns
`lower_bound = upper_bound = answer` (with an inclusive lower bound); and a
spec whose computed `lower_bound` exceeds its `upper_bound`, or whose bounds
are missing, is reported as invalid. -/
theorem numericalAnswer_bounds_invariant (spec : NumericalAnswer) :
    (spec.validate = [] →
      ∃ lo hi, spec.lowerBound = some lo ∧ spec.upperBound = some hi ∧ lo ≤ hi) ∧
    (∀ (a : ℚ) (margin rMin rMax : Option ℚ) (prec : Option Int) (lo hi : ℚ)
        (strict : Bool),
      resolveNumericalBounds (some a) "exact" margin rMin rMax prec =
        .ok (lo, hi, strict) →
      lo = a ∧ hi = a ∧ strict = false) ∧
    (∀ lo hi : ℚ, spec.lowerBound = some lo → spec.upperBound = some hi →
      hi < lo → spec.validate ≠ []) ∧
    ((spec.lowerBound = none ∨ spec.upperBound = none) → spec.validate ≠ []) := by
  refine ⟨?_, ?_, ?_, ?_⟩
  · intro h
    simp only [NumericalAnswer.validate] at h
    rcases hlo : spec.lowerBound with _ | lo <;>
      rcases hhi : spec.upperBound with _ | hi <;> rw [hlo, hhi] at h
    · simp at h
    · simp at h
    · simp at h
    · refine ⟨lo, hi, rfl, rfl, ?_⟩
      by_contra hgt
      push_neg at hgt
      simp [hgt] at h
  · intro a margin rMin rMax prec lo hi strict hres
    simp [resolveNumericalBounds, resolveExact] at hres
    rcases hres with ⟨h1, h2, h3⟩
    exact ⟨h1.symm, h2.symm, h3⟩
  · intro lo hi hlo hhi hgt
    intro h
    simp only [NumericalAnswer.validate, hlo, hhi] at h
    simp [hgt] at h
  · intro hmiss
    simp only [NumericalAnswer.validate]
    rcases hmiss with hm | hm <;> rw [hm] <;> intro h
    · simp at h
    · rcases spec.lowerBound with _ | lo <;> simp at h

/-- Witness for C9: a concrete valid exact-mode spec has both bounds present
with `lower_bound ≤ upper_bound`. -/
theorem numericalAnswer_bounds_invariant_witness :
    demoNumSpec.validate = [] ∧
    ∃ lo hi, demoNumSpec.lowerBound = some lo ∧ demoNumSpec.upperBound = some hi ∧
      lo ≤ hi := by
  have hval : demoNumSpec.validate = [] := by
    simp [NumericalAnswer.validate, demoNumSpec]
  exact ⟨hval, (numericalAnswer_bounds_invariant demoNumSpec).1 hval⟩

/-- C5 counterexample: a quiz with 3 MC questions whose longest substantive
choice is always correct.  `check_length_bias` detects the bias, but the
validation pipeline's fairness step (`check_fairness`) emits nothing, and the
pipeline returns PASS with no warnings: the claimed quiz-level error is never
emitted when a quiz is run through the validation pipeline. -/
theorem fairness_pipeline_counterexample :
    checkLengthBias cexBiasQuiz ≠ [] ∧
    checkFairness cexBiasQuiz = [] ∧
    validateWith (fun q => (q, [])) cexBiasQuiz =
      { status := .pass, quiz := cexBiasQuiz, fixLog := [], errors := [],
        warnings := [] } := by
  have hmc : (cexBiasQuiz.questions.filter (fun q => q.isMC)) = cexBiasQuiz.questions := by
    decide
  have hcounts : lengthBiasCounts cexBiasQuiz.questions = ⟨3, 0, 3⟩ := by decide
  refine ⟨?_, rfl, ?_⟩
  · have hl : 60 ≤ longestPctOf cexBiasQuiz.questions := by
      rw [longestPctOf, hcounts]
      norm_num
    unfold checkLengthBias
    rw [hmc]
    have h3 : ¬ (cexBiasQuiz.questions.length < 3) := by decide
    rw [if_neg h3]
    simp only [hcounts]
    norm_num [hl]
    exact List.cons_ne_nil _ _
  · have hstruct : validateStructure cexBiasQuiz = [] := by decide
    unfold validateWith
    rw [hstruct]
    simp [checkFairness]

/-- C5 (amended): the fairness step actually invoked by the validation
pipeline (`check_fairness`) emits no messages for any quiz; the length-bias
logic lives in `check_length_bias`, which operates only on MultipleChoice
questions and only when there are at least 3 of them, excludes exact
meta-answer matches and questions with fewer than 2 substantive choices, and
returns error messages exactly when the longest (or shortest) substantive
choice is correct in at least 60% of the evaluated questions. -/
theorem checkLengthBias_spec (quiz : Quiz) :
    checkFairness quiz = [] ∧
    ((quiz.questions.filter (fun q => q.isMC)).length < 3 →
      checkLengthBias quiz = []) ∧
    (checkLengthBias quiz ≠ [] ↔
      3 ≤ (quiz.questions.filter (fun q => q.isMC)).length ∧
      (lengthBiasCounts (quiz.questions.filter (fun q => q.isMC))).total ≠ 0 ∧
      (60 ≤ longestPctOf (quiz.questions.filter (fun q => q.isMC)) ∨
       60 ≤ shortestPctOf (quiz.questions.filter (fun q => q.isMC)))) := by
  refine ⟨rfl, ?_, ?_⟩
  · intro h
    unfold checkLengthBias
    rw [if_pos h]
  · unfold checkLengthBias
    by_cases h3 : (quiz.questions.filter (fun q => q.isMC)).length < 3
    · rw [if_pos h3]
      simp only [ne_eq, not_true_eq_false, false_iff, not_and, not_or]
      intro h
      omega
    · rw [if_neg h3]
      simp only []
      by_cases h0 : (lengthBiasCounts (quiz.questions.filter (fun q => q.isMC))).total = 0
      · rw [if_pos h0]
        simp only [ne_eq, not_true_eq_false, false_iff, not_and, not_or]
        intro _ h
        exact absurd h0 h
      · rw [if_neg h0]
        by_cases hl : 60 ≤ longestPctOf (quiz.questions.filter (fun q => q.isMC)) <;>
          by_cases hs : 60 ≤ shortestPctOf (quiz.questions.filter (fun q => q.isMC))
        · simp [hl, hs, h0, Nat.not_lt.mp h3]
        · simp [hl, hs, h0, Nat.not_lt.mp h3]
        · simp [hl, hs, h0, Nat.not_lt.mp h3]
        · simp [hl, hs, h0, Nat.not_lt.mp h3]

/-- Witness for C5 (amended): with fewer than 3 MC questions
`check_length_bias` emits nothing, and the pipeline's fairness step emits
nothing. -/
theorem checkLengthBias_spec_witness :
    (quiz2mc.questions.filter (fun q => q.isMC)).length < 3 ∧
    checkLengthBias quiz2mc = [] ∧ checkFairness quiz2mc = [] :=
  ⟨by decide, (checkLengthBias_spec quiz2mc).2.1 (by decide),
    (checkLengthBias_spec quiz2mc).1⟩

/-! ### Helper lemmas for the structural validator -/

theorem validateMC_head (cs : List MCChoice) (pfx : String) :
    ∀ e ∈ validateMC cs pfx, ∃ r, e = pfx ++ r := by
  intro e he
  unfold validateMC at he
  split at he
  · simp only [List.mem_singleton] at he
    exact ⟨_, he⟩
  · rcases List.mem_append.mp he with h12 | h3
    · rcases List.mem_append.mp h12 with h1 | h2
      · split at h1
        · simp only [List.mem_singleton] at h1
          exact ⟨_, h1⟩
        · simp at h1
      · split at h2
        · simp only [List.mem_singleton] at h2
          exact ⟨_, h2⟩
        · simp at h2
    · split at h3
      · simp only [List.mem_singleton] at h3
        exact ⟨_, h3⟩
      · split at h3
        · simp only [List.mem_singleton] at h3
          rw [String.append_assoc, String.append_assoc] at h3
          exact ⟨_, h3⟩
        · simp at h3

theorem validateMA_head (cs : List MCChoice) (pfx : String) :
    ∀ e ∈ validateMA cs pfx, ∃ r, e = pfx ++ r := by
  intro e he
  unfold validateMA at he
  split at he
  · simp only [List.mem_singleton] at he
    exact ⟨_, he⟩
  · rcases List.mem_append.mp he with h1 | h2
    · split at h1
      · simp only [List.mem_singleton] at h1
        exact ⟨_, h1⟩
      · simp at h1
    · split at h2
      · simp only [List.mem_singleton] at h2
        exact ⟨_, h2⟩
      · simp at h2

theorem validateMatching_head (ps : List MatchingPair) (pfx : String) :
    ∀ e ∈ validateMatching ps pfx, ∃ r, e = pfx ++ r := by
  intro e he
  unfold validateMatching at he
  split at he
  · simp only [List.mem_singleton] at he
    exact ⟨_, he⟩
  · split at he
    · simp only [List.mem_singleton] at he
      exact ⟨_, he⟩
    · simp at he

theorem validateFITB_head (vs : List String) (pfx : String) :
    ∀ e ∈ validateFITB vs pfx, ∃ r, e = pfx ++ r := by
  intro e he
  unfold validateFITB at he
  split at he
  · simp only [List.mem_singleton] at he
    exact ⟨_, he⟩
  · simp at he

theorem validateOrdering_head (its : List OrderingItem) (pfx : String) :
    ∀ e ∈ validateOrdering its pfx, ∃ r, e = pfx ++ r := by
  intro e he
  unfold validateOrdering at he
  split at he
  · simp only [List.mem_singleton] at he
    exact ⟨_, he⟩
  · split at he
    · simp only [List.mem_singleton] at he
      exact ⟨_, he⟩
    · simp at he

theorem validateCategorization_head (cats : List String) (items : List CategoryMapping)
    (pfx : String) : ∀ e ∈ validateCategorization cats items pfx, ∃ r, e = pfx ++ r := by
  intro e he
  unfold validateCategorization at he
  rcases List.mem_append.mp he with h1 | h2
  · split at h1
    · simp only [List.mem_singleton] at h1
      exact ⟨_, h1⟩
    · split at h1
      · simp only [List.mem_singleton] at h1
        exact ⟨_, h1⟩
      · simp at h1
  · split at h2
    · simp only [List.mem_singleton] at h2
      exact ⟨_, h2⟩
    · simp at h2

theorem validateQuestion_head (q : Question) (i : Nat) :
    ∀ e ∈ validateQuestion q i, ∃ r, e = ("Question #" ++ toString i) ++ r := by
  intro e he
  unfold validateQuestion at he
  rcases List.mem_append.mp he with hp | ht
  · unfold validatePromptPart at hp
    split at hp
    · split at hp
      · simp only [List.mem_singleton] at hp
        exact ⟨_, hp⟩
      · simp at hp
    · simp at hp
  · unfold validateTypePart at ht
    split at ht
    · exact validateMC_head _ _ e ht
    · exact validateMA_head _ _ e ht
    · simp at ht
    · obtain ⟨er, _, hmap⟩ := List.mem_map.mp ht
      refine ⟨": " ++ er, ?_⟩
      rw [← hmap, String.append_assoc]
      rfl
    · exact validateMatching_head _ _ e ht
    · exact validateFITB_head _ _ e ht
    · exact validateOrdering_head _ _ e ht
    · exact validateCategorization_head _ _ _ e ht
    · simp at ht

/-- C7: the structural validator checks every question and aggregates all
error messages (each question's error list appears intact inside the overall
list, and every message names its question index); a quiz with zero questions
always yields FAIL; and whenever at least one structural error exists the
overall validation result is FAIL with an empty fix log, i.e. no auto-fix
pass runs (stated for an arbitrary auto-fix pass `fixAll`). -/
theorem validateStructure_spec (quiz : Quiz) (fixAll : Quiz → Quiz × List String) :
    (quiz.questions = [] →
      validateStructure quiz = [emptyQuizError] ∧
      (validateWith fixAll quiz).status = .fail) ∧
    (∀ i, (h : i < quiz.questions.length) →
      (validateQuestion (quiz.questions.get ⟨i, h⟩) (i + 1)).IsInfix
        (validateStructure quiz)) ∧
    (∀ q i e, e ∈ validateQuestion q i →
      ∃ r, e = ("Question #" ++ toString i) ++ r) ∧
    (validateStructure quiz ≠ [] →
      validateWith fixAll quiz =
        { status := .fail, quiz := quiz, fixLog := [],
          errors := validateStructure quiz, warnings := [] }) := by
  refine ⟨?_, ?_, ?_, ?_⟩
  · intro h
    have hs : validateStructure quiz = [emptyQuizError] := by
      unfold validateStructure
      rw [if_pos h]
    refine ⟨hs, ?_⟩
    unfold validateWith
    rw [hs]
    simp
  · intro i h
    have hne : quiz.questions ≠ [] := by
      intro h0
      rw [h0] at h
      simp at h
    unfold validateStructure
    rw [if_neg hne]
    unfold validateRenderMode
    rw [List.nil_append]
    apply List.infix_of_mem_flatten
    have hlen : i < quiz.questions.enum.length := by
      simpa [List.enum_length] using h
    have hget : quiz.questions.enum.get ⟨i, hlen⟩ = (i, quiz.questions.get ⟨i, h⟩) := by
      simp [List.getElem_enum]
    refine List.mem_map.mpr ⟨(i, quiz.questions.get ⟨i, h⟩), ?_, rfl⟩
    rw [← hget]
    exact List.get_mem quiz.questions.enum i hlen
  · exact fun q i e he => validateQuestion_head q i e he
  · intro hne
    unfold validateWith
    rw [if_pos hne]

/-- Witness for C7: a quiz with zero questions yields exactly the
zero-question error and FAIL status. -/
theorem validateStructure_spec_witness :
    validateStructure { title := "Empty", questions := [], rationales := [] } =
      [emptyQuizError] ∧
    (validateWith (fun q => (q, []))
      { title := "Empty", questions := [], rationales := [] }).status = .fail :=
  (validateStructure_spec { title := "Empty", questions := [], rationales := [] }
    (fun q => (q, []))).1 rfl

theorem pyOrStr_empty_right (t : String) : pyOrStr t "" = t := by
  unfold pyOrStr
  split
  · simp_all
  · rfl

/-- C2: for every render mode other than `"executable"` (including the
default `"verbatim"`, a missing mode, the empty string and unknown values),
`htmlize_prompt`, `htmlize_choice` and `htmlize_item_text` return the input
string unchanged — for every input, including control characters, unmatched
backticks and the empty string, and for every instantiation of the
executable-mode formatting bodies. -/
theorem verbatim_identity (promptBody : String → Bool → String)
    (highlightSub transformCode : String → String) (text : String)
    (excerptNumbering : Bool) (renderMode : Option String)
    (h : pyModeOf renderMode ≠ "executable") :
    htmlizePrompt promptBody highlightSub text excerptNumbering renderMode
        = text ∧
    htmlizeChoice transformCode text renderMode = text ∧
    htmlizeItemText transformCode text renderMode = text := by
  refine ⟨?_, ?_, ?_⟩
  · unfold htmlizePrompt
    rw [if_pos h]
  · unfold htmlizeChoice
    rw [if_pos h, pyOrStr_empty_right]
  · unfold htmlizeItemText
    rw [if_pos h, pyOrStr_empty_right]

/-- C2 witness: the identity holds concretely at a string with a control
character, a newline and an unmatched backtick, under the capitalised mode
string `"Verbatim"`, for nontrivial formatting bodies. -/
theorem verbatim_identity_witness :
    pyModeOf (some "Verbatim") ≠ "executable" ∧
    (htmlizePrompt (fun s _ => s ++ "!") (fun s => s ++ "?") "a `b\n\x07" true
        (some "Verbatim") = "a `b\n\x07" ∧
    htmlizeChoice (fun s => s ++ "?") "a `b\n\x07" (some "Verbatim")
        = "a `b\n\x07" ∧
    htmlizeItemText (fun s => s ++ "?") "a `b\n\x07" (some "Verbatim")
        = "a `b\n\x07") :=
  ⟨by decide,
   verbatim_identity (fun s _ => s ++ "!") (fun s => s ++ "?")
     (fun s => s ++ "?") "a `b\n\x07" true (some "Verbatim") (by decide)⟩

/-- C1: refuted.  For the quiz consisting of one MC question whose prompt is
`"a <b> c"`, the generated QTI stores the prompt verbatim (the builder calls
the formatters with the default `render_mode="verbatim"`), yet re-extracting
the student-visible strings yields `"a  c"` — the `<b>` token is removed by
the tag-stripping extraction — which differs from the source model's prompt
in both content and length; `verify_qti_round_trip` nevertheless returns
normally (no error), because its expected side re-applies the same
lossy extraction after formatting the prompt under
`getattr(question, "render_mode", "executable")`, which always yields
`"executable"` since `Question` has no such attribute.  This holds for every
instantiation of the unembedded executable-mode formatting bodies. -/
theorem roundtrip_counterexample (promptBody : String → Bool → String)
    (highlightSub transformCode : String → String) :
    verifyQtiRoundTrip ⟨promptBody, highlightSub, transformCode⟩
        cexRoundTripQuiz
        (buildAssessmentMC ⟨promptBody, highlightSub, transformCode⟩
          "a1b2c3d4" "e5f6g7h8" cexRoundTripQuiz) = .ok () ∧
    extractForItem
        (buildItemMC ⟨promptBody, highlightSub, transformCode⟩ "e5f6g7h8"
          cexMCQuestion 1) cexMCQuestion = ["a  c", "yes", "no"] ∧
    ["a  c", "yes", "no"] ≠
      cexMCQuestion.prompt ::
        (mcChoicesOf cexMCQuestion).map MCChoice.text := by
  refine ⟨rfl, rfl, by decide⟩

theorem startsWith_conflict {s : String} (p q : String)
    (hp : pyStartsWith s p = true) (hnpq : ¬ p.data <+: q.data)
    (hnqp : ¬ q.data <+: p.data) : pyStartsWith s q = false := by
  unfold pyStartsWith at hp ⊢
  by_contra hc
  rw [Bool.not_eq_false] at hc
  rcases List.prefix_or_prefix_of_prefix (List.isPrefixOf_iff_prefix.1 hp)
      (List.isPrefixOf_iff_prefix.1 hc) with h | h
  · exact hnpq h
  · exact hnqp h

theorem directiveKind_ne_blank {raw : String} {k : NumDirective}
    (h : directiveKind raw = some k) : pyStrip raw ≠ "" := by
  intro hb
  unfold directiveKind at h
  rw [hb] at h
  have e1 : pyStartsWith (pyLower "") "tolerance:" = false := by decide
  have e2 : pyStartsWith (pyLower "") "precision:" = false := by decide
  have e3 : pyStartsWith (pyLower "") "range:" = false := by decide
  simp [e1, e2, e3] at h

theorem directiveKind_eq_tol {raw : String}
    (h : directiveKind raw = some .tol) :
    pyStartsWith (pyLower (pyStrip raw)) "tolerance:" = true := by
  unfold directiveKind at h
  by_cases c1 : pyStartsWith (pyLower (pyStrip raw)) "tolerance:" = true
  · exact c1
  · simp only [c1, if_false, Bool.not_eq_true] at h ⊢
    split_ifs at h <;> simp_all

theorem directiveKind_eq_prec {raw : String}
    (h : directiveKind raw = some .prec) :
    pyStartsWith (pyLower (pyStrip raw)) "tolerance:" = false ∧
    pyStartsWith (pyLower (pyStrip raw)) "precision:" = true := by
  unfold directiveKind at h
  by_cases c1 : pyStartsWith (pyLower (pyStrip raw)) "tolerance:" = true
  · simp [c1] at h
  · by_cases c2 : pyStartsWith (pyLower (pyStrip raw)) "precision:" = true
    · exact ⟨by simpa using c1, c2⟩
    · simp only [c1, c2, if_false] at h
      split_ifs at h <;> simp_all

theorem directiveKind_eq_rng {raw : String}
    (h : directiveKind raw = some .rng) :
    pyStartsWith (pyLower (pyStrip raw)) "tolerance:" = false ∧
    pyStartsWith (pyLower (pyStrip raw)) "precision:" = false ∧
    pyStartsWith (pyLower (pyStrip raw)) "range:" = true := by
  unfold directiveKind at h
  by_cases c1 : pyStartsWith (pyLower (pyStrip raw)) "tolerance:" = true
  · simp [c1] at h
  · by_cases c2 : pyStartsWith (pyLower (pyStrip raw)) "precision:" = true
    · simp [c1, c2] at h
    · by_cases c3 : pyStartsWith (pyLower (pyStrip raw)) "range:" = true
      · exact ⟨by simpa using c1, by simpa using c2, c3⟩
      · simp [c1, c2, c3] at h

theorem pbStep_tol_eq (s : PBState) (raw : String)
    (h : directiveKind raw = some .tol) :
    pbStep s raw =
      (if s.qtype ≠ some "NUMERICAL" then
        .error "Tolerance field is only valid for NUMERICAL questions."
      else if s.numericalMode = "range" ∨ s.numericalMode = "significant_digits"
          ∨ s.numericalMode = "decimal_places" then
        .error "Numerical question cannot mix tolerance with range or precision settings."
      else
        match parseNumericalTolerance (pyStrip (afterColon (pyStrip raw))) with
        | .ok mv =>
            .ok { s with numericalMode := mv.1,
                         numericalMarginValue := some mv.2,
                         numericalPrecisionValue := none,
                         numericalRangeMin := none, numericalRangeMax := none,
                         inPrompt := false }
        | .error e => .error e) := by
  have hT := directiveKind_eq_tol h
  have hb := directiveKind_ne_blank h
  have f01 := startsWith_conflict "tolerance:" "type:" hT
    (by decide) (by decide)
  have f02 := startsWith_conflict "tolerance:" "points:" hT
    (by decide) (by decide)
  have f03 := startsWith_conflict "tolerance:" "prompt:" hT
    (by decide) (by decide)
  have f04 := startsWith_conflict "tolerance:" "header:" hT
    (by decide) (by decide)
  have f05 := startsWith_conflict "tolerance:" "items:" hT
    (by decide) (by decide)
  have f06 := startsWith_conflict "tolerance:" "categories:" hT
    (by decide) (by decide)
  have f07 := startsWith_conflict "tolerance:" "distractors:" hT
    (by decide) (by decide)
  have f08 := startsWith_conflict "tolerance:" "choices:" hT
    (by decide) (by decide)
  have f09 := startsWith_conflict "tolerance:" "pairs:" hT
    (by decide) (by decide)
  have f10 := startsWith_conflict "tolerance:" "accept:" hT
    (by decide) (by decide)
  have f11 := startsWith_conflict "tolerance:" "answers:" hT
    (by decide) (by decide)
  have f12 := startsWith_conflict "tolerance:" "answer:" hT
    (by decide) (by decide)
  unfold pbStep
  simp only [hb, if_false, hT, f01, f02, f03, f04, f05, f06, f07, f08, f09,
    f10, f11, f12, Bool.false_eq_true, if_true, or_self, ite_false, ite_true]

theorem pbStep_prec_eq (s : PBState) (raw : String)
    (h : directiveKind raw = some .prec) :
    pbStep s raw =
      (if s.qtype ≠ some "NUMERICAL" then
        .error "Precision field is only valid for NUMERICAL questions."
      else if s.numericalMode = "percent_margin"
          ∨ s.numericalMode = "absolute_margin"
          ∨ s.numericalMode = "range" then
        .error "Numerical question cannot mix precision with tolerance or range settings."
      else
        match parseNumericalPrecision (pyStrip (afterColon (pyStrip raw))) with
        | .ok pv =>
            .ok { s with numericalMode := pv.1,
                         numericalPrecisionValue := some pv.2,
                         numericalMarginValue := none,
                         numericalRangeMin := none, numericalRangeMax := none,
                         inPrompt := false }
        | .error e => .error e) := by
  have hP := (directiveKind_eq_prec h).2
  have hTf := (directiveKind_eq_prec h).1
  have hb := directiveKind_ne_blank h
  have f01 := startsWith_conflict "precision:" "type:" hP (by decide) (by decide)
  have f02 := startsWith_conflict "precision:" "points:" hP (by decide) (by decide)
  have f03 := startsWith_conflict "precision:" "prompt:" hP (by decide) (by decide)
  have f04 := startsWith_conflict "precision:" "header:" hP (by decide) (by decide)
  have f05 := startsWith_conflict "precision:" "items:" hP (by decide) (by decide)
  have f06 := startsWith_conflict "precision:" "categories:" hP (by decide) (by decide)
  have f07 := startsWith_conflict "precision:" "distractors:" hP (by decide) (by decide)
  have f08 := startsWith_conflict "precision:" "choices:" hP (by decide) (by decide)
  have f09 := startsWith_conflict "precision:" "pairs:" hP (by decide) (by decide)
  have f10 := startsWith_conflict "precision:" "accept:" hP (by decide) (by decide)
  have f11 := startsWith_conflict "precision:" "answers:" hP (by decide) (by decide)
  have f12 := startsWith_conflict "precision:" "answer:" hP (by decide) (by decide)
  unfold pbStep
  simp only [hb, hP, hTf, f01, f02, f03, f04, f05, f06, f07, f08, f09,
    f10, f11, f12, Bool.false_eq_true, if_true, or_self, ite_false, ite_true,
    if_false]

theorem pbStep_rng_eq (s : PBState) (raw : String)
    (h : directiveKind raw = some .rng) :
    pbStep s raw =
      (if s.qtype ≠ some "NUMERICAL" then
        .error "Range field is only valid for NUMERICAL questions."
      else if s.numericalMode ≠ "exact" then
        .error "Numerical question cannot combine range with other tolerance settings."
      else
        match parseNumericalRange (pyStrip (afterColon (pyStrip raw))) with
        | .ok mm =>
            .ok { s with numericalMode := "range",
                         numericalRangeMin := some mm.1,
                         numericalRangeMax := some mm.2,
                         numericalMarginValue := none,
                         numericalPrecisionValue := none,
                         inPrompt := false }
        | .error e => .error e) := by
  have hR := (directiveKind_eq_rng h).2.2
  have hTf := (directiveKind_eq_rng h).1
  have hPf := (directiveKind_eq_rng h).2.1
  have hb := directiveKind_ne_blank h
  have f01 := startsWith_conflict "range:" "type:" hR (by decide) (by decide)
  have f02 := startsWith_conflict "range:" "points:" hR (by decide) (by decide)
  have f03 := startsWith_conflict "range:" "prompt:" hR (by decide) (by decide)
  have f04 := startsWith_conflict "range:" "header:" hR (by decide) (by decide)
  have f05 := startsWith_conflict "range:" "items:" hR (by decide) (by decide)
  have f06 := startsWith_conflict "range:" "categories:" hR (by decide) (by decide)
  have f07 := startsWith_conflict "range:" "distractors:" hR (by decide) (by decide)
  have f08 := startsWith_conflict "range:" "choices:" hR (by decide) (by decide)
  have f09 := startsWith_conflict "range:" "pairs:" hR (by decide) (by decide)
  have f10 := startsWith_conflict "range:" "accept:" hR (by decide) (by decide)
  have f11 := startsWith_conflict "range:" "answers:" hR (by decide) (by decide)
  have f12 := startsWith_conflict "range:" "answer:" hR (by decide) (by decide)
  unfold pbStep
  simp only [hb, hR, hTf, hPf, f01, f02, f03, f04, f05, f06, f07, f08, f09,
    f10, f11, f12, Bool.false_eq_true, if_true, or_self, ite_false, ite_true,
    if_false]

theorem parseNumericalTolerance_mode {raw m : String} {v : ℚ}
    (h : parseNumericalTolerance raw = .ok (m, v)) :
    m = "percent_margin" ∨ m = "absolute_margin" := by
  unfold parseNumericalTolerance at h
  split_ifs at h <;> (repeat' split at h) <;>
    first
      | exact Except.noConfusion h
      | (simp only [Except.ok.injEq, Prod.mk.injEq] at h
         first
           | exact Or.inl h.1.symm
           | exact Or.inr h.1.symm)

theorem parseNumericalPrecision_mode {raw m : String} {v : Int}
    (h : parseNumericalPrecision raw = .ok (m, v)) :
    m = "significant_digits" ∨ m = "decimal_places" := by
  unfold parseNumericalPrecision at h
  split_ifs at h <;> (repeat' split at h) <;>
    first
      | exact Except.noConfusion h
      | (simp only [Except.ok.injEq, Prod.mk.injEq] at h
         first
           | exact Or.inl h.1.symm
           | exact Or.inr h.1.symm)

theorem pbStep_directive (s : PBState) (raw : String) (k : NumDirective)
    (h : directiveKind raw = some k) :
    (∃ e, pbStep s raw = .error e) ∨
    (∃ s2, pbStep s raw = .ok s2 ∧ s2.numericalMode ∈ directiveModes k) := by
  cases k
  · rw [pbStep_tol_eq s raw h]
    by_cases hq : s.qtype = some "NUMERICAL"
    · rw [if_neg (by simp [hq])]
      by_cases hm : s.numericalMode = "range"
          ∨ s.numericalMode = "significant_digits"
          ∨ s.numericalMode = "decimal_places"
      · rw [if_pos hm]
        exact Or.inl ⟨_, rfl⟩
      · rw [if_neg hm]
        rcases hpt : parseNumericalTolerance (pyStrip (afterColon (pyStrip raw)))
          with e | ⟨m, v⟩
        · exact Or.inl ⟨e, rfl⟩
        · refine Or.inr ⟨_, rfl, ?_⟩
          rcases parseNumericalTolerance_mode hpt with hm1 | hm1 <;>
            simp [directiveModes, hm1]
    · exact Or.inl ⟨_, by rw [if_pos (by simp [hq])]⟩
  · rw [pbStep_prec_eq s raw h]
    by_cases hq : s.qtype = some "NUMERICAL"
    · rw [if_neg (by simp [hq])]
      by_cases hm : s.numericalMode = "percent_margin"
          ∨ s.numericalMode = "absolute_margin"
          ∨ s.numericalMode = "range"
      · rw [if_pos hm]
        exact Or.inl ⟨_, rfl⟩
      · rw [if_neg hm]
        rcases hpt : parseNumericalPrecision (pyStrip (afterColon (pyStrip raw)))
          with e | ⟨m, v⟩
        · exact Or.inl ⟨e, rfl⟩
        · refine Or.inr ⟨_, rfl, ?_⟩
          rcases parseNumericalPrecision_mode hpt with hm1 | hm1 <;>
            simp [directiveModes, hm1]
    · exact Or.inl ⟨_, by rw [if_pos (by simp [hq])]⟩
  · rw [pbStep_rng_eq s raw h]
    by_cases hq : s.qtype = some "NUMERICAL"
    · rw [if_neg (by simp [hq])]
      by_cases hm : s.numericalMode = "exact"
      · rw [if_neg (by simp [hm])]
        rcases hpt : parseNumericalRange (pyStrip (afterColon (pyStrip raw)))
          with e | ⟨lo, hi⟩
        · exact Or.inl ⟨e, rfl⟩
        · exact Or.inr ⟨_, rfl, by simp [directiveModes]⟩
      · rw [if_pos (by simp [hm])]
        exact Or.inl ⟨_, rfl⟩
    · exact Or.inl ⟨_, by rw [if_pos (by simp [hq])]⟩

theorem pbStep_mix (s : PBState) (raw : String) (k k' : NumDirective)
    (h : directiveKind raw = some k)
    (hm : s.numericalMode ∈ directiveModes k') (hne : k' ≠ k) :
    ∃ e, pbStep s raw = .error e := by
  cases k
  · rw [pbStep_tol_eq s raw h]
    by_cases hq : s.qtype = some "NUMERICAL"
    · have hmm : s.numericalMode = "range"
          ∨ s.numericalMode = "significant_digits"
          ∨ s.numericalMode = "decimal_places" := by
        cases k'
        · exact absurd rfl hne
        · simp only [directiveModes, List.mem_cons, List.mem_singleton,
            List.not_mem_nil, or_false] at hm
          tauto
        · simp only [directiveModes, List.mem_singleton] at hm
          tauto
      exact ⟨_, by rw [if_neg (by simp [hq]), if_pos hmm]⟩
    · exact ⟨_, by rw [if_pos (by simp [hq])]⟩
  · rw [pbStep_prec_eq s raw h]
    by_cases hq : s.qtype = some "NUMERICAL"
    · have hmm : s.numericalMode = "percent_margin"
          ∨ s.numericalMode = "absolute_margin"
          ∨ s.numericalMode = "range" := by
        cases k'
        · simp only [directiveModes, List.mem_cons, List.mem_singleton,
            List.not_mem_nil, or_false] at hm
          tauto
        · exact absurd rfl hne
        · simp only [directiveModes, List.mem_singleton] at hm
          tauto
      exact ⟨_, by rw [if_neg (by simp [hq]), if_pos hmm]⟩
    · exact ⟨_, by rw [if_pos (by simp [hq])]⟩
  · rw [pbStep_rng_eq s raw h]
    by_cases hq : s.qtype = some "NUMERICAL"
    · have hmm : s.numericalMode ≠ "exact" := by
        cases k'
        · simp only [directiveModes, List.mem_cons, List.mem_singleton,
            List.not_mem_nil, or_false] at hm
          rcases hm with hm | hm <;> simp [hm]
        · simp only [directiveModes, List.mem_cons, List.mem_singleton,
            List.not_mem_nil, or_false] at hm
          rcases hm with hm | hm <;> simp [hm]
        · exact absurd rfl hne
      exact ⟨_, by rw [if_neg (by simp [hq]), if_pos hmm]⟩
    · exact ⟨_, by rw [if_pos (by simp [hq])]⟩

theorem pbStep_preserves_mode {s : PBState} {raw : String} {s2 : PBState}
    (h : directiveKind raw = none) (hs : pbStep s raw = .ok s2) :
    s2.numericalMode = s.numericalMode := by
  have c1 : pyStartsWith (pyLower (pyStrip raw)) "tolerance:" = false := by
    by_contra hc
    rw [Bool.not_eq_false] at hc
    have hd : directiveKind raw = some .tol := by
      unfold directiveKind
      rw [if_pos hc]
    rw [h] at hd
    exact Option.noConfusion hd
  have c2 : pyStartsWith (pyLower (pyStrip raw)) "precision:" = false := by
    by_contra hc
    rw [Bool.not_eq_false] at hc
    have hd : directiveKind raw = some .prec := by
      unfold directiveKind
      rw [if_neg (by simp [c1]), if_pos hc]
    rw [h] at hd
    exact Option.noConfusion hd
  have c3 : pyStartsWith (pyLower (pyStrip raw)) "range:" = false := by
    by_contra hc
    rw [Bool.not_eq_false] at hc
    have hd : directiveKind raw = some .rng := by
      unfold directiveKind
      rw [if_neg (by simp [c1]), if_neg (by simp [c2]), if_pos hc]
    rw [h] at hd
    exact Option.noConfusion hd
  unfold pbStep at hs
  rw [c1, c2, c3] at hs
  set LW := pyLower (pyStrip raw) with hLW
  set L := pyStrip raw with hL
  by_cases b0 : L = ""
  · rw [if_pos b0] at hs
    simp only [Except.ok.injEq] at hs
    subst hs
    split <;> rfl
  · rw [if_neg b0] at hs
    by_cases b1 : pyStartsWith LW "type:" = true
    · rw [if_pos b1] at hs
      simp only [Except.ok.injEq] at hs
      subst hs
      rfl
    · rw [if_neg b1] at hs
      by_cases b2 : pyStartsWith LW "points:" = true
      · rw [if_pos b2] at hs
        simp only [Except.ok.injEq] at hs
        subst hs
        rfl
      · rw [if_neg b2] at hs
        by_cases b3 : pyStartsWith LW "prompt:" = true
        · rw [if_pos b3] at hs
          simp only [Except.ok.injEq] at hs
          subst hs
          rfl
        · rw [if_neg b3] at hs
          by_cases b4 : pyStartsWith LW "header:" = true
          · rw [if_pos b4] at hs
            simp only [Except.ok.injEq] at hs
            subst hs
            rfl
          · rw [if_neg b4] at hs
            by_cases b5 : pyStartsWith LW "items:" = true
            · rw [if_pos b5] at hs
              by_cases i1 : s.qtype = some "ORDERING"
              · rw [if_pos i1] at hs
                simp only [Except.ok.injEq] at hs
                subst hs
                rfl
              · rw [if_neg i1] at hs
                by_cases i2 : s.qtype = some "CATEGORIZATION"
                · rw [if_pos i2] at hs
                  simp only [Except.ok.injEq] at hs
                  subst hs
                  rfl
                · rw [if_neg i2] at hs
                  simp only [Except.ok.injEq] at hs
                  subst hs
                  rfl
            · rw [if_neg b5] at hs
              by_cases b6 : pyStartsWith LW "categories:" = true
              · rw [if_pos b6] at hs
                simp only [Except.ok.injEq] at hs
                subst hs
                rfl
              · rw [if_neg b6] at hs
                by_cases b7 : pyStartsWith LW "distractors:" = true
                · rw [if_pos b7] at hs
                  simp only [Except.ok.injEq] at hs
                  subst hs
                  rfl
                · rw [if_neg b7] at hs
                  by_cases b8 : pyStartsWith LW "choices:" = true
                  · rw [if_pos b8] at hs
                    simp only [Except.ok.injEq] at hs
                    subst hs
                    rfl
                  · rw [if_neg b8] at hs
                    by_cases b9 : pyStartsWith LW "pairs:" = true
                    · rw [if_pos b9] at hs
                      simp only [Except.ok.injEq] at hs
                      subst hs
                      rfl
                    · rw [if_neg b9] at hs
                      by_cases b10 : pyStartsWith LW "accept:" = true ∨ pyStartsWith LW "answers:" = true
                      · rw [if_pos b10] at hs
                        simp only [Except.ok.injEq] at hs
                        subst hs
                        rfl
                      · rw [if_neg b10] at hs
                        by_cases b11 : pyStartsWith LW "answer:" = true
                        · rw [if_pos b11] at hs
                          by_cases a1 : s.qtype = some "TF"
                          · rw [if_pos a1] at hs
                            by_cases a2 : pyLower (pyStrip (afterColon L)) = "true" ∨
                                pyLower (pyStrip (afterColon L)) = "t" ∨
                                pyLower (pyStrip (afterColon L)) = "1" ∨
                                pyLower (pyStrip (afterColon L)) = "yes"
                            · rw [if_pos a2] at hs
                              simp only [Except.ok.injEq] at hs
                              subst hs
                              rfl
                            · rw [if_neg a2] at hs
                              by_cases a3 : pyLower (pyStrip (afterColon L)) = "false" ∨
                                  pyLower (pyStrip (afterColon L)) = "f" ∨
                                  pyLower (pyStrip (afterColon L)) = "0" ∨
                                  pyLower (pyStrip (afterColon L)) = "no"
                              · rw [if_pos a3] at hs
                                simp only [Except.ok.injEq] at hs
                                subst hs
                                rfl
                              · rw [if_neg a3] at hs
                                exact Except.noConfusion hs
                          · rw [if_neg a1] at hs
                            by_cases a4 : s.qtype = some "NUMERICAL"
                            · rw [if_pos a4] at hs
                              rcases hpd : parseDecimalValue (pyStrip (afterColon L)) with e | v
                              · rw [hpd] at hs
                                exact Except.noConfusion hs
                              · rw [hpd] at hs
                                simp only [Except.ok.injEq] at hs
                                subst hs
                                rfl
                            · rw [if_neg a4] at hs
                              exact Except.noConfusion hs
                        · rw [if_neg b11] at hs
                          by_cases b12 : (false = true)
                          · exact absurd b12 (by simp)
                          · rw [if_neg b12] at hs
                            by_cases b13 : (false = true)
                            · exact absurd b13 (by simp)
                            · rw [if_neg b13] at hs
                              by_cases b14 : (false = true)
                              · exact absurd b14 (by simp)
                              · rw [if_neg b14] at hs
                                by_cases b15 : s.inPrompt = true
                                · rw [if_pos b15] at hs
                                  simp only [Except.ok.injEq] at hs
                                  subst hs
                                  rfl
                                · rw [if_neg b15] at hs
                                  by_cases b16 : s.inChoices = true
                                  · rw [if_pos b16] at hs
                                    rcases hm1 : parseChoiceLine L.data with _ | ct
                                    · rw [hm1] at hs
                                      exact Except.noConfusion hs
                                    · rw [hm1] at hs
                                      simp only [Except.ok.injEq] at hs
                                      subst hs
                                      rfl
                                  · rw [if_neg b16] at hs
                                    by_cases b17 : s.inPairs = true
                                    · rw [if_pos b17] at hs
                                      rcases hm2 : parseArrowLine L.data with _ | ta
                                      · rw [hm2] at hs
                                        exact Except.noConfusion hs
                                      · rw [hm2] at hs
                                        simp only [Except.ok.injEq] at hs
                                        subst hs
                                        rfl
                                    · rw [if_neg b17] at hs
                                      by_cases b18 : s.inAccept = true
                                      · rw [if_pos b18] at hs
                                        rcases hm3 : parseDashLine L.data with _ | v
                                        · rw [hm3] at hs
                                          exact Except.noConfusion hs
                                        · rw [hm3] at hs
                                          simp only [Except.ok.injEq] at hs
                                          subst hs
                                          rfl
                                      · rw [if_neg b18] at hs
                                        by_cases b19 : s.inOrderingItems = true
                                        · rw [if_pos b19] at hs
                                          rcases hm4 : parseNumberedLine L.data with _ | v
                                          · rw [hm4] at hs
                                            exact Except.noConfusion hs
                                          · rw [hm4] at hs
                                            simp only [Except.ok.injEq] at hs
                                            subst hs
                                            rfl
                                        · rw [if_neg b19] at hs
                                          by_cases b20 : s.inCategories = true
                                          · rw [if_pos b20] at hs
                                            rcases hm5 : parseDashLine L.data with _ | v
                                            · rw [hm5] at hs
                                              exact Except.noConfusion hs
                                            · rw [hm5] at hs
                                              simp only [Except.ok.injEq] at hs
                                              subst hs
                                              rfl
                                          · rw [if_neg b20] at hs
                                            by_cases b21 : s.inCategoryItems = true
                                            · rw [if_pos b21] at hs
                                              rcases hm6 : parseArrowLine L.data with _ | ic
                                              · rw [hm6] at hs
                                                exact Except.noConfusion hs
                                              · rw [hm6] at hs
                                                simp only [Except.ok.injEq] at hs
                                                subst hs
                                                rfl
                                            · rw [if_neg b21] at hs
                                              by_cases b22 : s.inDistractors = true
                                              · rw [if_pos b22] at hs
                                                rcases hm7 : parseDashLine L.data with _ | v
                                                · rw [hm7] at hs
                                                  exact Except.noConfusion hs
                                                · rw [hm7] at hs
                                                  simp only [Except.ok.injEq] at hs
                                                  subst hs
                                                  rfl
                                              · rw [if_neg b22] at hs
                                                simp only [Except.ok.injEq] at hs
                                                subst hs
                                                rfl

theorem pbLoop_cons (s : PBState) (a : String) (rest : List String) :
    pbLoop s (a :: rest) =
      match pbStep s a with
      | .ok s2 => pbLoop s2 rest
      | .error e => .error e := rfl

theorem pbLoop_append (s : PBState) (as bs : List String) :
    pbLoop s (as ++ bs) =
      match pbLoop s as with
      | .ok s2 => pbLoop s2 bs
      | .error e => .error e := by
  induction as generalizing s with
  | nil => rfl
  | cons a as ih =>
      rw [List.cons_append, pbLoop_cons, pbLoop_cons]
      rcases pbStep s a with e | s2
      · rfl
      · exact ih s2

theorem pbLoop_inv_error (k k2 : NumDirective) (hne : k ≠ k2) (d2 : String)
    (h2 : directiveKind d2 = some k2) :
    ∀ (ys : List String) (zs : List String) (s : PBState),
      s.numericalMode ∈ directiveModes k →
      ∃ e, pbLoop s (ys ++ d2 :: zs) = .error e := by
  intro ys
  induction ys with
  | nil =>
      intro zs s hm
      obtain ⟨e, he⟩ := pbStep_mix s d2 k2 k h2 hm hne
      refine ⟨e, ?_⟩
      rw [List.nil_append, pbLoop_cons, he]
  | cons y ys ih =>
      intro zs s hm
      rcases hst : pbStep s y with e | s2
      · refine ⟨e, ?_⟩
        rw [List.cons_append, pbLoop_cons, hst]
      · rcases hky : directiveKind y with _ | ky
        · have hpm := pbStep_preserves_mode hky hst
          obtain ⟨e, he⟩ := ih zs s2 (by rw [hpm]; exact hm)
          refine ⟨e, ?_⟩
          rw [List.cons_append, pbLoop_cons, hst]
          exact he
        · by_cases hkk : ky = k
          · subst hkk
            rcases pbStep_directive s y ky hky with ⟨e, he⟩ | ⟨s2b, hok, hmode⟩
            · rw [hst] at he
              exact Except.noConfusion he
            · rw [hst] at hok
              have hs2 : s2 = s2b := Except.ok.inj hok
              obtain ⟨e, he⟩ := ih zs s2 (by rw [hs2]; exact hmode)
              refine ⟨e, ?_⟩
              rw [List.cons_append, pbLoop_cons, hst]
              exact he
          · obtain ⟨e, he⟩ := pbStep_mix s y ky k hky hm
              (fun hh => hkk hh.symm)
            rw [hst] at he
            exact Except.noConfusion he

theorem parseBlock_directive_mix (g : Nat → String)
    (xs ys zs : List String) (d1 d2 : String) (k1 k2 : NumDirective)
    (h1 : directiveKind d1 = some k1) (h2 : directiveKind d2 = some k2)
    (hne : k1 ≠ k2) :
    ∃ e, parseBlock g (xs ++ d1 :: (ys ++ d2 :: zs)) = .error e := by
  unfold parseBlock
  rw [pbLoop_append {} xs (d1 :: (ys ++ d2 :: zs))]
  rcases hx : pbLoop {} xs with e | s1
  · exact ⟨e, rfl⟩
  · show ∃ e, (match pbLoop s1 (d1 :: (ys ++ d2 :: zs)) with
      | .ok s => pbFinalize g s
      | .error e => .error e) = .error e
    rw [pbLoop_cons]
    rcases hd1 : pbStep s1 d1 with e | s2
    · exact ⟨e, rfl⟩
    · show ∃ e, (match pbLoop s2 (ys ++ d2 :: zs) with
        | .ok s => pbFinalize g s
        | .error e => .error e) = .error e
      rcases pbStep_directive s1 d1 k1 h1 with ⟨e, he⟩ | ⟨s2b, hok, hmode⟩
      · rw [hd1] at he
        exact Except.noConfusion he
      · rw [hd1] at hok
        have hs2 : s2 = s2b := Except.ok.inj hok
        obtain ⟨e, he⟩ := pbLoop_inv_error k1 k2 hne d2 h2 ys zs s2
          (by rw [hs2]; exact hmode)
        refine ⟨e, ?_⟩
        rw [he]

theorem pbFinalize_numerical_ok (g : Nat → String) (s : PBState)
    (hq : s.qtype = some "NUMERICAL") (bds : ℚ × ℚ × Bool)
    (hres : resolveNumericalBounds s.numericalAnswerValue s.numericalMode
      s.numericalMarginValue s.numericalRangeMin s.numericalRangeMax
      s.numericalPrecisionValue = .ok bds)
    (hval : NumericalAnswer.validate
      { answer := s.numericalAnswerValue, toleranceMode := s.numericalMode,
        marginValue := s.numericalMarginValue, rangeMin := s.numericalRangeMin,
        rangeMax := s.numericalRangeMax,
        precisionValue := s.numericalPrecisionValue,
        lowerBound := some bds.1, upperBound := some bds.2.1,
        strictLower := bds.2.2 } = []) :
    pbFinalize g s = .ok (some
      { qtype := "NUMERICAL",
        prompt := sanitizeText (pyStrip (joinNL s.promptLines)),
        points := s.points.getD 10, pointsSet := s.pointsExplicit,
        payload := .numerical
          { answer := s.numericalAnswerValue, toleranceMode := s.numericalMode,
            marginValue := s.numericalMarginValue,
            rangeMin := s.numericalRangeMin, rangeMax := s.numericalRangeMax,
            precisionValue := s.numericalPrecisionValue,
            lowerBound := some bds.1, upperBound := some bds.2.1,
            strictLower := bds.2.2 } }) := by
  simp only [pbFinalize, hq, hres, hval,
    show ¬("NUMERICAL" = "") from by decide,
    show ¬("NUMERICAL" = "ENDSTIMULUS" ∨ "NUMERICAL" = "END_STIMULUS"
      ∨ "NUMERICAL" = "STIMULUS_END" ∨ "NUMERICAL" = "UNLINK"
      ∨ "NUMERICAL" = "DETACH") from by decide,
    show ¬("NUMERICAL" = "MC") from by decide,
    show ¬("NUMERICAL" = "TF") from by decide,
    show ¬("NUMERICAL" = "MA") from by decide,
    ite_false, ite_true, if_neg, if_pos]

theorem parseDecimalValue_5 : parseDecimalValue ⟨['5']⟩ = .ok 5 := by
  norm_num [parseDecimalValue, parseDecLit, scanSign, digitsVal, pyStrip,
    pyStripL, isPySpace, replaceAll, replaceAllFuel, List.takeWhile,
    List.dropWhile, List.drop, List.reverse, List.reverseAux, List.isPrefixOf,
    List.foldl, String.ext_iff,
    show ('5'.toNat - 48 : ℕ) = 5 from by decide,
    show '5'.isDigit = true from by decide,
    show ¬((',' : Char) = '5') from by decide]
  decide

theorem parseDecimalValue_1 : parseDecimalValue ⟨['1']⟩ = .ok 1 := by
  norm_num [parseDecimalValue, parseDecLit, scanSign, digitsVal, pyStrip,
    pyStripL, isPySpace, replaceAll, replaceAllFuel, List.takeWhile,
    List.dropWhile, List.drop, List.reverse, List.reverseAux, List.isPrefixOf,
    List.foldl, String.ext_iff,
    show ('1'.toNat - 48 : ℕ) = 1 from by decide,
    show '1'.isDigit = true from by decide,
    show ¬((',' : Char) = '1') from by decide]
  decide

theorem parseDecimalValue_10 : parseDecimalValue ⟨['1', '0']⟩ = .ok 10 := by
  norm_num [parseDecimalValue, parseDecLit, digitsVal, pyStrip,
    pyStripL, isPySpace, replaceAll, replaceAllFuel, List.takeWhile,
    List.dropWhile, List.drop, List.reverse, List.reverseAux, List.isPrefixOf,
    List.foldl, String.ext_iff,
    show scanSign ['1', '0'] = ([], ['1', '0']) from by decide,
    show ('1'.toNat - 48 : ℕ) = 1 from by decide,
    show ('0'.toNat - 48 : ℕ) = 0 from by decide,
    show '1'.isDigit = true from by decide,
    show '0'.isDigit = true from by decide,
    show ¬((',' : Char) = '1') from by decide,
    show ¬((',' : Char) = '0') from by decide,
    show ¬(['1', '0'] = ([] : List Char)) from by decide]

theorem parseTol_1pct : parseNumericalTolerance "1%" = .ok ("percent_margin", 1) := by
  have h2 : percentSearch (replaceAll "percent".data "%".data
      (replaceAll "percentage".data "%".data (pyLower (pyStrip "1%")).data)) =
      some ['1'] := by decide
  rw [parseNumericalTolerance, if_neg (show ¬(pyStrip "1%" = "") from by decide),
    h2]
  show (match parseDecimalValue (⟨['1']⟩ : String) with
    | Except.ok v => Except.ok ("percent_margin", |v|)
    | Except.error e => Except.error e) = Except.ok ("percent_margin", 1)
  rw [parseDecimalValue_1]
  norm_num

theorem parsePrec_2dp :
    parseNumericalPrecision "2 decimal places" = .ok ("decimal_places", 2) := by
  rfl

theorem parseRange_5to10 : parseNumericalRange "5 to 10" = .ok (5, 10) := by
  rw [parseNumericalRange, if_neg (show ¬(pyStrip "5 to 10" = "") from by decide)]
  show (match parseDecimalValue (⟨['5']⟩ : String),
      parseDecimalValue (⟨['1', '0']⟩ : String) with
    | .ok lo, .ok hi =>
        if lo ≥ hi then .error "Range minimum must be less than maximum."
        else .ok (lo, hi)
    | .error e, _ => .error e
    | _, .error e => .error e) = Except.ok ((5 : ℚ), (10 : ℚ))
  rw [parseDecimalValue_5, parseDecimalValue_10]
  norm_num

theorem parseBlock_numTolBlock (g : Nat → String) :
    parseBlock g numTolBlock = .ok (some
      { qtype := "NUMERICAL", prompt := "Compute.",
        payload := .numerical
          { answer := some 5, toleranceMode := "percent_margin",
            marginValue := some 1, lowerBound := some (99/20),
            upperBound := some (101/20) } }) := by
  have e3 : pbStep
      { qtype := some "NUMERICAL", promptLines := ["Compute."],
        inPrompt := true } "Answer: 5" =
      .ok
        { qtype := some "NUMERICAL", promptLines := ["Compute."],
          inPrompt := true, numericalAnswerValue := some 5 } := by
    show (match parseDecimalValue ⟨['5']⟩ with
      | .ok v =>
          Except.ok
            ({ qtype := some "NUMERICAL", promptLines := ["Compute."],
               inPrompt := true, numericalAnswerValue := some v } : PBState)
      | .error e => Except.error e) = _
    rw [parseDecimalValue_5]
  have e4 : pbStep
      { qtype := some "NUMERICAL", promptLines := ["Compute."],
        inPrompt := true, numericalAnswerValue := some 5 } "Tolerance: 1%" =
      .ok
        { qtype := some "NUMERICAL", promptLines := ["Compute."],
          inPrompt := false, numericalAnswerValue := some 5,
          numericalMode := "percent_margin",
          numericalMarginValue := some 1 } := by
    show (match parseNumericalTolerance ⟨['1', '%']⟩ with
      | .ok mv =>
          Except.ok
            ({ qtype := some "NUMERICAL", promptLines := ["Compute."],
               inPrompt := false, numericalAnswerValue := some 5,
               numericalMode := mv.1, numericalMarginValue := some mv.2 } : PBState)
      | .error e => Except.error e) = _
    rw [show (⟨['1', '%']⟩ : String) = "1%" from rfl, parseTol_1pct]
  have hl : pbLoop {} numTolBlock =
      .ok
        { qtype := some "NUMERICAL", promptLines := ["Compute."],
          inPrompt := false, numericalAnswerValue := some 5,
          numericalMode := "percent_margin",
          numericalMarginValue := some 1 } := by
    show pbLoop {} ("Type: NUMERICAL" :: "Prompt: Compute." :: "Answer: 5" ::
      "Tolerance: 1%" :: []) = _
    rw [pbLoop_cons, show pbStep {} "Type: NUMERICAL" =
      .ok { qtype := some "NUMERICAL" } from rfl]
    show pbLoop { qtype := some "NUMERICAL" }
      ("Prompt: Compute." :: "Answer: 5" :: "Tolerance: 1%" :: []) = _
    rw [pbLoop_cons, show pbStep { qtype := some "NUMERICAL" } "Prompt: Compute." =
      .ok
        { qtype := some "NUMERICAL", promptLines := ["Compute."],
          inPrompt := true } from rfl]
    show pbLoop
      { qtype := some "NUMERICAL", promptLines := ["Compute."],
        inPrompt := true } ("Answer: 5" :: "Tolerance: 1%" :: []) = _
    rw [pbLoop_cons, e3]
    show pbLoop
      { qtype := some "NUMERICAL", promptLines := ["Compute."],
        inPrompt := true, numericalAnswerValue := some 5 }
      ("Tolerance: 1%" :: []) = _
    rw [pbLoop_cons, e4]
    rfl
  have hres : resolveNumericalBounds (some 5) "percent_margin" (some 1)
      none none none = .ok (99/20, 101/20, false) := by
    norm_num [resolveNumericalBounds, resolvePercentMargin,
      show ¬("percent_margin" = "exact") from by decide]
  have hval : NumericalAnswer.validate
      { answer := some 5, toleranceMode := "percent_margin",
        marginValue := some 1, lowerBound := some (99/20),
        upperBound := some (101/20) } = [] := by
    norm_num [NumericalAnswer.validate,
      show ¬("percent_margin" = "range") from by decide,
      show ("percent_margin" = "percent_margin") from rfl,
      show ¬(some (5 : ℚ) = none) from by simp]
  rw [parseBlock, hl]
  show pbFinalize g
    { qtype := some "NUMERICAL", promptLines := ["Compute."],
      inPrompt := false, numericalAnswerValue := some 5,
      numericalMode := "percent_margin", numericalMarginValue := some 1 } = _
  exact pbFinalize_numerical_ok g _ rfl (99/20, 101/20, false) hres hval

theorem parseBlock_numPrecBlock (g : Nat → String) :
    parseBlock g numPrecBlock = .ok (some
      { qtype := "NUMERICAL", prompt := "Compute.",
        payload := .numerical
          { answer := some 5, toleranceMode := "decimal_places",
            precisionValue := some 2, lowerBound := some (999/200),
            upperBound := some (1001/200), strictLower := true } }) := by
  have e3 : pbStep
      { qtype := some "NUMERICAL", promptLines := ["Compute."],
        inPrompt := true } "Answer: 5" =
      .ok
        { qtype := some "NUMERICAL", promptLines := ["Compute."],
          inPrompt := true, numericalAnswerValue := some 5 } := by
    show (match parseDecimalValue ⟨['5']⟩ with
      | .ok v =>
          Except.ok
            ({ qtype := some "NUMERICAL", promptLines := ["Compute."],
               inPrompt := true, numericalAnswerValue := some v } : PBState)
      | .error e => Except.error e) = _
    rw [parseDecimalValue_5]
  have e4 : pbStep
      { qtype := some "NUMERICAL", promptLines := ["Compute."],
        inPrompt := true, numericalAnswerValue := some 5 }
      "Precision: 2 decimal places" =
      .ok
        { qtype := some "NUMERICAL", promptLines := ["Compute."],
          inPrompt := false, numericalAnswerValue := some 5,
          numericalMode := "decimal_places",
          numericalPrecisionValue := some 2 } := by
    show (match parseNumericalPrecision
        ⟨['2', ' ', 'd', 'e', 'c', 'i', 'm', 'a', 'l', ' ', 'p', 'l', 'a',
          'c', 'e', 's']⟩ with
      | .ok pv =>
          Except.ok
            ({ qtype := some "NUMERICAL", promptLines := ["Compute."],
               inPrompt := false, numericalAnswerValue := some 5,
               numericalMode := pv.1,
               numericalPrecisionValue := some pv.2 } : PBState)
      | .error e => Except.error e) = _
    rw [show (⟨['2', ' ', 'd', 'e', 'c', 'i', 'm', 'a', 'l', ' ', 'p', 'l',
      'a', 'c', 'e', 's']⟩ : String) = "2 decimal places" from rfl,
      parsePrec_2dp]
  have hl : pbLoop {} numPrecBlock =
      .ok
        { qtype := some "NUMERICAL", promptLines := ["Compute."],
          inPrompt := false, numericalAnswerValue := some 5,
          numericalMode := "decimal_places",
          numericalPrecisionValue := some 2 } := by
    show pbLoop {} ("Type: NUMERICAL" :: "Prompt: Compute." :: "Answer: 5" ::
      "Precision: 2 decimal places" :: []) = _
    rw [pbLoop_cons, show pbStep {} "Type: NUMERICAL" =
      .ok { qtype := some "NUMERICAL" } from rfl]
    show pbLoop { qtype := some "NUMERICAL" }
      ("Prompt: Compute." :: "Answer: 5" :: "Precision: 2 decimal places" :: []) = _
    rw [pbLoop_cons, show pbStep { qtype := some "NUMERICAL" } "Prompt: Compute." =
      .ok
        { qtype := some "NUMERICAL", promptLines := ["Compute."],
          inPrompt := true } from rfl]
    show pbLoop
      { qtype := some "NUMERICAL", promptLines := ["Compute."],
        inPrompt := true } ("Answer: 5" :: "Precision: 2 decimal places" :: []) = _
    rw [pbLoop_cons, e3]
    show pbLoop
      { qtype := some "NUMERICAL", promptLines := ["Compute."],
        inPrompt := true, numericalAnswerValue := some 5 }
      ("Precision: 2 decimal places" :: []) = _
    rw [pbLoop_cons, e4]
    rfl
  have hres : resolveNumericalBounds (some 5) "decimal_places" none
      none none (some 2) = .ok (999/200, 1001/200, true) := by
    norm_num [resolveNumericalBounds, resolveDecimalPlaces,
      computeDecimalPlaceBounds,
      show ¬("decimal_places" = "exact") from by decide,
      show ¬("decimal_places" = "percent_margin") from by decide,
      show ¬("decimal_places" = "absolute_margin") from by decide,
      show ¬("decimal_places" = "range") from by decide,
      show ¬("decimal_places" = "significant_digits") from by decide]
  have hval : NumericalAnswer.validate
      { answer := some 5, toleranceMode := "decimal_places",
        precisionValue := some 2, lowerBound := some (999/200),
        upperBound := some (1001/200), strictLower := true } = [] := by
    norm_num [NumericalAnswer.validate,
      show ¬("decimal_places" = "range") from by decide,
      show ¬("decimal_places" = "percent_margin") from by decide,
      show ¬("decimal_places" = "absolute_margin") from by decide,
      show ¬("decimal_places" = "significant_digits") from by decide,
      show ("decimal_places" = "decimal_places") from rfl,
      show ¬(some (5 : ℚ) = none) from by simp]
  rw [parseBlock, hl]
  show pbFinalize g
    { qtype := some "NUMERICAL", promptLines := ["Compute."],
      inPrompt := false, numericalAnswerValue := some 5,
      numericalMode := "decimal_places", numericalPrecisionValue := some 2 } = _
  exact pbFinalize_numerical_ok g _ rfl (999/200, 1001/200, true) hres hval

theorem parseBlock_numRangeBlock (g : Nat → String) :
    parseBlock g numRangeBlock = .ok (some
      { qtype := "NUMERICAL", prompt := "Compute.",
        payload := .numerical
          { toleranceMode := "range", rangeMin := some 5, rangeMax := some 10,
            lowerBound := some 5, upperBound := some 10 } }) := by
  have e3 : pbStep
      { qtype := some "NUMERICAL", promptLines := ["Compute."],
        inPrompt := true } "Range: 5 to 10" =
      .ok
        { qtype := some "NUMERICAL", promptLines := ["Compute."],
          inPrompt := false, numericalMode := "range",
          numericalRangeMin := some 5, numericalRangeMax := some 10 } := by
    show (match parseNumericalRange
        ⟨['5', ' ', 't', 'o', ' ', '1', '0']⟩ with
      | .ok mm =>
          Except.ok
            ({ qtype := some "NUMERICAL", promptLines := ["Compute."],
               inPrompt := false, numericalMode := "range",
               numericalRangeMin := some mm.1,
               numericalRangeMax := some mm.2 } : PBState)
      | .error e => Except.error e) = _
    rw [show (⟨['5', ' ', 't', 'o', ' ', '1', '0']⟩ : String) = "5 to 10"
      from rfl, parseRange_5to10]
  have hl : pbLoop {} numRangeBlock =
      .ok
        { qtype := some "NUMERICAL", promptLines := ["Compute."],
          inPrompt := false, numericalMode := "range",
          numericalRangeMin := some 5, numericalRangeMax := some 10 } := by
    show pbLoop {} ("Type: NUMERICAL" :: "Prompt: Compute." ::
      "Range: 5 to 10" :: []) = _
    rw [pbLoop_cons, show pbStep {} "Type: NUMERICAL" =
      .ok { qtype := some "NUMERICAL" } from rfl]
    show pbLoop { qtype := some "NUMERICAL" }
      ("Prompt: Compute." :: "Range: 5 to 10" :: []) = _
    rw [pbLoop_cons, show pbStep { qtype := some "NUMERICAL" } "Prompt: Compute." =
      .ok
        { qtype := some "NUMERICAL", promptLines := ["Compute."],
          inPrompt := true } from rfl]
    show pbLoop
      { qtype := some "NUMERICAL", promptLines := ["Compute."],
        inPrompt := true } ("Range: 5 to 10" :: []) = _
    rw [pbLoop_cons, e3]
    rfl
  have hres : resolveNumericalBounds none "range" none
      (some 5) (some 10) none = .ok (5, 10, false) := by
    norm_num [resolveNumericalBounds, resolveRange,
      show ¬("range" = "exact") from by decide,
      show ¬("range" = "percent_margin") from by decide,
      show ¬("range" = "absolute_margin") from by decide]
  have hval : NumericalAnswer.validate
      { toleranceMode := "range", rangeMin := some 5, rangeMax := some 10,
        lowerBound := some 5, upperBound := some 10 } = [] := by
    norm_num [NumericalAnswer.validate,
      show ("range" = "range") from rfl,
      show ¬("range" = "percent_margin") from by decide,
      show ¬("range" = "absolute_margin") from by decide,
      show ¬("range" = "significant_digits") from by decide,
      show ¬("range" = "decimal_places") from by decide]
  rw [parseBlock, hl]
  show pbFinalize g
    { qtype := some "NUMERICAL", promptLines := ["Compute."],
      inPrompt := false, numericalMode := "range",
      numericalRangeMin := some 5, numericalRangeMax := some 10 } = _
  exact pbFinalize_numerical_ok g _ rfl (5, 10, false) hres hval

/-- C6: for every NUMERICAL block, the numeric directives `Tolerance:`,
`Precision:` and `Range:` are mutually exclusive: whenever a block's line
list contains two directives of distinct kinds — in any order, at any
positions, with any payloads and any surrounding lines — `_parse_block`
raises a `ValueError` instead of merging them or letting the later one win;
and a block with a single such directive parses successfully (shown for a
`Tolerance:`, a `Precision:` and a `Range:` block, with the parsed question
carrying exactly that directive's tolerance settings). -/
theorem numericFields_mutually_exclusive (g : Nat → String)
    (xs ys zs : List String) (d1 d2 : String) (k1 k2 : NumDirective)
    (h1 : directiveKind d1 = some k1) (h2 : directiveKind d2 = some k2)
    (hne : k1 ≠ k2) :
    (∃ e, parseBlock g (xs ++ d1 :: (ys ++ d2 :: zs)) = .error e) ∧
    parseBlock g numTolBlock = .ok (some
      { qtype := "NUMERICAL", prompt := "Compute.",
        payload := .numerical
          { answer := some 5, toleranceMode := "percent_margin",
            marginValue := some 1, lowerBound := some (99/20),
            upperBound := some (101/20) } }) ∧
    parseBlock g numPrecBlock = .ok (some
      { qtype := "NUMERICAL", prompt := "Compute.",
        payload := .numerical
          { answer := some 5, toleranceMode := "decimal_places",
            precisionValue := some 2, lowerBound := some (999/200),
            upperBound := some (1001/200), strictLower := true } }) ∧
    parseBlock g numRangeBlock = .ok (some
      { qtype := "NUMERICAL", prompt := "Compute.",
        payload := .numerical
          { toleranceMode := "range", rangeMin := some 5,
            rangeMax := some 10, lowerBound := some 5,
            upperBound := some 10 } }) :=
  ⟨parseBlock_directive_mix g xs ys zs d1 d2 k1 k2 h1 h2 hne,
   parseBlock_numTolBlock g, parseBlock_numPrecBlock g,
   parseBlock_numRangeBlock g⟩

/-- Witness for C6: a block containing both `Tolerance: 1%` and
`Range: 5 to 10` errors, while the three single-directive blocks parse. -/
theorem numericFields_mutually_exclusive_witness :
    directiveKind "Tolerance: 1%" = some NumDirective.tol ∧
    directiveKind "Range: 5 to 10" = some NumDirective.rng ∧
    NumDirective.tol ≠ NumDirective.rng ∧
    ((∃ e, parseBlock (fun _ => "u")
        (["Type: NUMERICAL", "Answer: 5"] ++ "Tolerance: 1%" ::
          ([] ++ "Range: 5 to 10" :: [])) = .error e) ∧
      parseBlock (fun _ => "u") numTolBlock = .ok (some
        { qtype := "NUMERICAL", prompt := "Compute.",
          payload := .numerical
            { answer := some 5, toleranceMode := "percent_margin",
              marginValue := some 1, lowerBound := some (99/20),
              upperBound := some (101/20) } }) ∧
      parseBlock (fun _ => "u") numPrecBlock = .ok (some
        { qtype := "NUMERICAL", prompt := "Compute.",
          payload := .numerical
            { answer := some 5, toleranceMode := "decimal_places",
              precisionValue := some 2, lowerBound := some (999/200),
              upperBound := some (1001/200), strictLower := true } }) ∧
      parseBlock (fun _ => "u") numRangeBlock = .ok (some
        { qtype := "NUMERICAL", prompt := "Compute.",
          payload := .numerical
            { toleranceMode := "range", rangeMin := some 5,
              rangeMax := some 10, lowerBound := some 5,
              upperBound := some 10 } })) :=
  ⟨by decide, by decide, by decide,
   numericFields_mutually_exclusive (fun _ => "u")
     ["Type: NUMERICAL", "Answer: 5"] [] [] "Tolerance: 1%" "Range: 5 to 10"
     NumDirective.tol NumDirective.rng (by decide) (by decide) (by decide)⟩

/-- `takeWhile` keeps exactly the part before the first failing element. -/
theorem list_takeWhile_append_stop (p : Char → Bool) (l1 l2 : List Char) (c : Char)
    (h1 : ∀ x ∈ l1, p x = true) (h2 : p c = false) :
    (l1 ++ c :: l2).takeWhile p = l1 := by
  induction l1 with
  | nil => simp [List.takeWhile, h2]
  | cons a t ih =>
    have ha : p a = true := h1 a (by simp)
    simp only [List.cons_append, List.takeWhile_cons, ha, if_true]
    rw [ih (fun x hx => h1 x (by simp [hx]))]

/-- `takeWhile` is the identity when every element satisfies the predicate. -/
theorem list_takeWhile_all (p : Char → Bool) (l : List Char)
    (h : ∀ x ∈ l, p x = true) : l.takeWhile p = l := by
  induction l with
  | nil => rfl
  | cons a t ih =>
    have ha : p a = true := h a (by simp)
    simp only [List.takeWhile_cons, ha, if_true]
    rw [ih (fun x hx => h x (by simp [hx]))]

/-- An element not satisfying the predicate survives `dropWhile`. -/
theorem list_mem_dropWhile (p : Char → Bool) (l : List Char) (a : Char)
    (ha : a ∈ l) (hpa : p a = false) : a ∈ l.dropWhile p := by
  induction l with
  | nil => simp at ha
  | cons b t ih =>
    by_cases hb : p b = true
    · rw [List.dropWhile_cons_of_pos hb]
      rcases List.mem_cons.1 ha with rfl | hat
      · rw [hpa] at hb; exact absurd hb (by simp)
      · exact ih hat
    · rw [List.dropWhile_cons_of_neg hb]
      exact ha

/-- Digit characters of a decimal coefficient are never `E`, `e` or `.`. -/
theorem decDigitsChars_chars (ds : List Nat) (hd : ∀ k ∈ ds, k ≤ 9) :
    ∀ c ∈ decDigitsChars ds, c ≠ 'E' ∧ c ≠ 'e' ∧ c ≠ '.' := by
  intro c hc
  simp only [decDigitsChars, List.mem_map] at hc
  obtain ⟨k, hk, rfl⟩ := hc
  have h9 := hd k hk
  interval_cases k <;> exact ⟨by decide, by decide, by decide⟩

/-- `normalize` never empties the coefficient. -/
theorem normalize_digits_ne_nil (d : PyDec) : (PyDec.normalize d).digits ≠ [] := by
  unfold PyDec.normalize
  split
  · simp
  · next hall =>
    simp only [ne_eq, List.reverse_eq_nil_iff, List.dropWhile_eq_nil_iff]
    intro h
    exact hall (by
      simp only [List.all_eq_true, decide_eq_true_eq]
      intro k hk
      have := h k (List.mem_reverse.2 hk)
      simpa using this)

/-- `normalize` preserves the digit bound. -/
theorem normalize_digits_bound (d : PyDec) (hd : ∀ k ∈ d.digits, k ≤ 9) :
    ∀ k ∈ (PyDec.normalize d).digits, k ≤ 9 := by
  unfold PyDec.normalize
  split
  · intro k hk; simp at hk; omega
  · intro k hk
    simp only [List.mem_reverse] at hk
    exact hd k (List.mem_reverse.1 ((List.dropWhile_sublist _).mem hk))

/-- `pyDecStr` unfolded to its four character blocks. -/
theorem pyDecStr_data (d : PyDec) :
    (pyDecStr d).data
      = (if d.neg then ['-'] else []) ++ decIntPart d ++ decFracPart d ++ decExpPart d := rfl

/-- Integer-part characters are digits or `0`; never `E`, `e` or `.`. -/
theorem decIntPart_chars (d : PyDec) (hd : ∀ k ∈ d.digits, k ≤ 9) :
    ∀ c ∈ decIntPart d, c ≠ 'E' ∧ c ≠ 'e' ∧ c ≠ '.' := by
  intro c hc
  unfold decIntPart at hc
  split at hc
  · simp at hc; subst hc; exact ⟨by decide, by decide, by decide⟩
  · split at hc
    · rcases List.mem_append.1 hc with h1 | h2
      · exact decDigitsChars_chars d.digits hd c h1
      · rw [List.eq_of_mem_replicate h2]
        exact ⟨by decide, by decide, by decide⟩
    · exact decDigitsChars_chars d.digits hd c (List.take_subset _ _ hc)

/-- Fraction-part characters are digits, `0` or `.`; never `E` or `e`. -/
theorem decFracPart_chars (d : PyDec) (hd : ∀ k ∈ d.digits, k ≤ 9) :
    ∀ c ∈ decFracPart d, c ≠ 'E' ∧ c ≠ 'e' := by
  intro c hc
  unfold decFracPart at hc
  split at hc
  · rcases List.mem_cons.1 hc with rfl | h2
    · exact ⟨by decide, by decide⟩
    · rcases List.mem_append.1 h2 with h3 | h4
      · rw [List.eq_of_mem_replicate h3]; exact ⟨by decide, by decide⟩
      · exact ⟨(decDigitsChars_chars d.digits hd c h4).1,
          (decDigitsChars_chars d.digits hd c h4).2.1⟩
  · split at hc
    · simp at hc
    · rcases List.mem_cons.1 hc with rfl | h2
      · exact ⟨by decide, by decide⟩
      · exact ⟨(decDigitsChars_chars d.digits hd c (List.drop_subset _ _ h2)).1,
          (decDigitsChars_chars d.digits hd c (List.drop_subset _ _ h2)).2.1⟩

/-- The fraction part is empty or a `.` followed by at least one digit. -/
theorem decFracPart_shape (d : PyDec) (hne : d.digits ≠ []) :
    decFracPart d = [] ∨ ∃ rest, decFracPart d = '.' :: rest ∧ rest ≠ [] := by
  unfold decFracPart
  split
  · refine Or.inr ⟨_, rfl, ?_⟩
    simp only [ne_eq, List.append_eq_nil, not_and]
    intro _ h
    exact hne (by simpa [decDigitsChars] using h)
  · split
    · exact Or.inl rfl
    · next h1 h2 =>
      refine Or.inr ⟨_, rfl, ?_⟩
      simp only [ne_eq, List.drop_eq_nil_iff, decDigitsChars, List.length_map, not_le]
      omega

/-- The exponent part is empty or starts with `E`. -/
theorem decExpPart_shape (d : PyDec) :
    decExpPart d = [] ∨ ∃ r, decExpPart d = 'E' :: r := by
  unfold decExpPart
  split
  · exact Or.inl rfl
  · exact Or.inr ⟨_, rfl⟩

/-- `rstrip0` only removes characters. -/
theorem rstrip0_subset (l : List Char) : rstrip0 l ⊆ l := by
  intro a ha
  unfold rstrip0 at ha
  rw [List.mem_reverse] at ha
  exact List.mem_reverse.1 ((List.dropWhile_sublist _).mem ha)

/-- A non-`0` character survives `rstrip0`. -/
theorem rstrip0_mem (l : List Char) (a : Char) (ha : a ∈ l) (hne : a ≠ '0') :
    a ∈ rstrip0 l := by
  unfold rstrip0
  rw [List.mem_reverse]
  exact list_mem_dropWhile _ _ a (List.mem_reverse.2 ha) (by simp [hne])

/-- Without a dot, `formatPlain` appends `".0"`. -/
theorem formatPlain_no_dot (td : List Char) (h : td.contains '.' = false) :
    formatPlain td = td ++ ['.', '0'] := by
  unfold formatPlain
  rw [if_neg (by rw [h]; simp)]

/-- With a dot, `formatPlain` keeps a dot followed by at least one character. -/
theorem formatPlain_dot_spec (td : List Char) (hdot : '.' ∈ td) :
    ∃ pre post, formatPlain td = pre ++ '.' :: post ∧ post ≠ [] := by
  have hc : td.contains '.' = true := by
    rw [List.contains_eq_any_beq]
    simp only [List.any_eq_true, beq_iff_eq]
    exact ⟨'.', hdot, rfl⟩
  have hds : '.' ∈ rstrip0 td := rstrip0_mem td '.' hdot (by decide)
  unfold formatPlain
  rw [if_pos (by rw [hc])]
  by_cases hlast : (rstrip0 td).getLast? = some '.'
  · rw [if_pos hlast]
    have hne : rstrip0 td ≠ [] := by
      intro he; rw [he] at hlast; simp at hlast
    have hgl : (rstrip0 td).getLast hne = '.' := by
      rw [List.getLast?_eq_getLast _ hne] at hlast
      exact Option.some.inj hlast
    refine ⟨(rstrip0 td).dropLast, ['0'], ?_, by simp⟩
    conv_lhs => rw [← List.dropLast_concat_getLast hne]
    rw [hgl, List.append_assoc]
    rfl
  · rw [if_neg hlast]
    obtain ⟨pre, post, hsplit⟩ := List.append_of_mem hds
    refine ⟨pre, post, hsplit, ?_⟩
    intro hpost
    apply hlast
    rw [hsplit, hpost]
    exact List.getLast?_concat pre

/-- `formatPlain` introduces no `E`. -/
theorem formatPlain_chars (td : List Char) (h : ∀ c ∈ td, c ≠ 'E') :
    ∀ c ∈ formatPlain td, c ≠ 'E' := by
  intro c hc
  unfold formatPlain at hc
  split at hc
  · split at hc
    · rcases List.mem_append.1 hc with h1 | h2
      · exact h c (rstrip0_subset td h1)
      · simp at h2; subst h2; decide
    · exact h c (rstrip0_subset td hc)
  · rcases List.mem_append.1 hc with h1 | h2
    · exact h c h1
    · rcases List.mem_cons.1 h2 with rfl | h3
      · decide
      · simp at h3; subst h3; decide

/-- Core of the formatting claim: the mantissa of `_format_decimal` always
contains a decimal point followed by at least one character. -/
theorem formatDecimal_core (d : PyDec) (hne : d.digits ≠ [])
    (hd : ∀ k ∈ d.digits, k ≤ 9) :
    ∃ pre post,
      (formatDecimal d).data.takeWhile (fun c => c ≠ 'E') = pre ++ '.' :: post ∧
      post ≠ [] := by
  have hne' : (PyDec.normalize d).digits ≠ [] := normalize_digits_ne_nil d
  have hd' : ∀ k ∈ (PyDec.normalize d).digits, k ≤ 9 := normalize_digits_bound d hd
  set nd := PyDec.normalize d with hnd
  have hsign : ∀ c ∈ (if nd.neg then ['-'] else []), c ≠ 'E' ∧ c ≠ 'e' ∧ c ≠ '.' := by
    split
    · intro c hc; simp at hc; subst hc; exact ⟨by decide, by decide, by decide⟩
    · intro c hc; simp at hc
  have hip := decIntPart_chars nd hd'
  have hfpc := decFracPart_chars nd hd'
  have hbase : ∀ c ∈ ((if nd.neg then ['-'] else []) ++ decIntPart nd ++ decFracPart nd),
      c ≠ 'E' ∧ c ≠ 'e' := by
    intro c hc
    rcases List.mem_append.1 hc with hc1 | hc2
    · rcases List.mem_append.1 hc1 with hs | hi
      · exact ⟨(hsign c hs).1, (hsign c hs).2.1⟩
      · exact ⟨(hip c hi).1, (hip c hi).2.1⟩
    · exact hfpc c hc2
  rcases decExpPart_shape nd with hep | ⟨r, hep⟩
  · -- no exponent: the plain branch
    have htd : (pyDecStr nd).data
        = (if nd.neg then ['-'] else []) ++ decIntPart nd ++ decFracPart nd := by
      rw [pyDecStr_data, hep, List.append_nil]
    have hnotE : (pyDecStr nd).data.contains 'E' = false := by
      rw [List.contains_eq_any_beq]
      simp only [List.any_eq_false, beq_iff_eq]
      intro c hc he
      rw [htd] at hc
      exact (hbase c hc).1 he.symm
    have hnote : (pyDecStr nd).data.contains 'e' = false := by
      rw [List.contains_eq_any_beq]
      simp only [List.any_eq_false, beq_iff_eq]
      intro c hc he
      rw [htd] at hc
      exact (hbase c hc).2 he.symm
    unfold formatDecimal
    rw [if_neg (by rw [← hnd, hnotE, hnote]; simp)]
    by_cases h0 : formatPlain (pyDecStr nd).data = []
        ∨ formatPlain (pyDecStr nd).data = ['.', '0']
    · rw [if_pos (by rw [← hnd]; exact h0)]
      exact ⟨['0'], ['0'], by decide, by decide⟩
    · rw [if_neg (by rw [← hnd]; exact h0)]
      have hchars : ∀ c ∈ formatPlain (pyDecStr nd).data, c ≠ 'E' :=
        formatPlain_chars _ (fun c hc => (hbase c (htd ▸ hc)).1)
      have htw : (formatPlain (pyDecStr nd).data).takeWhile (fun c => c ≠ 'E')
          = formatPlain (pyDecStr nd).data :=
        list_takeWhile_all _ _ (fun c hc => decide_eq_true (hchars c hc))
      rw [show (String.mk (formatPlain (pyDecStr nd).data)).data
          = formatPlain (pyDecStr nd).data from rfl, htw]
      rcases decFracPart_shape nd hne' with hfp | ⟨rest, hfp, hrest⟩
      · have hnodot : (pyDecStr nd).data.contains '.' = false := by
          rw [List.contains_eq_any_beq]
          simp only [List.any_eq_false, beq_iff_eq]
          intro c hc he
          rw [htd, hfp, List.append_nil] at hc
          rcases List.mem_append.1 hc with hs | hi
          · exact (hsign c hs).2.2 he.symm
          · exact (hip c hi).2.2 he.symm
        rw [formatPlain_no_dot _ hnodot]
        exact ⟨(pyDecStr nd).data, ['0'], rfl, by simp⟩
      · have hdot : '.' ∈ (pyDecStr nd).data := by
          rw [htd, hfp]
          simp
        exact formatPlain_dot_spec _ hdot
  · -- exponent present: the scientific branch
    have htd : (pyDecStr nd).data
        = ((if nd.neg then ['-'] else []) ++ decIntPart nd ++ decFracPart nd)
            ++ 'E' :: r := by
      rw [pyDecStr_data, hep]
    have hE : (pyDecStr nd).data.contains 'E' = true := by
      rw [List.contains_eq_any_beq]
      simp only [List.any_eq_true, beq_iff_eq]
      exact ⟨'E', by rw [htd]; simp, rfl⟩
    unfold formatDecimal
    rw [if_pos (by rw [← hnd]; exact Or.inl (by rw [hE]))]
    have hbase' : ∀ x ∈ ((if nd.neg then ['-'] else []) ++ decIntPart nd ++ decFracPart nd),
        (fun c => decide ¬(c = 'E')) x = true :=
      fun x hx => decide_eq_true (hbase x hx).1
    have htw1 : (pyDecStr nd).data.takeWhile (fun c => c ≠ 'E')
        = (if nd.neg then ['-'] else []) ++ decIntPart nd ++ decFracPart nd := by
      rw [htd]
      exact list_takeWhile_append_stop _ _ _ _ hbase' (by decide)
    rw [← hnd]
    simp only [formatSci, htw1]
    rcases decFracPart_shape nd hne' with hfp | ⟨rest, hfp, hrest⟩
    · -- mantissa has no dot: ".0" appended
      have hnodotb : ((if nd.neg then ['-'] else []) ++ decIntPart nd
          ++ decFracPart nd).contains '.' = false := by
        rw [List.contains_eq_any_beq]
        simp only [List.any_eq_false, beq_iff_eq]
        intro c hc he
        rw [hfp, List.append_nil] at hc
        rcases List.mem_append.1 hc with hs | hi
        · exact (hsign c hs).2.2 he.symm
        · exact (hip c hi).2.2 he.symm
      rw [show formatMantissaFix ((if nd.neg then ['-'] else []) ++ decIntPart nd
          ++ decFracPart nd) = ((if nd.neg then ['-'] else []) ++ decIntPart nd
          ++ decFracPart nd) ++ ['.', '0'] from by
        unfold formatMantissaFix
        rw [if_neg (by rw [hnodotb]; simp)]]
      have hall : ∀ x ∈ ((if nd.neg then ['-'] else []) ++ decIntPart nd
          ++ decFracPart nd) ++ ['.', '0'], (fun c => decide ¬(c = 'E')) x = true := by
        intro x hx
        rcases List.mem_append.1 hx with h1 | h2
        · exact hbase' x h1
        · rcases List.mem_cons.1 h2 with rfl | h3
          · decide
          · simp at h3; subst h3; decide
      rw [list_takeWhile_append_stop _ _ _ _ hall (by decide)]
      exact ⟨(if nd.neg then ['-'] else []) ++ decIntPart nd ++ decFracPart nd,
        ['0'], by rw [List.append_assoc], by simp⟩
    · -- mantissa already has a dot
      have hdotb : ((if nd.neg then ['-'] else []) ++ decIntPart nd
          ++ decFracPart nd).contains '.' = true := by
        rw [List.contains_eq_any_beq]
        simp only [List.any_eq_true, beq_iff_eq]
        exact ⟨'.', by rw [hfp]; simp, rfl⟩
      rw [show formatMantissaFix ((if nd.neg then ['-'] else []) ++ decIntPart nd
          ++ decFracPart nd) = (if nd.neg then ['-'] else []) ++ decIntPart nd
          ++ decFracPart nd from by
        unfold formatMantissaFix
        rw [if_pos (by rw [hdotb])]]
      rw [list_takeWhile_append_stop _ _ _ _ hbase' (by decide)]
      exact ⟨(if nd.neg then ['-'] else []) ++ decIntPart nd, rest,
        by rw [hfp, List.append_assoc], hrest⟩

/-- C8: Numeric literal formatting for QTI: for every Decimal value, the
string produced by `_format_decimal` always contains a decimal point in the
mantissa (the part before any `E`), with at least one character after the
point — an integer value gains ".0" (4 ⇒ "4.0"), a scientific-notation
value whose mantissa lacks a decimal point gains ".0" in the mantissa
while keeping the exponent (5E+1 ⇒ "5.0E+1"), and a value that already
has a fractional part keeps at least one digit after the point
(4.50 ⇒ "4.5"). -/
theorem formatDecimal_mantissa_point (d : PyDec) (hne : d.digits ≠ [])
    (hd : ∀ k ∈ d.digits, k ≤ 9) :
    (∃ pre post,
      (formatDecimal d).data.takeWhile (fun c => c ≠ 'E') = pre ++ '.' :: post ∧
      post ≠ []) ∧
    formatDecimal { neg := false, digits := [4], exp := 0 } = "4.0" ∧
    formatDecimal { neg := false, digits := [5], exp := 1 } = "5.0E+1" ∧
    formatDecimal { neg := false, digits := [4, 5, 0], exp := -2 } = "4.5" :=
  ⟨formatDecimal_core d hne hd, by decide, by decide, by decide⟩

theorem formatDecimal_mantissa_point_witness :
    ∃ pre post,
      (formatDecimal { neg := false, digits := [3, 7], exp := -1 }).data.takeWhile
        (fun c => c ≠ 'E') = pre ++ '.' :: post ∧ post ≠ [] :=
  (formatDecimal_mantissa_point { neg := false, digits := [3, 7], exp := -1 }
    (by decide) (by decide)).1
/-- Every character of a `replace` result comes from the replacement or the
input. -/
theorem replaceAllFuel_mem (pat rep : List Char) (fuel : Nat) (l : List Char) :
    ∀ c ∈ replaceAllFuel pat rep fuel l, c ∈ rep ∨ c ∈ l := by
  induction fuel generalizing l with
  | zero => intro c hc; exact Or.inr hc
  | succ n ih =>
    cases l with
    | nil => intro c hc; simp only [replaceAllFuel] at hc; simp at hc
    | cons a rest =>
      intro c hc
      simp only [replaceAllFuel] at hc
      by_cases hp : pat ≠ [] ∧ pat.isPrefixOf (a :: rest)
      · rw [if_pos hp] at hc
        rcases List.mem_append.1 hc with h1 | h2
        · exact Or.inl h1
        · rcases ih _ c h2 with h3 | h4
          · exact Or.inl h3
          · exact Or.inr (List.drop_subset _ _ h4)
      · rw [if_neg hp] at hc
        rcases List.mem_cons.1 hc with rfl | h2
        · exact Or.inr (List.mem_cons_self _ _)
        · rcases ih _ c h2 with h3 | h4
          · exact Or.inl h3
          · exact Or.inr (List.mem_cons_of_mem _ h4)

/-- Replacing a single character eliminates it: every output character is
from the replacement or is an input character different from the pattern. -/
theorem replaceAllFuel_single (b : Char) (rep : List Char) (fuel : Nat)
    (l : List Char) (hf : l.length ≤ fuel) :
    ∀ c ∈ replaceAllFuel [b] rep fuel l, c ∈ rep ∨ (c ∈ l ∧ c ≠ b) := by
  induction fuel generalizing l with
  | zero =>
    intro c hc
    rw [List.length_eq_zero.1 (Nat.le_zero.1 hf)] at hc
    simp only [replaceAllFuel] at hc
    simp at hc
  | succ n ih =>
    cases l with
    | nil => intro c hc; simp only [replaceAllFuel] at hc; simp at hc
    | cons a rest =>
      intro c hc
      simp only [replaceAllFuel] at hc
      have hrest : rest.length ≤ n := by
        simp only [List.length_cons] at hf
        omega
      by_cases hp : ([b] : List Char) ≠ [] ∧ ([b] : List Char).isPrefixOf (a :: rest)
      · rw [if_pos hp] at hc
        rcases List.mem_append.1 hc with h1 | h2
        · exact Or.inl h1
        · have hdrop : (a :: rest).drop ([b] : List Char).length = rest := rfl
          rw [hdrop] at h2
          rcases ih rest hrest c h2 with h3 | ⟨h4, h5⟩
          · exact Or.inl h3
          · exact Or.inr ⟨List.mem_cons_of_mem _ h4, h5⟩
      · have hne : a ≠ b := by
          intro he
          apply hp
          refine ⟨by simp, ?_⟩
          rw [List.isPrefixOf_iff_prefix]
          exact List.cons_prefix_cons.2 ⟨he.symm, List.nil_prefix⟩
        rw [if_neg hp] at hc
        rcases List.mem_cons.1 hc with rfl | h2
        · exact Or.inr ⟨List.mem_cons_self _ _, hne⟩
        · rcases ih rest hrest c h2 with h3 | ⟨h4, h5⟩
          · exact Or.inl h3
          · exact Or.inr ⟨List.mem_cons_of_mem _ h4, h5⟩

/-- `str.replace` with a single-character pattern, unfueled form. -/
theorem replaceAll_single (b : Char) (rep l : List Char) :
    ∀ c ∈ replaceAll [b] rep l, c ∈ rep ∨ (c ∈ l ∧ c ≠ b) :=
  fun c hc => replaceAllFuel_single b rep l.length l le_rfl c hc

/-- `sanitize_text` output never contains any of the eight replaced
characters. -/
theorem sanitizeText_clean (value : String) : cleanStr (sanitizeText value) := by
  intro c hc
  unfold sanitizeText at hc
  by_cases hv : value = ""
  · rw [if_pos hv] at hc
    subst hv
    simp at hc
  · rw [if_neg hv] at hc
    rcases replaceAll_single ' ' " ".data _ c hc with h | ⟨hc, h8⟩
    · fin_cases h <;> decide
    rcases replaceAll_single '…' "...".data _ c hc with h | ⟨hc, h7⟩
    · fin_cases h <;> decide
    rcases replaceAll_single '–' "-".data _ c hc with h | ⟨hc, h6⟩
    · fin_cases h <;> decide
    rcases replaceAll_single '—' "-".data _ c hc with h | ⟨hc, h5⟩
    · fin_cases h <;> decide
    rcases replaceAll_single '’' "'".data _ c hc with h | ⟨hc, h4⟩
    · fin_cases h <;> decide
    rcases replaceAll_single '‘' "'".data _ c hc with h | ⟨hc, h3⟩
    · fin_cases h <;> decide
    rcases replaceAll_single '”' "\"".data _ c hc with h | ⟨hc, h2⟩
    · fin_cases h <;> decide
    rcases replaceAll_single '“' "\"".data _ c hc with h | ⟨hc, h1⟩
    · fin_cases h <;> decide
    simp only [sanitizeTargets, List.mem_cons, List.not_mem_nil, or_false]
    rintro (rfl | rfl | rfl | rfl | rfl | rfl | rfl | rfl)
    · exact h1 rfl
    · exact h2 rfl
    · exact h3 rfl
    · exact h4 rfl
    · exact h5 rfl
    · exact h6 rfl
    · exact h7 rfl
    · exact h8 rfl

/-- One parser-loop step preserves the sanitization invariant: every list
entry is appended through `sanitize_text`. -/
theorem pbStep_clean {s : PBState} {raw : String} {s2 : PBState}
    (hclean : stateClean s) (hs : pbStep s raw = .ok s2) :
    stateClean s2 := by
  obtain ⟨h1, h2, h3, h4, h5, h6⟩ := hclean
  unfold pbStep at hs
  set LW := pyLower (pyStrip raw) with hLW
  set L := pyStrip raw with hL
  by_cases b0 : L = ""
  · rw [if_pos b0] at hs
    simp only [Except.ok.injEq] at hs
    subst hs
    split
    · exact ⟨h1, h2, h3, h4, h5, h6⟩
    · exact ⟨h1, h2, h3, h4, h5, h6⟩
  · rw [if_neg b0] at hs
    by_cases b1 : pyStartsWith LW "type:" = true
    · rw [if_pos b1] at hs
      simp only [Except.ok.injEq] at hs
      subst hs
      exact ⟨h1, h2, h3, h4, h5, h6⟩
    · rw [if_neg b1] at hs
      by_cases b2 : pyStartsWith LW "points:" = true
      · rw [if_pos b2] at hs
        simp only [Except.ok.injEq] at hs
        subst hs
        exact ⟨h1, h2, h3, h4, h5, h6⟩
      · rw [if_neg b2] at hs
        by_cases b3 : pyStartsWith LW "prompt:" = true
        · rw [if_pos b3] at hs
          simp only [Except.ok.injEq] at hs
          subst hs
          exact ⟨h1, h2, h3, h4, h5, h6⟩
        · rw [if_neg b3] at hs
          by_cases b4 : pyStartsWith LW "header:" = true
          · rw [if_pos b4] at hs
            simp only [Except.ok.injEq] at hs
            subst hs
            exact ⟨h1, h2, h3, h4, h5, h6⟩
          · rw [if_neg b4] at hs
            by_cases b5 : pyStartsWith LW "items:" = true
            · rw [if_pos b5] at hs
              by_cases i1 : s.qtype = some "ORDERING"
              · rw [if_pos i1] at hs
                simp only [Except.ok.injEq] at hs
                subst hs
                exact ⟨h1, h2, h3, h4, h5, h6⟩
              · rw [if_neg i1] at hs
                by_cases i2 : s.qtype = some "CATEGORIZATION"
                · rw [if_pos i2] at hs
                  simp only [Except.ok.injEq] at hs
                  subst hs
                  exact ⟨h1, h2, h3, h4, h5, h6⟩
                · rw [if_neg i2] at hs
                  simp only [Except.ok.injEq] at hs
                  subst hs
                  exact ⟨h1, h2, h3, h4, h5, h6⟩
            · rw [if_neg b5] at hs
              by_cases b6 : pyStartsWith LW "categories:" = true
              · rw [if_pos b6] at hs
                simp only [Except.ok.injEq] at hs
                subst hs
                exact ⟨h1, h2, h3, h4, h5, h6⟩
              · rw [if_neg b6] at hs
                by_cases b7 : pyStartsWith LW "distractors:" = true
                · rw [if_pos b7] at hs
                  simp only [Except.ok.injEq] at hs
                  subst hs
                  exact ⟨h1, h2, h3, h4, h5, h6⟩
                · rw [if_neg b7] at hs
                  by_cases b8 : pyStartsWith LW "choices:" = true
                  · rw [if_pos b8] at hs
                    simp only [Except.ok.injEq] at hs
                    subst hs
                    exact ⟨h1, h2, h3, h4, h5, h6⟩
                  · rw [if_neg b8] at hs
                    by_cases b9 : pyStartsWith LW "pairs:" = true
                    · rw [if_pos b9] at hs
                      simp only [Except.ok.injEq] at hs
                      subst hs
                      exact ⟨h1, h2, h3, h4, h5, h6⟩
                    · rw [if_neg b9] at hs
                      by_cases b10 : pyStartsWith LW "accept:" = true ∨ pyStartsWith LW "answers:" = true
                      · rw [if_pos b10] at hs
                        simp only [Except.ok.injEq] at hs
                        subst hs
                        exact ⟨h1, h2, h3, h4, h5, h6⟩
                      · rw [if_neg b10] at hs
                        by_cases b11 : pyStartsWith LW "answer:" = true
                        · rw [if_pos b11] at hs
                          by_cases a1 : s.qtype = some "TF"
                          · rw [if_pos a1] at hs
                            by_cases a2 : pyLower (pyStrip (afterColon L)) = "true" ∨
                                pyLower (pyStrip (afterColon L)) = "t" ∨
                                pyLower (pyStrip (afterColon L)) = "1" ∨
                                pyLower (pyStrip (afterColon L)) = "yes"
                            · rw [if_pos a2] at hs
                              simp only [Except.ok.injEq] at hs
                              subst hs
                              exact ⟨h1, h2, h3, h4, h5, h6⟩
                            · rw [if_neg a2] at hs
                              by_cases a3 : pyLower (pyStrip (afterColon L)) = "false" ∨
                                  pyLower (pyStrip (afterColon L)) = "f" ∨
                                  pyLower (pyStrip (afterColon L)) = "0" ∨
                                  pyLower (pyStrip (afterColon L)) = "no"
                              · rw [if_pos a3] at hs
                                simp only [Except.ok.injEq] at hs
                                subst hs
                                exact ⟨h1, h2, h3, h4, h5, h6⟩
                              · rw [if_neg a3] at hs
                                exact Except.noConfusion hs
                          · rw [if_neg a1] at hs
                            by_cases a4 : s.qtype = some "NUMERICAL"
                            · rw [if_pos a4] at hs
                              rcases hpd : parseDecimalValue (pyStrip (afterColon L)) with e | v
                              · rw [hpd] at hs
                                exact Except.noConfusion hs
                              · rw [hpd] at hs
                                simp only [Except.ok.injEq] at hs
                                subst hs
                                exact ⟨h1, h2, h3, h4, h5, h6⟩
                            · rw [if_neg a4] at hs
                              exact Except.noConfusion hs
                        · rw [if_neg b11] at hs
                          by_cases b12 : pyStartsWith LW "tolerance:" = true
                          · rw [if_pos b12] at hs
                            by_cases t1 : s.qtype ≠ some "NUMERICAL"
                            · rw [if_pos t1] at hs
                              exact Except.noConfusion hs
                            · rw [if_neg t1] at hs
                              by_cases t2 : s.numericalMode = "range" ∨
                                  s.numericalMode = "significant_digits" ∨
                                  s.numericalMode = "decimal_places"
                              · rw [if_pos t2] at hs
                                exact Except.noConfusion hs
                              · rw [if_neg t2] at hs
                                rcases ht : parseNumericalTolerance (pyStrip (afterColon L)) with e | mv
                                · rw [ht] at hs
                                  exact Except.noConfusion hs
                                · rw [ht] at hs
                                  simp only [Except.ok.injEq] at hs
                                  subst hs
                                  exact ⟨h1, h2, h3, h4, h5, h6⟩
                          · rw [if_neg b12] at hs
                            by_cases b13 : pyStartsWith LW "precision:" = true
                            · rw [if_pos b13] at hs
                              by_cases t3 : s.qtype ≠ some "NUMERICAL"
                              · rw [if_pos t3] at hs
                                exact Except.noConfusion hs
                              · rw [if_neg t3] at hs
                                by_cases t4 : s.numericalMode = "percent_margin" ∨
                                    s.numericalMode = "absolute_margin" ∨
                                    s.numericalMode = "range"
                                · rw [if_pos t4] at hs
                                  exact Except.noConfusion hs
                                · rw [if_neg t4] at hs
                                  rcases hq : parseNumericalPrecision (pyStrip (afterColon L)) with e | pv
                                  · rw [hq] at hs
                                    exact Except.noConfusion hs
                                  · rw [hq] at hs
                                    simp only [Except.ok.injEq] at hs
                                    subst hs
                                    exact ⟨h1, h2, h3, h4, h5, h6⟩
                            · rw [if_neg b13] at hs
                              by_cases b14 : pyStartsWith LW "range:" = true
                              · rw [if_pos b14] at hs
                                by_cases t5 : s.qtype ≠ some "NUMERICAL"
                                · rw [if_pos t5] at hs
                                  exact Except.noConfusion hs
                                · rw [if_neg t5] at hs
                                  by_cases t6 : s.numericalMode ≠ "exact"
                                  · rw [if_pos t6] at hs
                                    exact Except.noConfusion hs
                                  · rw [if_neg t6] at hs
                                    rcases hr : parseNumericalRange (pyStrip (afterColon L)) with e | mm
                                    · rw [hr] at hs
                                      exact Except.noConfusion hs
                                    · rw [hr] at hs
                                      simp only [Except.ok.injEq] at hs
                                      subst hs
                                      exact ⟨h1, h2, h3, h4, h5, h6⟩
                              · rw [if_neg b14] at hs
                                by_cases b15 : s.inPrompt = true
                                · rw [if_pos b15] at hs
                                  simp only [Except.ok.injEq] at hs
                                  subst hs
                                  exact ⟨h1, h2, h3, h4, h5, h6⟩
                                · rw [if_neg b15] at hs
                                  by_cases b16 : s.inChoices = true
                                  · rw [if_pos b16] at hs
                                    rcases hm1 : parseChoiceLine L.data with _ | ct
                                    · rw [hm1] at hs
                                      exact Except.noConfusion hs
                                    · rw [hm1] at hs
                                      simp only [Except.ok.injEq] at hs
                                      subst hs
                                      exact ⟨h1, h2, h3, h4, h5, h6⟩
                                  · rw [if_neg b16] at hs
                                    by_cases b17 : s.inPairs = true
                                    · rw [if_pos b17] at hs
                                      rcases hm2 : parseArrowLine L.data with _ | ta
                                      · rw [hm2] at hs
                                        exact Except.noConfusion hs
                                      · rw [hm2] at hs
                                        simp only [Except.ok.injEq] at hs
                                        subst hs
                                        refine ⟨?_, h2, h3, h4, h5, h6⟩
                                        intro p hp
                                        rcases List.mem_append.1 hp with ho | hn
                                        · exact h1 p ho
                                        · rw [List.mem_singleton] at hn
                                          subst hn
                                          exact ⟨sanitizeText_clean _, sanitizeText_clean _⟩
                                    · rw [if_neg b17] at hs
                                      by_cases b18 : s.inAccept = true
                                      · rw [if_pos b18] at hs
                                        rcases hm3 : parseDashLine L.data with _ | v
                                        · rw [hm3] at hs
                                          exact Except.noConfusion hs
                                        · rw [hm3] at hs
                                          simp only [Except.ok.injEq] at hs
                                          subst hs
                                          refine ⟨h1, ?_, h3, h4, h5, h6⟩
                                          intro x hx
                                          rcases List.mem_append.1 hx with ho | hn
                                          · exact h2 x ho
                                          · rw [List.mem_singleton] at hn
                                            subst hn
                                            exact sanitizeText_clean _
                                      · rw [if_neg b18] at hs
                                        by_cases b19 : s.inOrderingItems = true
                                        · rw [if_pos b19] at hs
                                          rcases hm4 : parseNumberedLine L.data with _ | v
                                          · rw [hm4] at hs
                                            exact Except.noConfusion hs
                                          · rw [hm4] at hs
                                            simp only [Except.ok.injEq] at hs
                                            subst hs
                                            refine ⟨h1, h2, ?_, h4, h5, h6⟩
                                            intro x hx
                                            rcases List.mem_append.1 hx with ho | hn
                                            · exact h3 x ho
                                            · rw [List.mem_singleton] at hn
                                              subst hn
                                              exact sanitizeText_clean _
                                        · rw [if_neg b19] at hs
                                          by_cases b20 : s.inCategories = true
                                          · rw [if_pos b20] at hs
                                            rcases hm5 : parseDashLine L.data with _ | v
                                            · rw [hm5] at hs
                                              exact Except.noConfusion hs
                                            · rw [hm5] at hs
                                              simp only [Except.ok.injEq] at hs
                                              subst hs
                                              refine ⟨h1, h2, h3, ?_, h5, h6⟩
                                              intro x hx
                                              rcases List.mem_append.1 hx with ho | hn
                                              · exact h4 x ho
                                              · rw [List.mem_singleton] at hn
                                                subst hn
                                                exact sanitizeText_clean _
                                          · rw [if_neg b20] at hs
                                            by_cases b21 : s.inCategoryItems = true
                                            · rw [if_pos b21] at hs
                                              rcases hm6 : parseArrowLine L.data with _ | ic
                                              · rw [hm6] at hs
                                                exact Except.noConfusion hs
                                              · rw [hm6] at hs
                                                simp only [Except.ok.injEq] at hs
                                                subst hs
                                                refine ⟨h1, h2, h3, h4, ?_, h6⟩
                                                intro x hx
                                                rcases List.mem_append.1 hx with ho | hn
                                                · exact h5 x ho
                                                · rw [List.mem_singleton] at hn
                                                  subst hn
                                                  exact ⟨sanitizeText_clean _, sanitizeText_clean _⟩
                                            · rw [if_neg b21] at hs
                                              by_cases b22 : s.inDistractors = true
                                              · rw [if_pos b22] at hs
                                                rcases hm7 : parseDashLine L.data with _ | v
                                                · rw [hm7] at hs
                                                  exact Except.noConfusion hs
                                                · rw [hm7] at hs
                                                  simp only [Except.ok.injEq] at hs
                                                  subst hs
                                                  refine ⟨h1, h2, h3, h4, h5, ?_⟩
                                                  intro x hx
                                                  rcases List.mem_append.1 hx with ho | hn
                                                  · exact h6 x ho
                                                  · rw [List.mem_singleton] at hn
                                                    subst hn
                                                    exact sanitizeText_clean _
                                              · rw [if_neg b22] at hs
                                                simp only [Except.ok.injEq] at hs
                                                subst hs
                                                exact ⟨h1, h2, h3, h4, h5, h6⟩

/-- The parser loop preserves the sanitization invariant. -/
theorem pbLoop_clean (lines : List String) :
    ∀ {s s2 : PBState}, stateClean s → pbLoop s lines = .ok s2 → stateClean s2 := by
  induction lines with
  | nil =>
    intro s s2 hc h
    simp only [pbLoop, Except.ok.injEq] at h
    subst h
    exact hc
  | cons a rest ih =>
    intro s s2 hc h
    simp only [pbLoop] at h
    rcases hst : pbStep s a with e | s1
    · rw [hst] at h
      exact Except.noConfusion h
    · rw [hst] at h
      exact ih (pbStep_clean hc hst) h

/-- First-occurrence deduplication only drops elements. -/
theorem dedupFirst_go (l : List String) :
    ∀ (acc : List String),
      ∀ x ∈ l.foldl (fun acc y => if acc.contains y then acc else acc ++ [y]) acc,
        x ∈ acc ∨ x ∈ l := by
  induction l with
  | nil => intro acc x hx; exact Or.inl hx
  | cons a t ih =>
    intro acc x hx
    simp only [List.foldl_cons] at hx
    rcases ih (if acc.contains a then acc else acc ++ [a]) x hx with h | h
    · by_cases hc : acc.contains a = true
      · rw [if_pos hc] at h
        exact Or.inl h
      · rw [if_neg hc] at h
        rcases List.mem_append.1 h with h2 | h2
        · exact Or.inl h2
        · rw [List.mem_singleton] at h2
          subst h2
          exact Or.inr (List.mem_cons_self _ _)
    · exact Or.inr (List.mem_cons_of_mem _ h)

theorem dedupFirst_mem (l : List String) : ∀ x ∈ dedupFirst l, x ∈ l := by
  intro x hx
  rcases dedupFirst_go l [] x hx with h | h
  · simp at h
  · exact h

theorem cleanStr_empty : cleanStr "" := by
  intro c hc
  simp at hc

theorem cleanStr_append {a b : String} (ha : cleanStr a) (hb : cleanStr b) :
    cleanStr (a ++ b) := by
  intro c hc
  rw [String.data_append] at hc
  rcases List.mem_append.1 hc with h | h
  · exact ha c h
  · exact hb c h

/-- After the loop, every string the claim names in the built `Question` is
sanitized: the prompt and MC/MA choices through `sanitize_text` at
construction, the rest through the loop invariant; FITB additionally embeds
the generated blank token, clean by hypothesis on the generator. -/
theorem pbFinalize_clean {g : Nat → String} {s : PBState} {q : Question}
    (hg : ∀ n, cleanStr (g n)) (hclean : stateClean s)
    (hs : pbFinalize g s = .ok (some q)) : questionClean q := by
  obtain ⟨h1, h2, h3, h4, h5, h6⟩ := hclean
  have hpr : cleanStr (sanitizeText (pyStrip (joinNL s.promptLines))) :=
    sanitizeText_clean _
  rcases hqt : s.qtype with _ | qt
  · simp only [pbFinalize, hqt, Except.ok.injEq] at hs
    exact Option.noConfusion hs
  · simp only [pbFinalize, hqt] at hs
    by_cases f0 : qt = ""
    · rw [if_pos f0] at hs
      simp only [Except.ok.injEq] at hs
      exact Option.noConfusion hs
    · rw [if_neg f0] at hs
      by_cases f1 : qt = "ENDSTIMULUS" ∨ qt = "END_STIMULUS" ∨ qt = "STIMULUS_END"
          ∨ qt = "UNLINK" ∨ qt = "DETACH"
      · rw [if_pos f1] at hs
        simp only [Except.ok.injEq, Option.some.injEq] at hs
        subst hs
        exact ⟨cleanStr_empty, trivial⟩
      · rw [if_neg f1] at hs
        by_cases f2 : qt = "MC"
        · rw [if_pos f2] at hs
          by_cases g1 : s.choices.length < 2 ∨ s.choices.length > 7
          · rw [if_pos g1] at hs
            exact Except.noConfusion hs
          · rw [if_neg g1] at hs
            by_cases g2 : (s.choices.filter (fun c => c.correct)).length ≠ 1
            · rw [if_pos g2] at hs
              exact Except.noConfusion hs
            · rw [if_neg g2] at hs
              simp only [Except.ok.injEq, Option.some.injEq] at hs
              subst hs
              refine ⟨hpr, ?_⟩
              intro ch hch
              rcases List.mem_map.1 hch with ⟨c0, _, rfl⟩
              exact sanitizeText_clean _
        · rw [if_neg f2] at hs
          by_cases f3 : qt = "TF"
          · rw [if_pos f3] at hs
            rcases hta : s.tfAnswer with _ | b
            · rw [hta] at hs
              exact Except.noConfusion hs
            · rw [hta] at hs
              simp only [Except.ok.injEq, Option.some.injEq] at hs
              subst hs
              exact ⟨hpr, trivial⟩
          · rw [if_neg f3] at hs
            by_cases f4 : qt = "MA"
            · rw [if_pos f4] at hs
              by_cases g1 : s.choices.length < 2
              · rw [if_pos g1] at hs
                exact Except.noConfusion hs
              · rw [if_neg g1] at hs
                by_cases g2 : (s.choices.filter (fun c => c.correct)).length < 1
                · rw [if_pos g2] at hs
                  exact Except.noConfusion hs
                · rw [if_neg g2] at hs
                  simp only [Except.ok.injEq, Option.some.injEq] at hs
                  subst hs
                  refine ⟨hpr, ?_⟩
                  intro ch hch
                  rcases List.mem_map.1 hch with ⟨c0, _, rfl⟩
                  exact sanitizeText_clean _
            · rw [if_neg f4] at hs
              by_cases f5 : qt = "NUMERICAL"
              · rw [if_pos f5] at hs
                rcases hres : resolveNumericalBounds s.numericalAnswerValue
                    s.numericalMode s.numericalMarginValue s.numericalRangeMin
                    s.numericalRangeMax s.numericalPrecisionValue with e | bds
                · rw [hres] at hs
                  exact Except.noConfusion hs
                · rw [hres] at hs
                  simp only [] at hs
                  rcases hval : NumericalAnswer.validate
                      { answer := s.numericalAnswerValue,
                        toleranceMode := s.numericalMode,
                        marginValue := s.numericalMarginValue,
                        rangeMin := s.numericalRangeMin,
                        rangeMax := s.numericalRangeMax,
                        precisionValue := s.numericalPrecisionValue,
                        lowerBound := some bds.1, upperBound := some bds.2.1,
                        strictLower := bds.2.2 } with _ | ⟨e, es⟩
                  · rw [hval] at hs
                    simp only [Except.ok.injEq, Option.some.injEq] at hs
                    subst hs
                    exact ⟨hpr, trivial⟩
                  · rw [hval] at hs
                    exact Except.noConfusion hs
              · rw [if_neg f5] at hs
                by_cases f6 : qt = "MATCHING"
                · rw [if_pos f6] at hs
                  by_cases g1 : s.pairs.length < 2
                  · rw [if_pos g1] at hs
                    exact Except.noConfusion hs
                  · rw [if_neg g1] at hs
                    simp only [Except.ok.injEq, Option.some.injEq] at hs
                    subst hs
                    exact ⟨hpr, h1⟩
                · rw [if_neg f6] at hs
                  by_cases f7 : qt = "FITB"
                  · rw [if_pos f7] at hs
                    by_cases g1 : s.variants = []
                    · rw [if_pos g1] at hs
                      exact Except.noConfusion hs
                    · rw [if_neg g1] at hs
                      have hdt : cleanStr ("[" ++ g 0 ++ "]") :=
                        cleanStr_append (cleanStr_append
                          (show cleanStr "[" from by intro c hc; fin_cases hc; decide)
                          (hg 0))
                          (show cleanStr "]" from by intro c hc; fin_cases hc; decide)
                      have hB : cleanStr (⟨replaceAll "[blank]".data
                          ("[" ++ g 0 ++ "]").data
                          (sanitizeText (pyStrip (joinNL s.promptLines))).data⟩ : String) := by
                        intro c hc
                        rcases replaceAllFuel_mem "[blank]".data
                            ("[" ++ g 0 ++ "]").data _ _ c hc with h | h
                        · exact hdt c h
                        · exact hpr c h
                      have hA : cleanStr (sanitizeText (pyStrip (joinNL s.promptLines))
                          ++ " [ " ++ ("[" ++ g 0 ++ "]") ++ " ]") :=
                        cleanStr_append (cleanStr_append (cleanStr_append hpr
                          (show cleanStr " [ " from by
                            intro c hc; fin_cases hc <;> decide)) hdt)
                          (show cleanStr " ]" from by
                            intro c hc; fin_cases hc <;> decide)
                      split at hs
                      · simp only [Except.ok.injEq, Option.some.injEq] at hs
                        subst hs
                        exact ⟨hA, h2⟩
                      · simp only [Except.ok.injEq, Option.some.injEq] at hs
                        subst hs
                        exact ⟨hB, h2⟩
                  · rw [if_neg f7] at hs
                    by_cases f8 : qt = "ESSAY"
                    · rw [if_pos f8] at hs
                      simp only [Except.ok.injEq, Option.some.injEq] at hs
                      subst hs
                      exact ⟨hpr, trivial⟩
                    · rw [if_neg f8] at hs
                      by_cases f9 : qt = "FILEUPLOAD"
                      · rw [if_pos f9] at hs
                        simp only [Except.ok.injEq, Option.some.injEq] at hs
                        subst hs
                        exact ⟨hpr, trivial⟩
                      · rw [if_neg f9] at hs
                        by_cases f10 : qt = "STIMULUS"
                        · rw [if_pos f10] at hs
                          simp only [Except.ok.injEq, Option.some.injEq] at hs
                          subst hs
                          exact ⟨hpr, trivial⟩
                        · rw [if_neg f10] at hs
                          by_cases f11 : qt = "ORDERING"
                          · rw [if_pos f11] at hs
                            by_cases g1 : s.orderingItems.length < 2
                            · rw [if_pos g1] at hs
                              exact Except.noConfusion hs
                            · rw [if_neg g1] at hs
                              simp only [Except.ok.injEq, Option.some.injEq] at hs
                              subst hs
                              refine ⟨hpr, ?_⟩
                              intro it hit
                              rcases List.mem_map.1 hit with ⟨p, hp, rfl⟩
                              refine h3 p.2 ?_
                              rw [List.mem_enum_iff_getElem?] at hp
                              exact List.getElem?_mem hp
                          · rw [if_neg f11] at hs
                            by_cases f12 : qt = "CATEGORIZATION"
                            · rw [if_pos f12] at hs
                              by_cases g1 : s.categories.length < 2
                              · rw [if_pos g1] at hs
                                exact Except.noConfusion hs
                              · rw [if_neg g1] at hs
                                by_cases g2 : s.categoryItems.length < 1
                                · rw [if_pos g2] at hs
                                  exact Except.noConfusion hs
                                · rw [if_neg g2] at hs
                                  simp only [Except.ok.injEq, Option.some.injEq] at hs
                                  subst hs
                                  refine ⟨hpr, h4, ?_, ?_⟩
                                  · intro m hm
                                    rcases List.mem_map.1 hm with ⟨ic, hic, rfl⟩
                                    exact (h5 ic hic).2
                                  · intro t ht
                                    exact h6 t (dedupFirst_mem _ t ht)
                            · rw [if_neg f12] at hs
                              by_cases f13 : qt = "STIMULUS_END"
                              · rw [if_pos f13] at hs
                                simp only [Except.ok.injEq, Option.some.injEq] at hs
                                subst hs
                                exact ⟨cleanStr_empty, trivial⟩
                              · rw [if_neg f13] at hs
                                exact Except.noConfusion hs

/-- C10 -/
theorem parser_sanitizes_unconditionally
    (g : Nat → String) (hg : ∀ n, cleanStr (g n))
    (lines : List String) (q : Question)
    (hq : parseBlock g lines = .ok (some q)) (quiz : Quiz) :
    questionClean q ∧
    cleanStr (textCleanerClean quiz).1.title ∧
    ∀ q2 ∈ (textCleanerClean quiz).1.questions, cleanStr q2.prompt := by
  refine ⟨?_, ?_, ?_⟩
  · unfold parseBlock at hq
    rcases hl : pbLoop {} lines with e | s1
    · rw [hl] at hq
      exact Except.noConfusion hq
    · rw [hl] at hq
      have hsc : stateClean ({} : PBState) := by
        refine ⟨?_, ?_, ?_, ?_, ?_, ?_⟩ <;> intro x hx <;> simp at hx
      exact pbFinalize_clean hg (pbLoop_clean lines hsc hl) hq
  · exact sanitizeText_clean _
  · intro q2 hq2
    rcases List.mem_map.1 hq2 with ⟨q0, _, rfl⟩
    exact sanitizeText_clean _

theorem parser_sanitizes_unconditionally_witness :
    questionClean
      { qtype := "NUMERICAL", prompt := "Compute.",
        payload := .numerical
          { answer := some 5, toleranceMode := "percent_margin",
            marginValue := some 1, lowerBound := some (99/20),
            upperBound := some (101/20) } } ∧
    cleanStr (textCleanerClean { title := "T" }).1.title ∧
    ∀ q2 ∈ (textCleanerClean { title := "T" }).1.questions, cleanStr q2.prompt :=
  parser_sanitizes_unconditionally (fun _ => "u")
    (fun _ => by intro c hc; fin_cases hc; decide)
    numTolBlock _ (parseBlock_numTolBlock (fun _ => "u")) { title := "T" }
